import Mathlib

/-!
# Movie catalog backend: review aggregation, wishlists, custom lists, communities

A shallow embedding of the review and movie handlers of
`server/Controller/movie.controller.js`, of the handlers of
`server/Controller/wishlist.controller.js` and
`server/Controller/communities.controller.js`, and of the two movie handlers
of `server/Controller/admin.controller.js`, together with the `Movie`, `User`
and `Community` schemas of `server/Models` and the route tables of
`server/Routes/communities.routes.js` and `server/Routes/movie.routes.js`.

Modelling conventions.

* A JavaScript number is an IEEE-754 double. A finite double is modelled by the
  rational (`ℚ`) that is its exact value; comparisons of doubles are
  comparisons of these values. The operators `+` and `/` are `jsAdd` and
  `jsDiv`: the exact sum or quotient, rounded to the nearest double, ties to
  the even significand (`roundDouble`). Numbers that travel in a JSON body are
  finite.
* A request-body field is a `JSValue`: the handlers test truthiness and
  `typeof` themselves, so the dynamic type of the field is part of their
  behaviour.
* The document store is a finite map from `_id` to document, passed in and
  returned explicitly.  `Movie.findById` is a lookup, `movie.save()` writes the
  whole document back under its `_id`.  Reads and whole-document writes do
  not fail; an insert under a used `_id` and an update rejected by the schema
  validators raise.
* A handler returns the value it responds with, or the exception it throws,
  paired with the store it leaves behind.
* Dates are milliseconds since the epoch; `Date.now()` is the field `now` of
  the request.
* Ids are `ObjectId` values compared by value. `populate` replaces a single
  reference by the referenced document, or by `null` when there is none, and
  drops the missing entries of an array of references.
* Handlers run one after the other; no two requests interleave.
* A query parameter `page` or `limit` is absent or the decimal form of an
  integer. `skip` and `limit` chained onto `findById` belong to the query over
  the collection, not to an array inside the document found.
* A router is the list of its registrations in source order; a request path
  is the list of its segments, and the first matching registration handles
  the request.
-/

namespace MovieCatalog

/-! ## JavaScript values -/

/-- A Mongo `ObjectId`, a 96-bit value; `a.toString() === b.toString()` is
equality of the values. -/
abbrev ObjectId := Nat

/-- The value of a field of a parsed JSON request body (`undefined` when the
key is absent). -/
inductive JSValue where
  | undefined
  | null
  | bool (b : Bool)
  | num (q : ℚ)
  | str (s : String)
  | object
deriving DecidableEq

/-- JavaScript `ToBoolean`. -/
def JSValue.truthy : JSValue → Bool
  | .undefined => false
  | .null => false
  | .bool b => b
  | .num q => decide (q ≠ 0)
  | .str s => decide (s ≠ "")
  | .object => true

/-- The code points removed by `String.prototype.trim`: ECMAScript WhiteSpace
and LineTerminator. -/
def isWhiteSpace (c : Char) : Bool :=
  c.toNat ∈ [0x09, 0x0A, 0x0B, 0x0C, 0x0D, 0x20, 0xA0, 0x1680, 0x2028, 0x2029,
    0x202F, 0x205F, 0x3000, 0xFEFF] || (0x2000 ≤ c.toNat && c.toNat ≤ 0x200A)

/-- `String.prototype.trim` on the list of characters. -/
def trimChars (cs : List Char) : List Char :=
  ((cs.dropWhile isWhiteSpace).reverse.dropWhile isWhiteSpace).reverse

/-- `s.trim()`. -/
def trim (s : String) : String := ⟨trimChars s.data⟩

/-- `Array.prototype.findIndex`: index of the first element satisfying `p`,
`-1` when there is none. -/
def findIndex {α : Type} (p : α → Bool) : List α → Int
  | [] => -1
  | x :: xs => if p x then 0 else
      let i := findIndex p xs
      if i = -1 then -1 else i + 1

/-- `xs.splice(start, 1)`: a negative `start` counts from the end. -/
def splice1 {α : Type} (xs : List α) (start : Int) : List α :=
  xs.eraseIdx (if start < 0 then (xs.length + start).toNat else start.toNat)

/-- The array after mutating in place the element that `Array.prototype.find`
returns for `p` (the first one satisfying it). -/
def mutateFound {α : Type} (p : α → Bool) (f : α → α) : List α → List α
  | [] => []
  | x :: xs => if p x then f x :: xs else x :: mutateFound p f xs

/-! ## Documents -/

/-- An element of `movieSchema.reviews`, with the four paths the schema
declares (the implicit sub-document `_id` is left out). -/
structure Review where
  user : ObjectId
  rating : ℚ
  reviewText : String
  createdAt : Nat
deriving DecidableEq

/-- The embedded document `movieSchema.boxOffice`. -/
structure BoxOffice where
  openingWeekend : Option ℚ
  totalEarnings : Option ℚ
  internationalRevenue : Option ℚ
deriving DecidableEq

/-- An element of `movieSchema.awards`. -/
structure Award where
  awardName : Option String
  year : Option ℚ
  result : Option String
deriving DecidableEq

/-- A document of the `Movie` model (its `_id` is its key in the store). -/
structure Movie where
  title : String
  genre : List String
  director : Option ObjectId
  cast : List ObjectId
  releaseDate : Option Nat
  runtime : Option ℚ
  synopsis : Option String
  averageRating : ℚ
  coverPhoto : Option String
  trivia : List String
  goofs : List String
  soundtrackInfo : List String
  ageRating : Option String
  parentalGuidance : Option String
  reviews : List Review
  boxOffice : BoxOffice
  awards : List Award
  createdAt : Nat
  updatedAt : Nat
deriving DecidableEq

/-- The `movies` collection. -/
abbrev MovieCollection := ObjectId → Option Movie

/-- The write of `movie.save()`: the document replaces the one stored under
its `_id`, with `updatedAt` refreshed (`timestamps: true`). A save that
changes nothing is modelled as refreshing `updatedAt` as well. -/
def save (db : MovieCollection) (id : ObjectId) (movie : Movie) (now : Nat) :
    MovieCollection :=
  Function.update db id (some { movie with updatedAt := now })

/-! ## Requests, responses, exceptions -/

/-- What a handler can throw: an `ErrorHandler(statusCode, message)` raised by
the controller itself, a runtime `TypeError`, or an error raised by the store
driver (a failed validator, a duplicate key). -/
inductive Thrown where
  | ErrorHandler (statusCode : Nat) (message : String)
  | TypeError (message : String)
  | StoreError (message : String)
deriving DecidableEq

/-- The envelope `new ApiResponseHandler(statusCode, data, message)`. -/
structure ApiResponseHandler (α : Type) where
  statusCode : Nat
  data : α
  message : String
deriving DecidableEq

/-- The authenticated principal `req.user`. -/
structure AuthUser where
  _id : ObjectId
  role : String
deriving DecidableEq

/-- A request to one of the three review handlers: `req.params.id`,
`req.body.rating`, `req.body.reviewText`, `req.user`, and the clock. -/
structure ReviewRequest where
  id : ObjectId
  rating : JSValue
  reviewText : JSValue
  user : AuthUser
  now : Nat

/-- The plain object `newReview` that `addMovieReview` builds and returns. -/
structure NewReview where
  user : ObjectId
  rating : ℚ
  reviewText : String
deriving DecidableEq

/-- The outcome of a handler: response or exception, and the store left. -/
abbrev Outcome (α : Type) := Except Thrown (ApiResponseHandler α) × MovieCollection

/-! ## Double arithmetic -/

/-- Rounding of a rational to the nearest integer, to the even one of the two
when it lies half way between them. -/
def roundHalfEven (q : ℚ) : ℤ :=
  if q - ⌊q⌋ < 1 / 2 then ⌊q⌋
  else if 1 / 2 < q - ⌊q⌋ then ⌊q⌋ + 1
  else if ⌊q⌋ % 2 = 0 then ⌊q⌋ else ⌊q⌋ + 1

/-- The exponent of the spacing of the doubles around `q`: a double has 53
significant bits, so for `2^e ≤ |q| < 2^(e+1)` neighbouring doubles are
`2^(e-52)` apart; below `2^-1022` (the subnormal range, zero included) they
are `2^-1074` apart. -/
def ulpExponent (q : ℚ) : ℤ := max (Int.log 2 |q| - 52) (-1074)

/-- The double nearest to the rational `q`, ties to the even significand (the
IEEE-754 default rounding, which JavaScript uses). A result of magnitude
`2^1024` or more, where the machine gives `Infinity`, is left finite: the
handlers add at most `2^32` ratings, which the schema keeps between 1 and 5. -/
def roundDouble (q : ℚ) : ℚ :=
  (roundHalfEven (q / 2 ^ ulpExponent q) : ℚ) * 2 ^ ulpExponent q

/-- The operator `+` on two numbers: the exact sum, rounded. -/
def jsAdd (a b : ℚ) : ℚ := roundDouble (a + b)

/-- The operator `/` on two numbers, the divisor not zero: the exact
quotient, rounded. -/
def jsDiv (a b : ℚ) : ℚ := roundDouble (a / b)

/-! ## Average rating -/

/-- `movie.reviews.reduce((acc, review) => acc + review.rating, 0)`. -/
def totalRatings (reviews : List Review) : ℚ :=
  reviews.foldl (fun acc review => jsAdd acc review.rating) 0

/-- `totalRatings / movie.reviews.length`, as the handlers recompute it. The
handlers only divide when the array is non-empty. -/
def recomputeAverage (reviews : List Review) : ℚ :=
  jsDiv (totalRatings reviews) (reviews.length : ℚ)

/-! ## Review handlers -/

/-- The handler `addMovieReview`. -/
def addMovieReview (db : MovieCollection) (req : ReviewRequest) : Outcome NewReview :=
  -- if (!rating || typeof rating !== 'number' || rating < 1 || rating > 5)
  match req.rating with
  | .num rating =>
    if rating = 0 ∨ rating < 1 ∨ rating > 5 then
      (.error (.ErrorHandler 400 "Rating must be a number between 1 and 5."), db)
    else
      -- if (!reviewText || reviewText.trim().length === 0)
      match req.reviewText with
      | .str reviewText =>
        if reviewText = "" ∨ (trim reviewText).length = 0 then
          (.error (.ErrorHandler 400 "Review text cannot be empty."), db)
        else
          match db req.id with
          | none => (.error (.ErrorHandler 404 "Movie not found."), db)
          | some movie =>
            match movie.reviews.find? (fun review => review.user == req.user._id) with
            | some _ =>
              (.error (.ErrorHandler 400
                "User has already submitted a review for this movie."), db)
            | none =>
              let newReview : NewReview :=
                { user := req.user._id, rating := rating, reviewText := reviewText }
              -- movie.reviews.push(newReview): the schema adds createdAt
              let reviews := movie.reviews ++
                [{ user := newReview.user, rating := newReview.rating,
                   reviewText := newReview.reviewText, createdAt := req.now }]
              let movie := { movie with
                reviews := reviews, averageRating := recomputeAverage reviews }
              (.ok ⟨201, newReview, "Review added successfully."⟩,
                save db req.id movie req.now)
      | other =>
        if !other.truthy then
          (.error (.ErrorHandler 400 "Review text cannot be empty."), db)
        else
          (.error (.TypeError "reviewText.trim is not a function"), db)
  | _ => (.error (.ErrorHandler 400 "Rating must be a number between 1 and 5."), db)

/-- The check `rating && (typeof rating !== 'number' || rating < 1 || rating > 5)`
of `updateMovieReview`. -/
def updateRatingRejected : JSValue → Bool
  | .num rating => decide (rating ≠ 0 ∧ (rating < 1 ∨ rating > 5))
  | other => other.truthy

/-- The check `reviewText && reviewText.trim().length === 0` of
`updateMovieReview`; a truthy value without a `trim` method raises. -/
def updateTextRejected : JSValue → Except Thrown Bool
  | .str reviewText => .ok (decide (reviewText ≠ "" ∧ (trim reviewText).length = 0))
  | other =>
    if other.truthy then .error (.TypeError "reviewText.trim is not a function")
    else .ok false

/-- The two assignments `if (rating) review.rating = rating;` and
`if (reviewText) review.reviewText = reviewText;`. Only a number, resp. a
string, reaches them truthy. -/
def applyReviewUpdate (rating reviewText : JSValue) (review : Review) : Review :=
  let review := match rating with
    | .num q => if q ≠ 0 then { review with rating := q } else review
    | _ => review
  match reviewText with
  | .str s => if s ≠ "" then { review with reviewText := s } else review
  | _ => review

/-- The handler `updateMovieReview`. -/
def updateMovieReview (db : MovieCollection) (req : ReviewRequest) : Outcome Review :=
  if updateRatingRejected req.rating then
    (.error (.ErrorHandler 400 "Rating must be a number between 1 and 5."), db)
  else
    match updateTextRejected req.reviewText with
    | .error e => (.error e, db)
    | .ok true => (.error (.ErrorHandler 400 "Review text cannot be empty."), db)
    | .ok false =>
      match db req.id with
      | none => (.error (.ErrorHandler 404 "Movie not found."), db)
      | some movie =>
        match movie.reviews.find? (fun review => review.user == req.user._id) with
        | none => (.error (.ErrorHandler 404 "Review not found for this user."), db)
        | some review =>
          let review := applyReviewUpdate req.rating req.reviewText review
          let reviews := mutateFound (fun review => review.user == req.user._id)
            (applyReviewUpdate req.rating req.reviewText) movie.reviews
          let movie := { movie with
            reviews := reviews, averageRating := recomputeAverage reviews }
          (.ok ⟨200, review, "Review updated successfully."⟩,
            save db req.id movie req.now)

/-- The handler `deleteMovieReview`. -/
def deleteMovieReview (db : MovieCollection) (req : ReviewRequest) : Outcome Unit :=
  match db req.id with
  | none => (.error (.ErrorHandler 404 "Movie not found."), db)
  | some movie =>
    let reviewIndex := findIndex (fun review => review.user == req.user._id) movie.reviews
    if reviewIndex = -1 ∧ req.user.role ≠ "admin" then
      (.error (.ErrorHandler 403 "Review not found or insufficient permissions."), db)
    else if req.user.role = "admin" ∧ reviewIndex = -1 then
      (.error (.ErrorHandler 404 "Review not found."), db)
    else
      let reviews := splice1 movie.reviews reviewIndex
      let averageRating := if reviews.length > 0 then recomputeAverage reviews else 0
      let movie := { movie with reviews := reviews, averageRating := averageRating }
      (.ok ⟨200, (), "Review deleted successfully."⟩, save db req.id movie req.now)

/-! ## Sequences of review operations -/

/-- The arithmetic mean of a list of ratings, `0` for the empty list. -/
def mean (ratings : List ℚ) : ℚ :=
  if ratings.length = 0 then 0 else ratings.sum / (ratings.length : ℚ)

/-- The mean of a list of ratings as double arithmetic computes it: the
ratings are added one after the other, from the left, each sum rounded, and
the total is divided by their number, the quotient rounded; `0` for the empty
list. -/
def doubleMean (ratings : List ℚ) : ℚ :=
  if ratings.length = 0 then 0
  else jsDiv (ratings.foldl jsAdd 0) (ratings.length : ℚ)

/-- The ratings `reviews[].rating` of a movie. -/
def Movie.ratings (movie : Movie) : List ℚ := movie.reviews.map (fun review => review.rating)

/-- A call of one of the three review handlers. -/
inductive ReviewOp where
  | add (req : ReviewRequest)
  | update (req : ReviewRequest)
  | delete (req : ReviewRequest)

/-- The request a call carries. -/
def ReviewOp.req : ReviewOp → ReviewRequest
  | .add req => req
  | .update req => req
  | .delete req => req

/-- Whether the call responds successfully on the store `db`. -/
def ReviewOp.succeeds (db : MovieCollection) : ReviewOp → Bool
  | .add req => (addMovieReview db req).1.isOk
  | .update req => (updateMovieReview db req).1.isOk
  | .delete req => (deleteMovieReview db req).1.isOk

/-- The store the call leaves behind. -/
def ReviewOp.next (db : MovieCollection) : ReviewOp → MovieCollection
  | .add req => (addMovieReview db req).2
  | .update req => (updateMovieReview db req).2
  | .delete req => (deleteMovieReview db req).2

/-- Run a finite sequence of calls, one after the other. -/
def runOps (db : MovieCollection) (ops : List ReviewOp) : MovieCollection :=
  ops.foldl ReviewOp.next db

/-- No two reviews of the movie have the same user. -/
def Movie.oneReviewPerUser (movie : Movie) : Prop :=
  movie.reviews.Pairwise (fun a b => a.user ≠ b.user)

/-- A movie document with the given reviews and stored average and otherwise
empty fields. -/
def blankMovie (reviews : List Review) (averageRating : ℚ) : Movie :=
  { title := "Heat", genre := [], director := none, cast := [], releaseDate := none,
    runtime := none, synopsis := none, averageRating := averageRating,
    coverPhoto := none, trivia := [], goofs := [], soundtrackInfo := [],
    ageRating := none, parentalGuidance := none, reviews := reviews,
    boxOffice := ⟨none, none, none⟩, awards := [], createdAt := 0, updatedAt := 0 }

/-- A store holding one movie, under `_id` 1. -/
def singleMovieDb (movie : Movie) : MovieCollection :=
  fun id => if id = 1 then some movie else none

/-- A request on movie 1 by a user of role `normal`. -/
def requestBy (user : ObjectId) (rating reviewText : JSValue) : ReviewRequest :=
  { id := 1, rating := rating, reviewText := reviewText,
    user := { _id := user, role := "normal" }, now := 1000 }

/-- The scenario: add 4 by user 10, add 2 by user 11, user 10 deletes, user 11
deletes. -/
def scenarioOps : List ReviewOp :=
  [ .add (requestBy 10 (.num 4) (.str "Good")),
    .add (requestBy 11 (.num 2) (.str "Meh")),
    .delete (requestBy 10 .undefined .undefined),
    .delete (requestBy 11 .undefined .undefined) ]

/-- Three users add the ratings 4, 2 and 5. -/
def threeAdds : List ReviewOp :=
  [ .add (requestBy 10 (.num 4) (.str "Good")),
    .add (requestBy 11 (.num 2) (.str "Meh")),
    .add (requestBy 12 (.num 5) (.str "Great")) ]

/-! ## Error kinds -/

/-- The error taxonomy of the specification. -/
inductive ErrorKind where
  | ValidationError
  | NotFound
  | Conflict
  | Forbidden
  | Internal
deriving DecidableEq

/-- The kind under which a thrown value reaches the caller: the duplicate
messages are conflicts, the other 400s validation errors, 404 not-found,
401 and 403 forbidden; anything else, a runtime exception included, is
internal. -/
def Thrown.kind : Thrown → ErrorKind
  | .ErrorHandler 400 message =>
    if message = "User has already submitted a review for this movie." then .Conflict
    else .ValidationError
  | .ErrorHandler 409 _ => .Conflict
  | .ErrorHandler 404 _ => .NotFound
  | .ErrorHandler 401 _ => .Forbidden
  | .ErrorHandler 403 _ => .Forbidden
  | .ErrorHandler _ _ => .Internal
  | .TypeError _ => .Internal
  | .StoreError _ => .Internal

/-- A store holding, under `_id` 1, a movie reviewed once, by user 10 with
rating 4. -/
def reviewedDb : MovieCollection :=
  singleMovieDb (blankMovie [{ user := 10, rating := 4, reviewText := "Good", createdAt := 1000 }] 4)

/-! ## Movie handlers (admin) -/

/-- The body of an `addMovie` request, each field at the type its schema path
casts to; `none` when the key is absent. -/
structure AddMovieBody where
  title : Option String
  genre : Option (List String)
  director : Option ObjectId
  cast : Option (List ObjectId)
  releaseDate : Option Nat
  runtime : Option ℚ
  synopsis : Option String
  averageRating : Option ℚ
  coverPhoto : Option String
  trivia : Option (List String)
  goofs : Option (List String)
  soundtrack : Option (List String)
  ageRating : Option String
  parentalGuidance : Option String
  boxOffice : Option BoxOffice
  awards : Option (List Award)

/-- A request to `addMovie`: `req.user`, `req.body`, the clock, and the
`_id` the driver generates for the new document. -/
structure AddMovieRequest where
  user : AuthUser
  body : AddMovieBody
  now : Nat
  newId : ObjectId

/-- Falsiness of an optional string field: absent or empty. -/
def falsyString : Option String → Bool
  | none => true
  | some s => decide (s = "")

/-- Falsiness of an optional numeric field: absent or zero. -/
def falsyNumber : Option ℚ → Bool
  | none => true
  | some q => decide (q = 0)

/-- The test `!title || !genre || !director || !cast || !releaseDate ||
!runtime || !synopsis`; an array or an id, when present, is truthy. -/
def missingMandatory (body : AddMovieBody) : Bool :=
  falsyString body.title || body.genre.isNone || body.director.isNone ||
    body.cast.isNone || (body.releaseDate.isNone || body.releaseDate == some 0) ||
    falsyNumber body.runtime || falsyString body.synopsis

/-- The expression `averageRating || 0`. -/
def averageRatingOrZero : Option ℚ → ℚ
  | none => 0
  | some q => if q ≠ 0 then q else 0

/-- The document `new Movie({...})` of `addMovie`: `soundtrack` is no schema
path and is dropped, `soundtrackInfo` and `reviews` are not passed and take
their defaults. -/
def newMovie (body : AddMovieBody) (now : Nat) : Movie :=
  { title := body.title.getD "",
    genre := body.genre.getD [],
    director := body.director,
    cast := body.cast.getD [],
    releaseDate := body.releaseDate,
    runtime := body.runtime,
    synopsis := body.synopsis,
    averageRating := averageRatingOrZero body.averageRating,
    coverPhoto := body.coverPhoto,
    trivia := body.trivia.getD [],
    goofs := body.goofs.getD [],
    soundtrackInfo := [],
    ageRating := body.ageRating,
    parentalGuidance := body.parentalGuidance,
    reviews := [],
    boxOffice :=
      { openingWeekend := body.boxOffice.bind (fun b => b.openingWeekend),
        totalEarnings := body.boxOffice.bind (fun b => b.totalEarnings),
        internationalRevenue := body.boxOffice.bind (fun b => b.internationalRevenue) },
    awards := (body.awards.map (fun awards => awards.map (fun award =>
      ({ awardName := award.awardName, year := award.year, result := award.result } : Award)))).getD [],
    createdAt := now,
    updatedAt := now }

/-- The handler `addMovie`. -/
def addMovie (db : MovieCollection) (req : AddMovieRequest) : Outcome Movie :=
  if req.user.role ≠ "admin" then
    (.error (.ErrorHandler 401 "Access denied. Only admins can add movies."), db)
  else if missingMandatory req.body then
    (.error (.ErrorHandler 400 "Please provide all mandatory movie details."), db)
  else
    match db req.newId with
    | some _ => (.error (.StoreError "E11000 duplicate key error"), db)
    | none =>
      let savedMovie := newMovie req.body req.now
      (.ok ⟨201, savedMovie, "Movie added successfully."⟩,
        Function.update db req.newId (some savedMovie))

/-- The body of an `updateMovie` request: for each schema path the value to
`$set`, `none` when the key is absent, and the number of keys that are no
schema path (strict mode drops them, `Object.keys` counts them). -/
structure MovieUpdate where
  title : Option String
  genre : Option (List String)
  director : Option (Option ObjectId)
  cast : Option (List ObjectId)
  releaseDate : Option (Option Nat)
  runtime : Option (Option ℚ)
  synopsis : Option (Option String)
  averageRating : Option ℚ
  coverPhoto : Option (Option String)
  trivia : Option (List String)
  goofs : Option (List String)
  soundtrackInfo : Option (List String)
  ageRating : Option (Option String)
  parentalGuidance : Option (Option String)
  reviews : Option (List Review)
  boxOffice : Option BoxOffice
  awards : Option (List Award)
  otherKeys : Nat

/-- The value of `Object.keys(updateData).length`. -/
def MovieUpdate.keyCount (u : MovieUpdate) : Nat :=
  [u.title.isSome, u.genre.isSome, u.director.isSome, u.cast.isSome, u.releaseDate.isSome,
    u.runtime.isSome, u.synopsis.isSome, u.averageRating.isSome, u.coverPhoto.isSome,
    u.trivia.isSome, u.goofs.isSome, u.soundtrackInfo.isSome, u.ageRating.isSome,
    u.parentalGuidance.isSome, u.reviews.isSome, u.boxOffice.isSome,
    u.awards.isSome].count true + u.otherKeys

/-- The effect of `{ $set: updateData }` on a document. -/
def MovieUpdate.set (u : MovieUpdate) (movie : Movie) (now : Nat) : Movie :=
  { title := u.title.getD movie.title,
    genre := u.genre.getD movie.genre,
    director := u.director.getD movie.director,
    cast := u.cast.getD movie.cast,
    releaseDate := u.releaseDate.getD movie.releaseDate,
    runtime := u.runtime.getD movie.runtime,
    synopsis := u.synopsis.getD movie.synopsis,
    averageRating := u.averageRating.getD movie.averageRating,
    coverPhoto := u.coverPhoto.getD movie.coverPhoto,
    trivia := u.trivia.getD movie.trivia,
    goofs := u.goofs.getD movie.goofs,
    soundtrackInfo := u.soundtrackInfo.getD movie.soundtrackInfo,
    ageRating := u.ageRating.getD movie.ageRating,
    parentalGuidance := u.parentalGuidance.getD movie.parentalGuidance,
    reviews := u.reviews.getD movie.reviews,
    boxOffice := u.boxOffice.getD movie.boxOffice,
    awards := u.awards.getD movie.awards,
    createdAt := movie.createdAt,
    updatedAt := now }

/-- A request to `updateMovie`: `req.user`, `req.params.id`, `req.body`, the
clock. -/
structure UpdateMovieRequest where
  user : AuthUser
  id : ObjectId
  body : MovieUpdate
  now : Nat

/-- The handler `updateMovie`. The schema validators that
`runValidators: true` runs on the update are the parameter `validators`. -/
def updateMovie (validators : MovieUpdate → Bool) (db : MovieCollection)
    (req : UpdateMovieRequest) : Outcome Movie :=
  if req.user.role ≠ "admin" then
    (.error (.ErrorHandler 403 "Access denied. Only admins can update movies."), db)
  else if req.body.keyCount = 0 then
    (.error (.ErrorHandler 400 "No update data provided."), db)
  else if !validators req.body then
    (.error (.StoreError "Validation failed"), db)
  else
    match db req.id with
    | none => (.error (.ErrorHandler 404 "Movie not found or could not be updated."), db)
    | some movie =>
      let updatedMovie := req.body.set movie req.now
      (.ok ⟨200, updatedMovie, "Movie updated successfully."⟩,
        Function.update db req.id (some updatedMovie))

/-- A request to `deleteMovie`: `req.user` and `req.params.id`. -/
structure DeleteMovieRequest where
  user : AuthUser
  id : ObjectId

/-- The handler `deleteMovie`. -/
def deleteMovie (db : MovieCollection) (req : DeleteMovieRequest) : Outcome Unit :=
  if req.user.role ≠ "admin" then
    (.error (.ErrorHandler 401 "Access denied. Only admins can delete movies."), db)
  else
    match db req.id with
    | none => (.error (.ErrorHandler 404 "Movie not found or could not be deleted."), db)
    | some _ =>
      (.ok ⟨200, (), "Movie deleted successfully."⟩, Function.update db req.id none)

/-- A call of one of the handlers of the movie controller that write to the
store (the other handlers only read). -/
inductive MovieOp where
  | addMovie (req : AddMovieRequest)
  | updateMovie (req : UpdateMovieRequest)
  | deleteMovie (req : DeleteMovieRequest)
  | review (op : ReviewOp)

/-- The store the call leaves behind. -/
def MovieOp.next (validators : MovieUpdate → Bool) (db : MovieCollection) :
    MovieOp → MovieCollection
  | .addMovie req => (MovieCatalog.addMovie db req).2
  | .updateMovie req => (MovieCatalog.updateMovie validators db req).2
  | .deleteMovie req => (MovieCatalog.deleteMovie db req).2
  | .review op => op.next db

/-- Every stored movie has `averageRating` equal to the mean of its
`reviews[].rating` as double arithmetic computes it, `0` without reviews. -/
def AverageConsistent (db : MovieCollection) : Prop :=
  ∀ id movie, db id = some movie → movie.averageRating = doubleMean movie.ratings

/-- The call does not write the derived fields from the request body: an
`addMovie` body carries no non-zero `averageRating`, an `updateMovie` body
names neither `averageRating` nor `reviews`. -/
def MovieOp.leavesDerivedFields : MovieOp → Prop
  | .addMovie req => req.body.averageRating = none ∨ req.body.averageRating = some 0
  | .updateMovie req => req.body.averageRating = none ∧ req.body.reviews = none
  | .deleteMovie _ => True
  | .review _ => True

/-- An `addMovie` body with the mandatory fields and the given
`averageRating`. -/
def heatBody (averageRating : Option ℚ) : AddMovieBody :=
  { title := some "Heat", genre := some ["Crime"], director := some 7, cast := some [8, 9],
    releaseDate := some 819158400000, runtime := some 170, synopsis := some "A heist.",
    averageRating := averageRating, coverPhoto := none, trivia := none, goofs := none,
    soundtrack := none, ageRating := none, parentalGuidance := none, boxOffice := none,
    awards := none }

/-- An `addMovie` request by an admin, for a document that gets `_id` 1. -/
def addHeat (averageRating : Option ℚ) : AddMovieRequest :=
  { user := { _id := 99, role := "admin" }, body := heatBody averageRating, now := 500,
    newId := 1 }

/-- The empty collection. -/
def emptyDb : MovieCollection := fun _ => none

/-- Run a finite sequence of writing calls of the movie controller. -/
def runMovieOps (validators : MovieUpdate → Bool) (db : MovieCollection)
    (ops : List MovieOp) : MovieCollection :=
  ops.foldl (MovieOp.next validators) db

/-- Create the movie without an `averageRating` in the body, then review it:
add 4 by user 10, add 2 by user 11. -/
def createAndReview : List MovieOp :=
  [ .addMovie (addHeat none),
    .review (.add (requestBy 10 (.num 4) (.str "Good"))),
    .review (.add (requestBy 11 (.num 2) (.str "Meh"))) ]

/-- The `updateMovieReview` bodies that pass its validation: `rating` falsy
(absent included) or a number in [1,5], `reviewText` falsy (absent included)
or a string that is non-empty after trimming. -/
def ValidUpdateInput (req : ReviewRequest) : Prop :=
  (req.rating.truthy = false ∨ ∃ q, req.rating = .num q ∧ 1 ≤ q ∧ q ≤ 5) ∧
  (req.reviewText.truthy = false ∨ ∃ s, req.reviewText = .str s ∧ (trim s).length ≠ 0)

/-- The handler fails with an error of kind `NotFound`. -/
def failsNotFound {α : Type} (outcome : Outcome α) : Prop :=
  ∃ e, outcome.1 = .error e ∧ e.kind = .NotFound

/-- A store whose movie 1 has three reviews, by users 10, 11 and 12; the
stored average is the double next to 11/3. -/
def threeReviewsDb : MovieCollection :=
  singleMovieDb (blankMovie
    [ { user := 10, rating := 4, reviewText := "Good", createdAt := 1000 },
      { user := 11, rating := 2, reviewText := "Meh", createdAt := 2000 },
      { user := 12, rating := 5, reviewText := "Great", createdAt := 3000 } ]
    (8256599316845909 / 2251799813685248))

/-- A store whose movie 1 has four reviews, by users 10, 11, 12 and 13, with
the ratings 4, 2, 5 and 3. -/
def fourReviewsDb : MovieCollection :=
  singleMovieDb (blankMovie
    [ { user := 10, rating := 4, reviewText := "Good", createdAt := 1000 },
      { user := 11, rating := 2, reviewText := "Meh", createdAt := 2000 },
      { user := 12, rating := 5, reviewText := "Great", createdAt := 3000 },
      { user := 13, rating := 3, reviewText := "Fine", createdAt := 4000 } ] (7 / 2))

/-- A `deleteMovieReview` request on movie 1 by user 99, whose role is
`admin`. -/
def adminDeleteRequest : ReviewRequest :=
  { id := 1, rating := .undefined, reviewText := .undefined,
    user := { _id := 99, role := "admin" }, now := 1000 }

/-! ## Users -/

/-- The embedded document `userSchema.preferences`. -/
structure Preferences where
  favoriteGenres : List String
  favoriteActors : List ObjectId
deriving DecidableEq

/-- An element of `userSchema.customLists`. -/
structure CustomList where
  title : String
  description : String
  movies : List ObjectId
deriving DecidableEq

/-- An element of `userSchema.notifications`. -/
structure Notification where
  message : Option String
  date : Nat
  read : Bool
deriving DecidableEq

/-- A document of the `User` model (its `_id` is its key in the store). -/
structure User where
  name : Option String
  email : String
  password : String
  role : String
  avatar : String
  preferences : Option Preferences
  wishlist : List ObjectId
  customLists : List CustomList
  notificationsEnabled : Bool
  notifications : List Notification
  refreshToken : Option String
  createdAt : Nat
  updatedAt : Nat
deriving DecidableEq

/-- The `users` collection. -/
abbrev UserCollection := ObjectId → Option User

/-- The write of `user.save()`: the document replaces the one stored under its
`_id`, with `updatedAt` refreshed. The `pre("save")` hook only touches
`password`, which no handler modelled here reads. -/
def saveUser (users : UserCollection) (id : ObjectId) (user : User) (now : Nat) :
    UserCollection :=
  Function.update users id (some { user with updatedAt := now })

/-- The outcome of a handler that writes to the `users` collection. -/
abbrev UserOutcome (α : Type) := Except Thrown (ApiResponseHandler α) × UserCollection

/-- Modelled from the spec: the class `ErrorHandler` (Utils/ApiErrorHandler.js)
is not among the sources; the `message` property of a thrown value is taken to
be the message it was constructed with. -/
def Thrown.message : Thrown → String
  | .ErrorHandler _ message => message
  | .TypeError message => message
  | .StoreError message => message

/-- The construct `try { body } catch (error) { throw rethrow(error) }`: an
exception raised in the body is replaced, a response passes. -/
def tryCatch {α : Type} (body : UserOutcome α) (rethrow : Thrown → Thrown) : UserOutcome α :=
  match body with
  | (.error error, users) => (.error (rethrow error), users)
  | (.ok response, users) => (.ok response, users)

/-! ## Reading reviews -/

/-- The result of populating a `ref: "User"` path with
`select: 'name avatar'`. -/
structure PopulatedUser where
  _id : ObjectId
  name : Option String
  avatar : String
deriving DecidableEq

/-- The value `populate` puts in place of a user reference: the selected
fields of the referenced document, `none` (JavaScript `null`) when no user
has that `_id`. -/
def populateUser (users : UserCollection) (id : ObjectId) : Option PopulatedUser :=
  (users id).map (fun user => { _id := id, name := user.name, avatar := user.avatar })

/-- The start or end index of `Array.prototype.slice` on an array of length
`len`: a negative index counts from the end, and the result is clamped to
`[0, len]`. -/
def sliceIndex (len : Nat) (i : Int) : Nat :=
  if i < 0 then (len + i).toNat else min i.toNat len

/-- `xs.slice(start, stop)` for integer arguments. -/
def jsSlice {α : Type} (xs : List α) (start stop : Int) : List α :=
  (xs.drop (sliceIndex xs.length start)).take
    (sliceIndex xs.length stop - sliceIndex xs.length start)

/-- `xs.map(f)` for a callback that may throw: the first exception aborts the
map. -/
def mapExcept {α β : Type} (f : α → Except Thrown β) : List α → Except Thrown (List β)
  | [] => .ok []
  | x :: xs =>
    match f x with
    | .error e => .error e
    | .ok y =>
      match mapExcept f xs with
      | .error e => .error e
      | .ok ys => .ok (y :: ys)

/-- The `user` object of a listed review: `review.user._id`, `.name`,
`.avatar` of the populated reference; reading `_id` of `null` raises. -/
def reviewAuthor (users : UserCollection) (review : Review) : Except Thrown PopulatedUser :=
  match populateUser users review.user with
  | none => .error (.TypeError "Cannot read properties of null (reading '_id')")
  | some user => .ok user

/-- An element of the `reviews` array of `getMovieReviews`. The callback reads
`review.comment` and `review.date`, which are no paths of the review schema,
so both are `undefined` (`none`). -/
structure ListedReview where
  user : PopulatedUser
  rating : ℚ
  comment : Option String
  date : Option Nat
deriving DecidableEq

/-- The data of a successful `getMovieReviews` response. `totalPages` is
`none` when `Math.ceil` yields no finite number (`limit` 0). -/
structure ReviewPage where
  reviews : List ListedReview
  currentPage : Int
  limit : Int
  totalReviews : Nat
  totalPages : Option Int
deriving DecidableEq

/-- A request to `getMovieReviews`: `req.params.id` and the query parameters
`page` and `limit`, each absent or the decimal form of an integer. -/
structure ReviewListRequest where
  id : ObjectId
  page : Option Int
  limit : Option Int

/-- `Math.ceil(total / limit)`; dividing by 0 gives no finite number. -/
def totalPagesOf (total : Nat) (limit : Int) : Option Int :=
  if limit = 0 then none else some ⌈(total : ℚ) / (limit : ℚ)⌉

/-- The handler `getMovieReviews`. It reads the store and writes nothing. -/
def getMovieReviews (movies : MovieCollection) (users : UserCollection)
    (req : ReviewListRequest) : Except Thrown (ApiResponseHandler (Option ReviewPage)) :=
  let page := req.page.getD 1
  let limit := req.limit.getD 10
  match movies req.id with
  | none => .error (.ErrorHandler 404 "Movie not found.")
  | some movie =>
    let skip := (page - 1) * limit
    let paginatedReviews := jsSlice movie.reviews skip (skip + limit)
    if paginatedReviews.length = 0 then
      .ok ⟨404, none, "No reviews found for the given page."⟩
    else
      match mapExcept (fun review =>
          match reviewAuthor users review with
          | .error e => .error e
          | .ok user =>
            .ok ({ user := user, rating := review.rating, comment := none, date := none }
              : ListedReview)) paginatedReviews with
      | .error e => .error e
      | .ok reviews =>
        .ok ⟨200, some
          { reviews := reviews, currentPage := page, limit := limit,
            totalReviews := movie.reviews.length,
            totalPages := totalPagesOf movie.reviews.length limit },
          "Reviews retrieved successfully."⟩

/-- `reviews.sort((a, b) => b.rating - a.rating)`: the stable sort by rating,
highest first (`Array.prototype.sort` is stable). -/
def sortByRatingDesc (reviews : List Review) : List Review :=
  reviews.insertionSort (fun a b => b.rating ≤ a.rating)

/-- An element of the array `getTopRatedReviews` responds with. -/
structure TopRatedReview where
  user : PopulatedUser
  rating : ℚ
  reviewText : String
  createdAt : Nat
deriving DecidableEq

/-- The handler `getTopRatedReviews`. The array is sorted in memory only;
nothing is saved. -/
def getTopRatedReviews (movies : MovieCollection) (users : UserCollection)
    (id : ObjectId) : Except Thrown (ApiResponseHandler (Option (List TopRatedReview))) :=
  match movies id with
  | none => .error (.ErrorHandler 404 "Movie not found.")
  | some movie =>
    let topRatedReviews := jsSlice (sortByRatingDesc movie.reviews) 0 3
    if topRatedReviews.length = 0 then
      .ok ⟨404, none, "No reviews found for this movie."⟩
    else
      match mapExcept (fun review =>
          match reviewAuthor users review with
          | .error e => .error e
          | .ok user =>
            .ok ({ user := user, rating := review.rating, reviewText := review.reviewText,
                   createdAt := review.createdAt } : TopRatedReview)) topRatedReviews with
      | .error e => .error e
      | .ok reviews => .ok ⟨200, some reviews, "Top-rated reviews fetched successfully."⟩

/-- A user document with the given name, wishlist and custom lists and
otherwise default fields. -/
def blankUser (name : String) (wishlist : List ObjectId) (customLists : List CustomList) :
    User :=
  { name := some name, email := "user@example.org", password := "hash", role := "normal",
    avatar := "avatar.jpg", preferences := none, wishlist := wishlist,
    customLists := customLists, notificationsEnabled := true, notifications := [],
    refreshToken := none, createdAt := 0, updatedAt := 0 }

/-- The users 10 ("Ann") and 11 ("Bob"), with empty wishlists and no lists. -/
def annAndBob : UserCollection :=
  fun id => if id = 10 then some (blankUser "Ann" [] [])
    else if id = 11 then some (blankUser "Bob" [] []) else none

/-- A store whose movie 1 was reviewed by user 10 with rating 2 and then by
user 11 with rating 5. -/
def lowThenHighDb : MovieCollection :=
  singleMovieDb (blankMovie
    [ { user := 10, rating := 2, reviewText := "Meh", createdAt := 1000 },
      { user := 11, rating := 5, reviewText := "Great", createdAt := 2000 } ] (7 / 2))

/-! ## Wishlist and custom lists -/

/-- A request to `addToWishlist` or `removeFromWishlist`: `req.user`, the
`movieId` of the body (`none` when missing or falsy), the clock. -/
structure WishlistRequest where
  user : AuthUser
  movieId : Option ObjectId
  now : Nat

/-- The handler `addToWishlist`. The text of `error.stack`, which the `catch`
block puts in the error it throws, is the parameter `stack`. -/
def addToWishlist (stack : Thrown → String) (movies : MovieCollection)
    (users : UserCollection) (req : WishlistRequest) : UserOutcome (Option (List ObjectId)) :=
  match req.movieId with
  | none => (.error (.ErrorHandler 400 "Movie ID is required to add to wishlist."), users)
  | some movieId =>
    tryCatch
      (match users req.user._id, movies movieId with
        | none, _ => (.error (.ErrorHandler 404 "User not found."), users)
        | some _, none => (.error (.ErrorHandler 404 "Movie not found."), users)
        | some user, some _ =>
          if user.wishlist.contains movieId then
            (.ok ⟨400, none, "Movie is already in your wishlist."⟩, users)
          else
            let wishlist := user.wishlist ++ [movieId]
            (.ok ⟨200, some wishlist, "Movie added to wishlist successfully."⟩,
              saveUser users req.user._id { user with wishlist := wishlist } req.now))
      (fun error => .ErrorHandler 500 (stack error))

/-- The handler `removeFromWishlist`. -/
def removeFromWishlist (users : UserCollection) (req : WishlistRequest) :
    UserOutcome (Option (List ObjectId)) :=
  match req.movieId with
  | none => (.error (.ErrorHandler 400 "Movie ID is required to remove from wishlist."), users)
  | some movieId =>
    tryCatch
      (match users req.user._id with
        | none => (.error (.ErrorHandler 404 "User not found."), users)
        | some user =>
          let movieIndex := findIndex (fun entry => entry == movieId) user.wishlist
          if movieIndex = -1 then
            (.ok ⟨400, none, "Movie not found in your wishlist."⟩, users)
          else
            let wishlist := splice1 user.wishlist movieIndex
            (.ok ⟨200, some wishlist, "Movie removed from wishlist successfully."⟩,
              saveUser users req.user._id { user with wishlist := wishlist } req.now))
      (fun _ => .ErrorHandler 500
        "An error occurred while removing the movie from the wishlist.")

/-- A call of one of the two wishlist handlers. -/
inductive WishlistOp where
  | add (req : WishlistRequest)
  | remove (req : WishlistRequest)

/-- The `users` collection the call leaves behind. -/
def WishlistOp.next (stack : Thrown → String) (movies : MovieCollection)
    (users : UserCollection) : WishlistOp → UserCollection
  | .add req => (addToWishlist stack movies users req).2
  | .remove req => (removeFromWishlist users req).2

/-- Run a finite sequence of wishlist calls; the movies do not change. -/
def runWishlistOps (stack : Thrown → String) (movies : MovieCollection)
    (users : UserCollection) (ops : List WishlistOp) : UserCollection :=
  ops.foldl (WishlistOp.next stack movies) users

/-- The value of `req.body.movies` in a `createCustomList` request: missing or
falsy, truthy but no array, or an array of ids. -/
inductive MoviesField where
  | missing
  | notArray
  | array (ids : List ObjectId)
deriving DecidableEq

/-- A request to `createCustomList`: `req.user`, and `title`, `description`,
`movies` of the body; the clock. -/
structure CustomListRequest where
  user : AuthUser
  title : Option String
  description : Option String
  movies : MoviesField
  now : Nat

/-- The result of populating a `ref: 'Movie'` entry with
`select: 'title genre director coverPhoto'`. -/
structure PopulatedMovie where
  _id : ObjectId
  title : String
  genre : List String
  director : Option ObjectId
  coverPhoto : Option String
deriving DecidableEq

/-- A custom list whose `movies` are populated. -/
structure PopulatedList where
  title : String
  description : String
  movies : List PopulatedMovie
deriving DecidableEq

/-- Populating an array of movie references: ids without a document are
dropped from the array. -/
def populateMovies (movies : MovieCollection) (ids : List ObjectId) : List PopulatedMovie :=
  ids.filterMap (fun id => (movies id).map (fun movie =>
    { _id := id, title := movie.title, genre := movie.genre, director := movie.director,
      coverPhoto := movie.coverPhoto }))

/-- Populating `customLists.movies` on one list. -/
def populateList (movies : MovieCollection) (list : CustomList) : PopulatedList :=
  { title := list.title, description := list.description,
    movies := populateMovies movies list.movies }

/-- The query `User.findOne({ _id: userId, 'customLists.title': title })`: the
user, when it exists and one of its lists has exactly this title. -/
def findUserWithListTitled (users : UserCollection) (userId : ObjectId) (title : String) :
    Option User :=
  match users userId with
  | none => none
  | some user => if user.customLists.any (fun list => list.title == title) then some user else none

/-- The handler `createCustomList`. -/
def createCustomList (movies : MovieCollection) (users : UserCollection)
    (req : CustomListRequest) : UserOutcome (Option PopulatedList) :=
  match req.title, req.movies with
  | some title, .array ids =>
    if title = "" then
      (.error (.ErrorHandler 400 "Please provide a list name and an array of movie IDs."),
        users)
    else
      tryCatch
        (match findUserWithListTitled users req.user._id title with
          | some _ => (.error (.ErrorHandler 409 "A list with this name already exists."), users)
          | none =>
            let newList : CustomList :=
              { title := title, description := req.description.getD "", movies := ids }
            -- User.findByIdAndUpdate(userId, { $push: { customLists: newList } }, { new: true })
            match users req.user._id with
            | none => (.error (.ErrorHandler 404 "User not found."), users)
            | some user =>
              let user := { user with
                customLists := user.customLists ++ [newList], updatedAt := req.now }
              let createdList := (user.customLists.map (populateList movies)).find?
                (fun list => list.title == title)
              (.ok ⟨201, createdList, "Custom list created successfully."⟩,
                Function.update users req.user._id (some user)))
        (fun error => .ErrorHandler 500 error.message)
  | _, _ =>
    (.error (.ErrorHandler 400 "Please provide a list name and an array of movie IDs."), users)

/-- Run a finite sequence of `createCustomList` calls. -/
def runCreateCustomList (movies : MovieCollection) (users : UserCollection)
    (reqs : List CustomListRequest) : UserCollection :=
  reqs.foldl (fun users req => (createCustomList movies users req).2) users

/-- The titles of a user's custom lists. -/
def User.listTitles (user : User) : List String :=
  user.customLists.map (fun list => list.title)

/-- The ratings of the reviews that a `getMovieReviews` result lists, in the
order listed; `none` when it lists no reviews. -/
def listedRatings (result : Except Thrown (ApiResponseHandler (Option ReviewPage))) :
    Option (List ℚ) :=
  match result with
  | .ok ⟨_, some page, _⟩ => some (page.reviews.map (fun review => review.rating))
  | _ => none

/-- A wishlist request by a user of role `normal` for the given movie. -/
def wishlistRequestBy (user movieId : ObjectId) : WishlistRequest :=
  { user := { _id := user, role := "normal" }, movieId := some movieId, now := 2000 }

/-- The scenario: user 10 adds movie 1, adds it again, then removes it. -/
def wishlistScenario : List WishlistOp :=
  [ .add (wishlistRequestBy 10 1), .add (wishlistRequestBy 10 1),
    .remove (wishlistRequestBy 10 1) ]

/-- The users 10 and 11, user 10 holding one custom list titled "Favs". -/
def annWithFavs : UserCollection :=
  fun id =>
    if id = 10 then
      some (blankUser "Ann" [] [{ title := "Favs", description := "", movies := [1] }])
    else if id = 11 then some (blankUser "Bob" [] []) else none

/-- A `createCustomList` request by a user of role `normal` with the given
title, no description and the movie 1. -/
def customListRequestBy (user : ObjectId) (title : String) : CustomListRequest :=
  { user := { _id := user, role := "normal" }, title := some title, description := none,
    movies := .array [1], now := 2000 }

/-! ## The average of the ratings, on request -/

/-- The handler `getAverageRating`; `id` is `req.params.id`, `none` when
falsy. The callback of `reduce` adds `review.rating` when it is a number, which
a stored rating always is. The document is dereferenced without a test for
`null`. -/
def getAverageRating (movies : MovieCollection) (id : Option ObjectId) :
    Except Thrown (ApiResponseHandler ℚ) :=
  match id with
  | none => .error (.ErrorHandler 404 "Please provide movie id in the url")
  | some id =>
    match movies id with
    | none => .error (.TypeError "Cannot read properties of null (reading 'reviews')")
    | some movie =>
      if movie.reviews.length ≤ 0 then
        .error (.ErrorHandler 404 "No reviews found for this movie")
      else
        let sumOfRating := movie.reviews.foldl (fun sum review => jsAdd sum review.rating) 0
        let averageRating := jsDiv sumOfRating (movie.reviews.length : ℚ)
        .ok ⟨200, averageRating, "Average Rating calculated successfully"⟩

/-! ## Movie handlers of the admin controller -/

/-- The handler `updateMovieDetails` of the admin controller. It does not
read `req.user`. An exception raised inside its `try` (a rejected validator)
is replaced by the 500 of its `catch`. -/
def Admin.updateMovieDetails (validators : MovieUpdate → Bool) (db : MovieCollection)
    (req : UpdateMovieRequest) : Outcome (Option Movie) :=
  if !validators req.body then
    (.error (.ErrorHandler 500 "An error occurred while updating movie details."), db)
  else
    match db req.id with
    | none => (.ok ⟨404, none, "Movie not found."⟩, db)
    | some movie =>
      let updatedMovie := req.body.set movie req.now
      (.ok ⟨200, some updatedMovie, "Movie details updated successfully."⟩,
        Function.update db req.id (some updatedMovie))

/-- The handler `deleteMovie` of the admin controller. It does not read
`req.user`. -/
def Admin.deleteMovie (db : MovieCollection) (req : DeleteMovieRequest) :
    Outcome (Option Unit) :=
  match db req.id with
  | none => (.ok ⟨404, none, "Movie not found."⟩, db)
  | some _ => (.ok ⟨200, none, "Movie deleted successfully."⟩, Function.update db req.id none)

/-- An update body that names only `title`. -/
def retitle (title : String) : MovieUpdate :=
  { title := some title, genre := none, director := none, cast := none, releaseDate := none,
    runtime := none, synopsis := none, averageRating := none, coverPhoto := none,
    trivia := none, goofs := none, soundtrackInfo := none, ageRating := none,
    parentalGuidance := none, reviews := none, boxOffice := none, awards := none,
    otherKeys := 0 }

/-! ## Communities -/

/-- A reply, an element of `posts[i].replies` of the community schema; `_id`
is the id Mongoose gives the sub-document, `text` is `none` when the path is
not set (the schema does not require it). -/
structure Reply where
  _id : ObjectId
  user : ObjectId
  text : Option String
  createdAt : Nat
deriving DecidableEq

/-- A post, an element of `posts` of the community schema. -/
structure Post where
  _id : ObjectId
  user : ObjectId
  text : Option String
  createdAt : Nat
  replies : List Reply
deriving DecidableEq

/-- A document of the `Community` model (its `_id` is its key in the store). -/
structure Community where
  title : String
  description : Option String
  createdBy : ObjectId
  posts : List Post
  createdAt : Nat
  updatedAt : Nat
deriving DecidableEq

/-- The `communities` collection. -/
abbrev CommunityCollection := ObjectId → Option Community

/-- The write of `community.save()`: the document replaces the one stored
under its `_id`, with `updatedAt` refreshed. -/
def saveCommunity (db : CommunityCollection) (id : ObjectId) (community : Community)
    (now : Nat) : CommunityCollection :=
  Function.update db id (some { community with updatedAt := now })

/-- The outcome of a handler that writes to the `communities` collection. -/
abbrev CommunityOutcome (α : Type) :=
  Except Thrown (ApiResponseHandler α) × CommunityCollection

/-- A request to `createCommunity`: `req.user`, `title` and `description` of
the body (`none` when the key is absent), the clock, and the `_id` the driver
generates for the new document. -/
structure CreateCommunityRequest where
  user : AuthUser
  title : Option String
  description : Option String
  now : Nat
  newId : ObjectId

/-- The handler `createCommunity`. -/
def createCommunity (db : CommunityCollection) (req : CreateCommunityRequest) :
    CommunityOutcome Community :=
  if falsyString req.title then
    (.error (.ErrorHandler 400 "Title is required."), db)
  else
    match db req.newId with
    | some _ => (.error (.StoreError "E11000 duplicate key error"), db)
    | none =>
      let community : Community :=
        { title := req.title.getD "", description := req.description,
          createdBy := req.user._id, posts := [],
          createdAt := req.now, updatedAt := req.now }
      (.ok ⟨201, community, "Community created successfully."⟩,
        Function.update db req.newId (some community))

/-- A request to `createPostInCommunity`: `req.params.id`, `req.body.text`
(`none` when the key is absent), `req.user`, the clock (the default of
`createdAt`), and the `_id` Mongoose generates for the pushed sub-document. -/
structure CreatePostRequest where
  id : ObjectId
  text : Option String
  user : AuthUser
  now : Nat
  newId : ObjectId

/-- The handler `createPostInCommunity`. -/
def createPostInCommunity (db : CommunityCollection) (req : CreatePostRequest) :
    CommunityOutcome Community :=
  if falsyString req.text then
    (.error (.ErrorHandler 400 "Post text is required."), db)
  else
    match db req.id with
    | none => (.error (.ErrorHandler 404 "Community not found."), db)
    | some community =>
      let newPost : Post :=
        { _id := req.newId, user := req.user._id, text := req.text,
          createdAt := req.now, replies := [] }
      let community := { community with posts := community.posts ++ [newPost] }
      (.ok ⟨201, { community with updatedAt := req.now }, "Post created successfully."⟩,
        saveCommunity db req.id community req.now)

/-- `Community.findById(id)` for a route parameter that may be `undefined`
(`none`): Mongoose queries `_id: null` then, which no document has. -/
def findCommunityById (db : CommunityCollection) (id : Option ObjectId) : Option Community :=
  match id with
  | none => none
  | some id => db id

/-- `posts.id(postId)` of a Mongoose document array: the first sub-document
whose `_id` is `postId`, `null` (`none`) when there is none or `postId` is
`undefined`. -/
def subdocumentById (posts : List Post) (postId : Option ObjectId) : Option Post :=
  posts.find? (fun post => some post._id = postId)

/-- A request to `replyToPost`: `req.params.communityId` and
`req.params.postId` (`none` when the route binds no such parameter),
`req.body.text` (`none` when the key is absent), `req.user`, the clock, and
the `_id` Mongoose generates for the pushed sub-document. -/
structure ReplyRequest where
  communityId : Option ObjectId
  postId : Option ObjectId
  text : Option String
  user : AuthUser
  now : Nat
  newId : ObjectId

/-- The handler `replyToPost`. `post` is the sub-document inside
`community.posts`, so the push changes that element of the array in place. -/
def replyToPost (db : CommunityCollection) (req : ReplyRequest) : CommunityOutcome Post :=
  match req.communityId with
  | none => (.error (.ErrorHandler 404 "Community not found."), db)
  | some communityId =>
    match db communityId with
    | none => (.error (.ErrorHandler 404 "Community not found."), db)
    | some community =>
      match subdocumentById community.posts req.postId with
      | none => (.error (.ErrorHandler 404 "Post not found."), db)
      | some post =>
        let reply : Reply :=
          { _id := req.newId, user := req.user._id, text := req.text, createdAt := req.now }
        let posts := mutateFound (fun post => some post._id = req.postId)
          (fun post => { post with replies := post.replies ++ [reply] }) community.posts
        (.ok ⟨200, { post with replies := post.replies ++ [reply] }, "Reply added successfully."⟩,
          saveCommunity db communityId { community with posts := posts } req.now)

/-- The handler `getAllReplies`. It reads the store and writes nothing. -/
def getAllReplies (db : CommunityCollection) (communityId postId : Option ObjectId) :
    Except Thrown (ApiResponseHandler (List Reply)) :=
  match findCommunityById db communityId with
  | none => .error (.ErrorHandler 404 "Community not found.")
  | some community =>
    match subdocumentById community.posts postId with
    | none => .error (.ErrorHandler 404 "Post not found.")
    | some post => .ok ⟨200, post.replies, "Replies fetched successfully."⟩

/-- A post with its `user` path populated (`select: 'name avatar'`); the
reference becomes `null` (`none`) when no user has that `_id`. -/
structure PopulatedPost where
  _id : ObjectId
  user : Option PopulatedUser
  text : Option String
  createdAt : Nat
  replies : List Reply
deriving DecidableEq

/-- The data of a `getAllPostsInCommunity` response. -/
structure PostPage where
  posts : List PopulatedPost
  currentPage : Int
  limit : Int
  totalPosts : Nat
  totalPages : Option Int
deriving DecidableEq

/-- A request to `getAllPostsInCommunity`: `req.params.id` and the query
parameters `page` and `limit`, each absent or the decimal form of an integer. -/
structure PostListRequest where
  id : ObjectId
  page : Option Int
  limit : Option Int

/-- The query `Model.findById(id).sort(..).skip(skip).limit(limit)`. It is a
`findOne` over the collection: `sort`, `skip` and `limit` act on the documents
matching `_id`, of which there is at most one, and not on an array inside the
document. So the document is found when nothing is skipped, skipping one or
more documents leaves none (`null`), and the server rejects a negative skip. -/
def findByIdSkip {α : Type} (db : ObjectId → Option α) (id : ObjectId) (skip : Int) :
    Except Thrown (Option α) :=
  if skip < 0 then .error (.StoreError "Skip value must be non-negative")
  else if skip = 0 then .ok (db id)
  else .ok none

/-- The populated form of a post. -/
def populatePost (users : UserCollection) (post : Post) : PopulatedPost :=
  { _id := post._id, user := populateUser users post.user, text := post.text,
    createdAt := post.createdAt, replies := post.replies }

/-- The handler `getAllPostsInCommunity`. It reads the stores and writes
nothing. -/
def getAllPostsInCommunity (db : CommunityCollection) (users : UserCollection)
    (req : PostListRequest) : Except Thrown (ApiResponseHandler PostPage) :=
  let page := req.page.getD 1
  let limit := req.limit.getD 10
  let skip := (page - 1) * limit
  match findByIdSkip db req.id skip with
  | .error e => .error e
  | .ok none => .error (.ErrorHandler 404 "Community not found.")
  | .ok (some community) =>
    let totalPosts := community.posts.length
    .ok ⟨200,
      { posts := community.posts.map (populatePost users), currentPage := page,
        limit := limit, totalPosts := totalPosts,
        totalPages := totalPagesOf totalPosts limit },
      "Posts retrieved successfully."⟩

/-- An operation of the communities controller. `getCommunityById` and
`getAllCommunities` call `findById`, `find`, `populate`, `sort`, `skip`,
`limit` and `countDocuments` only. -/
inductive CommunityOp where
  | createCommunity (req : CreateCommunityRequest)
  | getAllCommunities (page limit : Option Int)
  | getCommunityById (id : ObjectId)
  | createPostInCommunity (req : CreatePostRequest)
  | getAllPostsInCommunity (req : PostListRequest)
  | replyToPost (req : ReplyRequest)
  | getAllReplies (communityId postId : Option ObjectId)

/-- The store after an operation: what the three writing handlers leave, and
the store as it was after a read. -/
def CommunityOp.next (db : CommunityCollection) : CommunityOp → CommunityCollection
  | .createCommunity req => (MovieCatalog.createCommunity db req).2
  | .getAllCommunities _ _ => db
  | .getCommunityById _ => db
  | .createPostInCommunity req => (MovieCatalog.createPostInCommunity db req).2
  | .getAllPostsInCommunity _ => db
  | .replyToPost req => (MovieCatalog.replyToPost db req).2
  | .getAllReplies _ _ => db

/-- The store after a sequence of operations, applied from the left. -/
def runCommunityOps (db : CommunityCollection) (ops : List CommunityOp) : CommunityCollection :=
  ops.foldl CommunityOp.next db

/-- What stays of a post under the operations: `after` has the `_id`, `user`,
`text` and `createdAt` of `before`, and the replies of `before` are the first
replies of `after`. -/
def Post.keptIn (before after : Post) : Prop :=
  after._id = before._id ∧ after.user = before.user ∧ after.text = before.text ∧
    after.createdAt = before.createdAt ∧ before.replies <+: after.replies

/-- Append-only growth of a post sequence: `after` starts with one post for
each post of `before`, in the same order, each kept in the sense of
`Post.keptIn`; what follows was appended. -/
def AppendOnly (before after : List Post) : Prop :=
  ∃ kept added, after = kept ++ added ∧ List.Forall₂ Post.keptIn before kept

/-- A community with the posts 100 (by user 10, one reply) and 101 (by user
11, no reply). -/
def noir : Community :=
  { title := "Noir", description := none, createdBy := 10,
    posts := [⟨100, 10, some "first", 1000, [⟨300, 11, some "re", 1500⟩]⟩,
              ⟨101, 11, some "second", 2000, []⟩],
    createdAt := 900, updatedAt := 2000 }

/-- A community whose only post has the `_id` 200. -/
def westerns : Community :=
  { title := "Westerns", description := none, createdBy := 11,
    posts := [⟨200, 11, some "hello", 1200, []⟩],
    createdAt := 950, updatedAt := 1200 }

/-- A store holding `noir` under `_id` 5 and `westerns` under `_id` 6. -/
def twoCommunities : CommunityCollection :=
  Function.update (Function.update (fun _ => none) 5 (some noir)) 6 (some westerns)

/-- User 11 posts "third" in community 5 of `twoCommunities`. -/
def thirdPost : CreatePostRequest :=
  { id := 5, text := some "third", user := { _id := 11, role := "normal" }, now := 3000,
    newId := 102 }

/-- User 10 replies "me too" to post `postId` of community `communityId`. -/
def replyBy (communityId postId : ObjectId) : ReplyRequest :=
  { communityId := some communityId, postId := some postId, text := some "me too",
    user := { _id := 10, role := "normal" }, now := 4000, newId := 301 }

/-! ## Reading the wishlist -/

/-- The result of populating a `wishlist` entry with
`select: 'title genre director releaseDate coverPhoto'`. -/
structure WishlistMovie where
  _id : ObjectId
  title : String
  genre : List String
  director : Option ObjectId
  releaseDate : Option Nat
  coverPhoto : Option String
deriving DecidableEq

/-- Populating the `wishlist` path: ids without a document are dropped from
the array. -/
def populateWishlist (movies : MovieCollection) (ids : List ObjectId) : List WishlistMovie :=
  ids.filterMap (fun id => (movies id).map (fun movie =>
    { _id := id, title := movie.title, genre := movie.genre, director := movie.director,
      releaseDate := movie.releaseDate, coverPhoto := movie.coverPhoto }))

/-- The data of a `getUserWishlist` response. -/
structure WishlistPage where
  wishlist : List WishlistMovie
  currentPage : Int
  limit : Int
  totalwishlistItems : Nat
  totalPages : Option Int
deriving DecidableEq

/-- A request to `getUserWishlist` or `getCustomLists`: `req.user` and the
query parameters `page` and `limit`, each absent or the decimal form of an
integer. -/
structure UserListRequest where
  user : AuthUser
  page : Option Int
  limit : Option Int

/-- The handler `getUserWishlist`. It reads the stores and writes nothing;
whatever is thrown inside its `try` leaves as the 500 of its `catch`. -/
def getUserWishlist (movies : MovieCollection) (users : UserCollection)
    (req : UserListRequest) : Except Thrown (ApiResponseHandler WishlistPage) :=
  let page := req.page.getD 1
  let limit := req.limit.getD 10
  let skip := (page - 1) * limit
  (tryCatch
    (match findByIdSkip users req.user._id skip with
      | .error e => (.error e, users)
      | .ok none => (.error (.ErrorHandler 404 "User not found."), users)
      | .ok (some user) =>
        let wishlist := populateWishlist movies user.wishlist
        let totalwishlistItems := wishlist.length
        (.ok ⟨200,
          { wishlist := wishlist, currentPage := page, limit := limit,
            totalwishlistItems := totalwishlistItems,
            totalPages := totalPagesOf totalwishlistItems limit },
          "User's wishlist retrieved successfully."⟩, users))
    (fun _ => .ErrorHandler 500 "An error occurred while retrieving the wishlist.")).1

/-- A store holding the movies 1, 2 and 3. -/
def threeMovies : MovieCollection :=
  fun id => if id = 1 ∨ id = 2 ∨ id = 3 then some (blankMovie [] 0) else none

/-- User 10 ("Ann") with the movies 1, 2 and 3 on the wishlist. -/
def annWishing : UserCollection :=
  fun id => if id = 10 then some (blankUser "Ann" [1, 2, 3] []) else none

/-! ## Pages of goofs, awards and custom lists -/

/-- The data of a successful `getMovieGoofs` response. -/
structure GoofsPage where
  movieTitle : String
  goofs : List String
  currentPage : Int
  limit : Int
  totalGoofs : Nat
  totalPages : Option Int
deriving DecidableEq

/-- The handler `getMovieGoofs`; the request has the shape of a
`getMovieReviews` request. It reads the store and writes nothing. -/
def getMovieGoofs (movies : MovieCollection) (req : ReviewListRequest) :
    Except Thrown (ApiResponseHandler (Option GoofsPage)) :=
  let page := req.page.getD 1
  let limit := req.limit.getD 10
  match movies req.id with
  | none => .error (.ErrorHandler 404 "Movie not found.")
  | some movie =>
    let skip := (page - 1) * limit
    let paginatedGoofs := jsSlice movie.goofs skip (skip + limit)
    if paginatedGoofs.length = 0 then
      .ok ⟨404, none, "No goofs found for the given page."⟩
    else
      .ok ⟨200, some
        { movieTitle := movie.title, goofs := paginatedGoofs, currentPage := page,
          limit := limit, totalGoofs := movie.goofs.length,
          totalPages := totalPagesOf movie.goofs.length limit },
        "Goofs retrieved successfully."⟩

/-- The data of a successful `getMovieAwards` response. -/
structure AwardsPage where
  movieTitle : String
  awards : List Award
  currentPage : Int
  limit : Int
  totalAwards : Nat
  totalPages : Option Int
deriving DecidableEq

/-- The handler `getMovieAwards`. It reads the store and writes nothing. -/
def getMovieAwards (movies : MovieCollection) (req : ReviewListRequest) :
    Except Thrown (ApiResponseHandler (Option AwardsPage)) :=
  let page := req.page.getD 1
  let limit := req.limit.getD 10
  match movies req.id with
  | none => .error (.ErrorHandler 404 "Movie not found.")
  | some movie =>
    let skip := (page - 1) * limit
    let paginatedAwards := jsSlice movie.awards skip (skip + limit)
    if paginatedAwards.length = 0 then
      .ok ⟨404, none, "No awards found for the given page."⟩
    else
      .ok ⟨200, some
        { movieTitle := movie.title, awards := paginatedAwards, currentPage := page,
          limit := limit, totalAwards := movie.awards.length,
          totalPages := totalPagesOf movie.awards.length limit },
        "Awards and nominations retrieved successfully."⟩

/-- The data of a `getCustomLists` response. -/
structure CustomListsPage where
  customLists : List PopulatedList
  currentPage : Int
  limit : Int
  totalLists : Nat
  totalPages : Option Int
deriving DecidableEq

/-- The handler `getCustomLists`. It reads the stores and writes nothing;
whatever is thrown inside its `try` leaves as the 500 of its `catch`. An empty
page is answered with 200 like any other. -/
def getCustomLists (movies : MovieCollection) (users : UserCollection)
    (req : UserListRequest) : Except Thrown (ApiResponseHandler CustomListsPage) :=
  let page := req.page.getD 1
  let limit := req.limit.getD 10
  (tryCatch
    (match users req.user._id with
      | none => (.error (.ErrorHandler 404 "User not found."), users)
      | some user =>
        let totalLists := user.customLists.length
        let paginatedLists := jsSlice user.customLists ((page - 1) * limit) (page * limit)
        (.ok ⟨200,
          { customLists := paginatedLists.map (populateList movies), currentPage := page,
            limit := limit, totalLists := totalLists,
            totalPages := totalPagesOf totalLists limit },
          "Custom lists retrieved successfully."⟩, users))
    (fun _ => .ErrorHandler 500 "An error occurred while retrieving the custom lists.")).1

/-- Following the specification's words: page `p` of limit `L` of a sequence
of `n` items is the items at the zero-based positions from `(p - 1) * L` up to
but excluding `min (p * L) n`, in stored order. -/
def specPage {α : Type} (xs : List α) (p L : Nat) : List α :=
  (List.range (min (p * L) xs.length - (p - 1) * L)).filterMap
    (fun k => xs[(p - 1) * L + k]?)

/-- The element of a `getMovieReviews` page that stands for a stored review
whose author is `author`. -/
def listReview (author : PopulatedUser) (review : Review) : ListedReview :=
  { user := author, rating := review.rating, comment := none, date := none }

/-! ## Routing -/

/-- The request methods the routers register. -/
inductive Method where
  | GET
  | POST
  | PUT
  | DELETE
deriving DecidableEq

/-- A segment of a route path: literal text, or a named parameter `:name`. -/
inductive Segment where
  | lit (text : String)
  | param (name : String)
deriving DecidableEq

/-- Equality of two texts without regard to the case of letters: the routers
are created by `express.Router()` with its default options, under which
matching is not case sensitive. -/
def sameText (a b : String) : Bool :=
  a.data.map Char.toLower == b.data.map Char.toLower

/-- Whether a segment of a route path accepts a segment of a request path: a
literal accepts its own text, a parameter any non-empty segment. -/
def Segment.accepts : Segment → String → Bool
  | .lit text, s => sameText text s
  | .param _, s => decide (s ≠ "")

/-- Whether a route path matches a request path, given by its segments between
the slashes: segment by segment, with the same number of segments. -/
def pathMatches : List Segment → List String → Bool
  | [], [] => true
  | segment :: segments, s :: ss => segment.accepts s && pathMatches segments ss
  | _, _ => false

/-- The object `req.params` for a route path and a request path it matches:
the parameters by name; a name that the route path does not bind is
`undefined` (`none` of `List.lookup`). -/
def bindParams : List Segment → List String → List (String × String)
  | .param name :: segments, s :: ss => (name, s) :: bindParams segments ss
  | .lit _ :: segments, _ :: ss => bindParams segments ss
  | _, _ => []

/-- A registration `router.METHOD(path, verifyUserJWT, handler)`. -/
structure Route (H : Type) where
  method : Method
  path : List Segment
  handler : H

/-- Dispatch in a router: the first registered route whose method and path
match. Its handler sends the response or throws, and no handler passes the
request on, so no later route is tried. -/
def dispatch {H : Type} (routes : List (Route H)) (method : Method) (path : List String) :
    Option (Route H) :=
  routes.find? (fun route => decide (route.method = method) && pathMatches route.path path)

/-- The handler a request reaches. -/
def handlerFor {H : Type} (routes : List (Route H)) (method : Method) (path : List String) :
    Option H :=
  (dispatch routes method path).map (fun route => route.handler)

/-- The handlers of the communities controller. -/
inductive CommunityHandler where
  | createCommunity
  | getAllCommunities
  | getCommunityById
  | createPostInCommunity
  | getAllPostsInCommunity
  | replyToPost
  | getAllReplies
deriving DecidableEq

/-- The router of `communities.routes.js`, in registration order. -/
def communitiesRouter : List (Route CommunityHandler) :=
  [ ⟨.POST, [], .createCommunity⟩,
    ⟨.GET, [], .getAllCommunities⟩,
    ⟨.GET, [.param "id"], .getCommunityById⟩,
    ⟨.POST, [.lit "posts", .param "id"], .createPostInCommunity⟩,
    ⟨.GET, [.lit "posts", .param "id"], .getAllPostsInCommunity⟩,
    ⟨.POST, [.lit "posts", .lit "replies"], .replyToPost⟩,
    ⟨.GET, [.lit "posts", .lit "replies"], .getAllReplies⟩ ]

/-- The handlers that `movie.routes.js` registers. -/
inductive MovieHandler where
  | getRecommendations
  | getSimilarMovies
  | getTrendingMovies
  | getTopRatedMovies
  | searchMovies
  | advancedFilterMovies
  | getTopMoviesOfMonth
  | getTopMoviesByGenre
  | getBoxOfficeInfo
  | getAwardsInfo
  | getAllMovies
  | getMovieById
  | addMovie
  | updateMovie
  | deleteMovie
  | getMovieCast
  | getMovieTrivia
  | getMovieGoofs
  | getMovieSoundtrack
  | addMovieReview
  | updateMovieReview
  | deleteMovieReview
  | getMovieReviews
  | getReviewHighlights
  | getAverageRating
  | getTopRatedReviews
deriving DecidableEq

/-- The router of `movie.routes.js`, in registration order. -/
def movieRouter : List (Route MovieHandler) :=
  [ ⟨.GET, [.lit "recommendation"], .getRecommendations⟩,
    ⟨.GET, [.lit "similar", .param "id"], .getSimilarMovies⟩,
    ⟨.GET, [.lit "trending"], .getTrendingMovies⟩,
    ⟨.GET, [.lit "top-rated"], .getTopRatedMovies⟩,
    ⟨.GET, [.lit "search"], .searchMovies⟩,
    ⟨.GET, [.lit "advanced-filter"], .advancedFilterMovies⟩,
    ⟨.GET, [.lit "top-month"], .getTopMoviesOfMonth⟩,
    ⟨.GET, [.lit "top-genre"], .getTopMoviesByGenre⟩,
    ⟨.GET, [.lit "box-office", .param "id"], .getBoxOfficeInfo⟩,
    ⟨.GET, [.lit "awards", .param "id"], .getAwardsInfo⟩,
    ⟨.GET, [], .getAllMovies⟩,
    ⟨.GET, [.param "id"], .getMovieById⟩,
    ⟨.POST, [], .addMovie⟩,
    ⟨.PUT, [.param "id"], .updateMovie⟩,
    ⟨.DELETE, [.param "id"], .deleteMovie⟩,
    ⟨.GET, [.lit "cast", .param "id"], .getMovieCast⟩,
    ⟨.GET, [.lit "trivia", .param "id"], .getMovieTrivia⟩,
    ⟨.GET, [.lit "goofs", .param "id"], .getMovieGoofs⟩,
    ⟨.GET, [.lit "soundtracks", .param "id"], .getMovieSoundtrack⟩,
    ⟨.POST, [.lit "reviews", .param "id"], .addMovieReview⟩,
    ⟨.PUT, [.lit "reviews", .param "id"], .updateMovieReview⟩,
    ⟨.DELETE, [.lit "reviews", .param "id"], .deleteMovieReview⟩,
    ⟨.GET, [.lit "reviews", .param "id"], .getMovieReviews⟩,
    ⟨.GET, [.lit "reviews", .lit "highlights"], .getReviewHighlights⟩,
    ⟨.GET, [.lit "reviews", .lit "averageRating", .param "id"], .getAverageRating⟩,
    ⟨.GET, [.lit "reviews", .lit "top-rated", .param "id"], .getTopRatedReviews⟩ ]

/-- A handler is reachable when some request is dispatched to it. -/
def Reachable {H : Type} (routes : List (Route H)) (handler : H) : Prop :=
  ∃ method path, handlerFor routes method path = some handler

/-! # Properties -/

/-! ## Rounding -/

theorem roundHalfEven_sub_le (q : ℚ) : |(roundHalfEven q : ℚ) - q| ≤ 1 / 2 := by
  have h1 : (⌊q⌋ : ℚ) ≤ q := Int.floor_le q
  have h2 : q < ⌊q⌋ + 1 := Int.lt_floor_add_one q
  unfold roundHalfEven
  split_ifs with ha hb hc
  · rw [abs_le]; constructor <;> linarith
  · rw [abs_le]; push_cast; constructor <;> linarith
  · rw [abs_le]; constructor <;> linarith
  · rw [abs_le]; push_cast; constructor <;> linarith

theorem roundHalfEven_intCast (z : ℤ) : roundHalfEven (z : ℚ) = z := by
  simp [roundHalfEven]

theorem log_two_eq (x : ℚ) (e : ℤ) (h1 : (2 : ℚ) ^ e ≤ |x|)
    (h2 : |x| < (2 : ℚ) ^ (e + 1)) : Int.log 2 |x| = e := by
  have hpos : (0 : ℚ) < |x| := lt_of_lt_of_le (by positivity) h1
  have ha : e ≤ Int.log 2 |x| :=
    (Int.zpow_le_iff_le_log (by norm_num) hpos).mp (by exact_mod_cast h1)
  have hb : Int.log 2 |x| < e + 1 :=
    (Int.lt_zpow_iff_log_lt (by norm_num) hpos).mp (by exact_mod_cast h2)
  omega

theorem roundDouble_sub_le (x : ℚ) :
    |roundDouble x - x| ≤ (2 : ℚ) ^ ulpExponent x / 2 := by
  have hp : (0 : ℚ) < (2 : ℚ) ^ ulpExponent x := by positivity
  have h := roundHalfEven_sub_le (x / 2 ^ ulpExponent x)
  have hx : roundDouble x - x =
      ((roundHalfEven (x / 2 ^ ulpExponent x) : ℚ) - x / 2 ^ ulpExponent x) *
        2 ^ ulpExponent x := by
    unfold roundDouble
    field_simp
  rw [hx, abs_mul, abs_of_pos hp]
  calc _ ≤ 1 / 2 * (2 : ℚ) ^ ulpExponent x := mul_le_mul_of_nonneg_right h hp.le
    _ = _ := by ring

/-- In the normal range the relative error of rounding is at most `2^-53`. -/
theorem roundDouble_rel (x : ℚ) (hx : (2 : ℚ) ^ (-1022 : ℤ) ≤ |x|) :
    |roundDouble x - x| ≤ (2 : ℚ) ^ (-53 : ℤ) * |x| := by
  have hpos : (0 : ℚ) < |x| := lt_of_lt_of_le (by positivity) hx
  have hlog : (-1022 : ℤ) ≤ Int.log 2 |x| :=
    (Int.zpow_le_iff_le_log (by norm_num) hpos).mp (by exact_mod_cast hx)
  have hk : ulpExponent x = Int.log 2 |x| - 52 := by
    unfold ulpExponent
    omega
  have hle : (2 : ℚ) ^ Int.log 2 |x| ≤ |x| := by
    have := Int.zpow_log_le_self (b := 2) (by norm_num) hpos
    exact_mod_cast this
  have h := roundDouble_sub_le x
  rw [hk] at h
  have h2 : (2 : ℚ) ^ (Int.log 2 |x| - 52) / 2
      = (2 : ℚ) ^ (-53 : ℤ) * (2 : ℚ) ^ Int.log 2 |x| := by
    rw [show Int.log 2 |x| - 52 = Int.log 2 |x| + (-52) by ring, zpow_add₀ (by norm_num)]
    norm_num
    ring
  rw [h2] at h
  exact h.trans (mul_le_mul_of_nonneg_left hle (by positivity))

/-- A number `m * 2^k` whose unit in the last place is at most `2^k` is a
double: rounding leaves it as it is. -/
theorem roundDouble_representable (m k : ℤ) (hk : ulpExponent ((m : ℚ) * 2 ^ k) ≤ k) :
    roundDouble ((m : ℚ) * 2 ^ k) = (m : ℚ) * 2 ^ k := by
  unfold roundDouble
  generalize ulpExponent ((m : ℚ) * 2 ^ k) = j at hk
  obtain ⟨d, hd⟩ : ∃ d : ℕ, k = j + d := ⟨(k - j).toNat, by omega⟩
  have hj : (2 : ℚ) ^ j ≠ 0 := by positivity
  have hkj : (2 : ℚ) ^ k = 2 ^ j * 2 ^ d := by
    rw [hd, zpow_add₀ (by norm_num), zpow_natCast]
  have hq : (m : ℚ) * 2 ^ k / 2 ^ j = ((m * 2 ^ d : ℤ) : ℚ) := by
    rw [hkj]
    push_cast
    field_simp
    ring
  rw [hq, roundHalfEven_intCast, hkj]
  push_cast
  ring

theorem roundHalfEven_eq (q : ℚ) (m : ℤ) (h : |q - m| < 1 / 2) : roundHalfEven q = m := by
  have h1 := roundHalfEven_sub_le q
  rw [abs_lt] at h
  rw [abs_le] at h1
  have h2 : ((roundHalfEven q - m : ℤ) : ℚ) < 1 := by push_cast; linarith
  have h3 : (-1 : ℚ) < ((roundHalfEven q - m : ℤ) : ℚ) := by push_cast; linarith
  have h4 : roundHalfEven q - m < 1 := by exact_mod_cast h2
  have h5 : -1 < roundHalfEven q - m := by exact_mod_cast h3
  omega

theorem ulpExponent_eq (x : ℚ) (e : ℤ) (h1 : (2 : ℚ) ^ e ≤ |x|)
    (h2 : |x| < (2 : ℚ) ^ (e + 1)) (he : -1022 ≤ e) : ulpExponent x = e - 52 := by
  unfold ulpExponent
  rw [log_two_eq x e h1 h2]
  omega

/-- Evaluation of a rounding: for `2^e ≤ |x| < 2^(e+1)` in the normal range,
the double nearest to `x` is the multiple `m * 2^(e-52)` that is less than half
a unit away. -/
theorem roundDouble_eq (x : ℚ) (e m : ℤ) (h1 : (2 : ℚ) ^ e ≤ |x|)
    (h2 : |x| < (2 : ℚ) ^ (e + 1)) (he : -1022 ≤ e)
    (hm : |x / 2 ^ (e - 52) - m| < 1 / 2) : roundDouble x = (m : ℚ) * 2 ^ (e - 52) := by
  unfold roundDouble
  rw [ulpExponent_eq x e h1 h2 he, roundHalfEven_eq _ m hm]

theorem roundDouble_zero : roundDouble 0 = 0 := by
  simp [roundDouble, roundHalfEven]

/-- Every `m * 2^k` with `|m| < 2^53` and `k ≥ -1074` is a double. -/
theorem roundDouble_dyadic (m k : ℤ) (hm : |m| < 2 ^ 53) (hk : -1074 ≤ k) :
    roundDouble ((m : ℚ) * 2 ^ k) = (m : ℚ) * 2 ^ k := by
  by_cases h0 : m = 0
  · subst h0
    simp [roundDouble_zero]
  · apply roundDouble_representable
    have hpos : (0 : ℚ) < |(m : ℚ) * 2 ^ k| := by
      rw [abs_pos]
      have : (m : ℚ) ≠ 0 := by exact_mod_cast h0
      positivity
    have hlt : |(m : ℚ) * 2 ^ k| < ((2 : ℕ) : ℚ) ^ (53 + k) := by
      rw [abs_mul, abs_of_pos (by positivity : (0 : ℚ) < 2 ^ k), zpow_add₀ (by norm_num)]
      have hm' : |(m : ℚ)| < 2 ^ 53 := by exact_mod_cast hm
      have : (0 : ℚ) < 2 ^ k := by positivity
      push_cast
      have h53 : ((2 : ℚ) ^ (53 : ℤ)) = 2 ^ 53 := by norm_num
      rw [h53]
      exact mul_lt_mul_of_pos_right hm' this
    have hlog := (Int.lt_zpow_iff_log_lt (by norm_num) hpos).mp hlt
    unfold ulpExponent
    omega

theorem roundDouble_natCast (n : ℕ) (h : n < 2 ^ 53) : roundDouble (n : ℚ) = n := by
  have := roundDouble_dyadic (n : ℤ) 0 (by
    rw [abs_of_nonneg (by positivity)]
    exact_mod_cast h) (by norm_num)
  simpa using this

theorem roundDouble_ofNat (n : ℕ) [n.AtLeastTwo] (h : n < 2 ^ 53) :
    roundDouble (OfNat.ofNat n : ℚ) = OfNat.ofNat n := by
  have := roundDouble_natCast n h
  simpa using this

theorem roundDouble_one : roundDouble 1 = 1 := by
  simpa using roundDouble_natCast 1 (by norm_num)


theorem roundDouble_eleven_thirds :
    roundDouble (11 / 3) = 8256599316845909 / 2251799813685248 := by
  have h := roundDouble_eq (11 / 3) 1 8256599316845909 (by norm_num [abs_of_pos])
    (by norm_num [abs_of_pos]) (by norm_num) (by
      rw [abs_lt]
      constructor <;> norm_num)
  rw [h]
  norm_num

/-- Rounding a number of the normal range changes it by a factor between
`1 - 2^-53` and `1 + 2^-53`. -/
theorem roundDouble_between (x : ℚ) (hx : 1 / 2 ≤ x) :
    (1 - 1 / 2 ^ 53) * x ≤ roundDouble x ∧ roundDouble x ≤ (1 + 1 / 2 ^ 53) * x := by
  have hpos : 0 < x := by linarith
  have h := roundDouble_rel x (by
    rw [abs_of_pos hpos]
    refine le_trans ?_ hx
    rw [zpow_neg, ← one_div]
    apply one_div_le_one_div_of_le (by norm_num)
    norm_num)
  rw [abs_of_pos hpos, abs_le] at h
  have hu : (2 : ℚ) ^ (-53 : ℤ) = 1 / 2 ^ 53 := by norm_num [zpow_neg]
  rw [hu] at h
  constructor <;> linarith [h.1, h.2]

theorem foldl_jsAdd_between (rs : List ℚ) (h : ∀ r ∈ rs, 1 ≤ r) :
    (1 - 1 / 2 ^ 53) ^ rs.length * rs.sum ≤ rs.foldl jsAdd 0 ∧
      rs.foldl jsAdd 0 ≤ (1 + 1 / 2 ^ 53) ^ rs.length * rs.sum := by
  induction rs using List.reverseRecOn with
  | nil => simp
  | append_singleton rs r ih =>
    obtain ⟨ihl, ihu⟩ := ih (fun x hx => h x (by simp [hx]))
    have hr : 1 ≤ r := h r (by simp)
    have hsum : 0 ≤ rs.sum := List.sum_nonneg (fun x hx => by linarith [h x (by simp [hx])])
    have hlo1 : (0 : ℚ) ≤ (1 - 1 / 2 ^ 53) := by norm_num
    have hlo2 : (1 - 1 / 2 ^ 53 : ℚ) ≤ 1 := by norm_num
    have hhi1 : (1 : ℚ) ≤ (1 + 1 / 2 ^ 53) := by norm_num
    have hpl : (0 : ℚ) ≤ (1 - 1 / 2 ^ 53) ^ rs.length := pow_nonneg hlo1 _
    have hpl1 : (1 - 1 / 2 ^ 53 : ℚ) ^ rs.length ≤ 1 := pow_le_one₀ hlo1 hlo2
    have hph1 : (1 : ℚ) ≤ (1 + 1 / 2 ^ 53) ^ rs.length := one_le_pow₀ hhi1
    have hS : 0 ≤ rs.foldl jsAdd 0 := le_trans (mul_nonneg hpl hsum) ihl
    obtain ⟨hl, hu⟩ := roundDouble_between (rs.foldl jsAdd 0 + r) (by linarith)
    have key : ∀ (a : ℚ) (n : ℕ) (y : ℚ), a ^ (n + 1) * y = a ^ n * a * y := by
      intros; ring
    simp only [List.foldl_append, List.foldl_cons, List.foldl_nil, List.length_append,
      List.length_singleton, List.sum_append, List.sum_singleton, jsAdd]
    rw [key, key]
    constructor
    · refine le_trans ?_ hl
      have : (1 - 1 / 2 ^ 53 : ℚ) ^ rs.length * (rs.sum + r) ≤ rs.foldl jsAdd 0 + r := by
        nlinarith
      calc (1 - 1 / 2 ^ 53 : ℚ) ^ rs.length * (1 - 1 / 2 ^ 53) * (rs.sum + r)
          = (1 - 1 / 2 ^ 53) * ((1 - 1 / 2 ^ 53 : ℚ) ^ rs.length * (rs.sum + r)) := by ring
        _ ≤ (1 - 1 / 2 ^ 53) * (rs.foldl jsAdd 0 + r) := mul_le_mul_of_nonneg_left this hlo1
    · refine le_trans hu ?_
      have : rs.foldl jsAdd 0 + r ≤ (1 + 1 / 2 ^ 53 : ℚ) ^ rs.length * (rs.sum + r) := by
        nlinarith
      calc (1 + 1 / 2 ^ 53) * (rs.foldl jsAdd 0 + r)
          ≤ (1 + 1 / 2 ^ 53) * ((1 + 1 / 2 ^ 53 : ℚ) ^ rs.length * (rs.sum + r)) :=
            mul_le_mul_of_nonneg_left this (by norm_num)
        _ = _ := by ring

/-- The mean that double arithmetic computes from at most `2^32` ratings, each
at least 1, is the exact mean up to a factor between `(1 - 2^-53)^(n+1)` and
`(1 + 2^-53)^(n+1)`. -/
theorem doubleMean_between (rs : List ℚ) (h : ∀ r ∈ rs, 1 ≤ r) (hn : rs.length < 2 ^ 32) :
    (1 - 1 / 2 ^ 53) ^ (rs.length + 1) * mean rs ≤ doubleMean rs ∧
      doubleMean rs ≤ (1 + 1 / 2 ^ 53) ^ (rs.length + 1) * mean rs := by
  by_cases h0 : rs.length = 0
  · simp [mean, doubleMean, h0]
  · obtain ⟨hl, hu⟩ := foldl_jsAdd_between rs h
    have hnpos : (0 : ℚ) < (rs.length : ℚ) := by
      have : 0 < rs.length := Nat.pos_of_ne_zero h0
      exact_mod_cast this
    have hsum : (rs.length : ℚ) ≤ rs.sum := by
      have := List.card_nsmul_le_sum rs 1 h
      simpa using this
    have hlo1 : (0 : ℚ) ≤ (1 - 1 / 2 ^ 53) := by norm_num
    have hbern : (1 : ℚ) / 2 ≤ (1 - 1 / 2 ^ 53) ^ rs.length := by
      have hb := one_add_mul_le_pow (a := (-(1 / 2 ^ 53) : ℚ)) (by norm_num) rs.length
      have hnq : (rs.length : ℚ) < 2 ^ 32 := by exact_mod_cast hn
      have : (1 : ℚ) / 2 ≤ 1 + (rs.length : ℚ) * -(1 / 2 ^ 53) := by
        have : (rs.length : ℚ) * (1 / 2 ^ 53) ≤ 2 ^ 32 * (1 / 2 ^ 53) :=
          mul_le_mul_of_nonneg_right hnq.le (by norm_num)
        norm_num at this ⊢
        linarith
      calc (1 : ℚ) / 2 ≤ 1 + (rs.length : ℚ) * -(1 / 2 ^ 53) := this
        _ ≤ (1 + -(1 / 2 ^ 53)) ^ rs.length := hb
        _ = _ := by ring_nf
    have hq : (1 : ℚ) / 2 ≤ rs.foldl jsAdd 0 / (rs.length : ℚ) := by
      rw [le_div_iff₀ hnpos]
      have : (1 : ℚ) / 2 * rs.length ≤ (1 - 1 / 2 ^ 53) ^ rs.length * rs.sum :=
        mul_le_mul hbern hsum hnpos.le (pow_nonneg hlo1 _)
      linarith
    obtain ⟨hl2, hu2⟩ := roundDouble_between _ hq
    have key : ∀ (a : ℚ) (n : ℕ) (y : ℚ), a ^ (n + 1) * y = a ^ n * a * y := by
      intros; ring
    simp only [mean, doubleMean, h0, if_false, jsDiv]
    rw [key, key]
    constructor
    · refine le_trans ?_ hl2
      have : (1 - 1 / 2 ^ 53 : ℚ) ^ rs.length * (rs.sum / rs.length)
          ≤ rs.foldl jsAdd 0 / rs.length := by
        rw [← mul_div_assoc]
        exact div_le_div_of_nonneg_right hl hnpos.le
      calc (1 - 1 / 2 ^ 53 : ℚ) ^ rs.length * (1 - 1 / 2 ^ 53) * (rs.sum / rs.length)
          = (1 - 1 / 2 ^ 53) * ((1 - 1 / 2 ^ 53 : ℚ) ^ rs.length * (rs.sum / rs.length)) := by
            ring
        _ ≤ _ := mul_le_mul_of_nonneg_left this hlo1
    · refine le_trans hu2 ?_
      have : rs.foldl jsAdd 0 / rs.length
          ≤ (1 + 1 / 2 ^ 53 : ℚ) ^ rs.length * (rs.sum / rs.length) := by
        rw [← mul_div_assoc]
        exact div_le_div_of_nonneg_right hu hnpos.le
      calc (1 + 1 / 2 ^ 53) * (rs.foldl jsAdd 0 / rs.length)
          ≤ (1 + 1 / 2 ^ 53) * ((1 + 1 / 2 ^ 53 : ℚ) ^ rs.length * (rs.sum / rs.length)) :=
            mul_le_mul_of_nonneg_left this (by norm_num)
        _ = _ := by ring

/-! ## Lists -/

theorem totalRatings_eq_foldl (rs : List Review) :
    totalRatings rs = (rs.map (fun review => review.rating)).foldl jsAdd 0 := by
  simp [totalRatings, List.foldl_map]

theorem recomputeAverage_eq_doubleMean (rs : List Review) (h : rs ≠ []) :
    recomputeAverage rs = doubleMean (rs.map (fun review => review.rating)) := by
  have hl : rs.length ≠ 0 := by
    intro h0
    exact h (List.length_eq_zero.mp h0)
  simp [recomputeAverage, doubleMean, totalRatings_eq_foldl, hl]

theorem exists_first {α : Type} (p : α → Bool) (xs : List α) :
    (∀ x ∈ xs, p x = false) ∨
      ∃ pre r post, xs = pre ++ r :: post ∧ (∀ x ∈ pre, p x = false) ∧ p r = true := by
  induction xs with
  | nil => left; simp
  | cons x xs ih =>
    by_cases hx : p x = true
    · right
      exact ⟨[], x, xs, rfl, by simp, hx⟩
    · have hx' : p x = false := by simpa using hx
      rcases ih with hall | ⟨pre, r, post, hxs, hpre, hr⟩
      · left
        intro y hy
        rcases List.mem_cons.mp hy with rfl | hy
        · exact hx'
        · exact hall y hy
      · right
        refine ⟨x :: pre, r, post, by simp [hxs], ?_, hr⟩
        intro y hy
        rcases List.mem_cons.mp hy with rfl | hy
        · exact hx'
        · exact hpre y hy

theorem find?_first {α : Type} (p : α → Bool) (pre : List α) (r : α) (post : List α)
    (hpre : ∀ x ∈ pre, p x = false) (hr : p r = true) :
    (pre ++ r :: post).find? p = some r := by
  induction pre with
  | nil => simp [hr]
  | cons x pre ih =>
    have hx : p x = false := hpre x (by simp)
    have := ih (fun y hy => hpre y (by simp [hy]))
    simp [List.find?, hx, this]

theorem findIndex_ge {α : Type} (p : α → Bool) (xs : List α) : -1 ≤ findIndex p xs := by
  induction xs with
  | nil => simp [findIndex]
  | cons x xs ih =>
    unfold findIndex
    by_cases hx : p x = true
    · simp [hx]
    · simp only [hx]
      by_cases h1 : findIndex p xs = -1
      · simp [h1]
      · simp [h1]; omega

theorem findIndex_none {α : Type} (p : α → Bool) (xs : List α)
    (h : ∀ x ∈ xs, p x = false) : findIndex p xs = -1 := by
  induction xs with
  | nil => simp [findIndex]
  | cons x xs ih =>
    have hx : p x = false := h x (by simp)
    have := ih (fun y hy => h y (by simp [hy]))
    simp [findIndex, hx, this]

theorem findIndex_first {α : Type} (p : α → Bool) (pre : List α) (r : α) (post : List α)
    (hpre : ∀ x ∈ pre, p x = false) (hr : p r = true) :
    findIndex p (pre ++ r :: post) = (pre.length : Int) := by
  induction pre with
  | nil => simp [findIndex, hr]
  | cons x pre ih =>
    have hx : p x = false := hpre x (by simp)
    have h := ih (fun y hy => hpre y (by simp [hy]))
    have hne : (pre.length : Int) ≠ -1 := by omega
    simp [findIndex, hx, h, hne]

theorem mutateFound_none {α : Type} (p : α → Bool) (f : α → α) (xs : List α)
    (h : ∀ x ∈ xs, p x = false) : mutateFound p f xs = xs := by
  induction xs with
  | nil => simp [mutateFound]
  | cons x xs ih =>
    have hx : p x = false := h x (by simp)
    have := ih (fun y hy => h y (by simp [hy]))
    simp [mutateFound, hx, this]

theorem mutateFound_first {α : Type} (p : α → Bool) (f : α → α) (pre : List α) (r : α)
    (post : List α) (hpre : ∀ x ∈ pre, p x = false) (hr : p r = true) :
    mutateFound p f (pre ++ r :: post) = pre ++ f r :: post := by
  induction pre with
  | nil => simp [mutateFound, hr]
  | cons x pre ih =>
    have hx : p x = false := hpre x (by simp)
    have := ih (fun y hy => hpre y (by simp [hy]))
    simp [mutateFound, hx, this]

theorem splice1_first {α : Type} (pre : List α) (r : α) (post : List α) :
    splice1 (pre ++ r :: post) (pre.length : Int) = pre ++ post := by
  have h : ¬ ((pre.length : Int) < 0) := by omega
  simp only [splice1, h, if_false, Int.toNat_ofNat]
  rw [List.eraseIdx_append_of_length_le (le_refl _)]
  simp

theorem trim_empty_length : (trim "").length = 0 := by decide

/-! ## The handlers, case by case -/

theorem find?_user_none {reviews : List Review} {u : ObjectId} :
    reviews.find? (fun review => review.user == u) = none ↔ ∀ r ∈ reviews, r.user ≠ u := by
  simp [List.find?_eq_none]

theorem addMovieReview_success (db : MovieCollection) (req : ReviewRequest) (q : ℚ)
    (s : String) (movie : Movie)
    (hr : req.rating = .num q) (h1 : 1 ≤ q) (h5 : q ≤ 5)
    (ht : req.reviewText = .str s) (hs : (trim s).length ≠ 0)
    (hm : db req.id = some movie) (hu : ∀ r ∈ movie.reviews, r.user ≠ req.user._id) :
    addMovieReview db req =
      (.ok ⟨201, ⟨req.user._id, q, s⟩, "Review added successfully."⟩,
        save db req.id { movie with
          reviews := movie.reviews ++ [⟨req.user._id, q, s, req.now⟩],
          averageRating := recomputeAverage (movie.reviews ++ [⟨req.user._id, q, s, req.now⟩]) }
          req.now) := by
  have hq : ¬ (q = 0 ∨ q < 1 ∨ q > 5) := by
    rintro (h | h | h)
    · rw [h] at h1; norm_num at h1
    · exact absurd h1 (not_le.mpr h)
    · exact absurd h5 (not_le.mpr h)
  have hs' : ¬ (s = "" ∨ (trim s).length = 0) := by
    rintro (h | h)
    · rw [h] at hs; exact hs trim_empty_length
    · exact hs h
  have hf := find?_user_none.mpr hu
  simp only [addMovieReview, hr, ht, hm, hf, if_neg hq, if_neg hs']

theorem addMovieReview_cases (db : MovieCollection) (req : ReviewRequest) :
    (∃ q s movie, req.rating = .num q ∧ 1 ≤ q ∧ q ≤ 5 ∧ req.reviewText = .str s ∧
      (trim s).length ≠ 0 ∧ db req.id = some movie ∧
      ∀ r ∈ movie.reviews, r.user ≠ req.user._id) ∨
    ∃ e, addMovieReview db req = (.error e, db) := by
  unfold addMovieReview
  split
  · rename_i q hr
    split
    · exact Or.inr ⟨_, rfl⟩
    · rename_i hq
      split
      · rename_i s ht
        split
        · exact Or.inr ⟨_, rfl⟩
        · rename_i hs
          split
          · exact Or.inr ⟨_, rfl⟩
          · rename_i movie hm
            split
            · exact Or.inr ⟨_, rfl⟩
            · rename_i hf
              push_neg at hq hs
              exact Or.inl ⟨q, s, movie, hr, le_of_not_lt (not_lt.mpr hq.2.1), hq.2.2, ht,
                hs.2, hm, find?_user_none.mp hf⟩
      · split <;> exact Or.inr ⟨_, rfl⟩
  · exact Or.inr ⟨_, rfl⟩

theorem addMovieReview_ok_inv (db : MovieCollection) (req : ReviewRequest)
    (h : (addMovieReview db req).1.isOk = true) :
    ∃ q s movie, req.rating = .num q ∧ 1 ≤ q ∧ q ≤ 5 ∧ req.reviewText = .str s ∧
      (trim s).length ≠ 0 ∧ db req.id = some movie ∧
      ∀ r ∈ movie.reviews, r.user ≠ req.user._id := by
  rcases addMovieReview_cases db req with hok | ⟨e, he⟩
  · exact hok
  · rw [he] at h
    simp [Except.isOk, Except.toBool] at h

theorem addMovieReview_fail_unchanged (db : MovieCollection) (req : ReviewRequest)
    (h : (addMovieReview db req).1.isOk = false) : (addMovieReview db req).2 = db := by
  rcases addMovieReview_cases db req with ⟨q, s, movie, hr, h1, h5, ht, hs, hm, hu⟩ | ⟨e, he⟩
  · rw [addMovieReview_success db req q s movie hr h1 h5 ht hs hm hu] at h
    simp [Except.isOk, Except.toBool] at h
  · rw [he]

theorem updateMovieReview_success (db : MovieCollection) (req : ReviewRequest)
    (movie : Movie) (pre : List Review) (r : Review) (post : List Review)
    (hr : updateRatingRejected req.rating = false)
    (ht : updateTextRejected req.reviewText = .ok false)
    (hm : db req.id = some movie) (hsplit : movie.reviews = pre ++ r :: post)
    (hpre : ∀ x ∈ pre, x.user ≠ req.user._id) (hu : r.user = req.user._id) :
    updateMovieReview db req =
      (.ok ⟨200, applyReviewUpdate req.rating req.reviewText r, "Review updated successfully."⟩,
        save db req.id { movie with
          reviews := pre ++ applyReviewUpdate req.rating req.reviewText r :: post,
          averageRating :=
            recomputeAverage (pre ++ applyReviewUpdate req.rating req.reviewText r :: post) }
          req.now) := by
  have hp : ∀ x ∈ pre, (fun review : Review => review.user == req.user._id) x = false := by
    intro x hx
    simpa using hpre x hx
  have hr' : (fun review : Review => review.user == req.user._id) r = true := by
    simpa using hu
  have hf := find?_first _ pre r post hp hr'
  have hmf := mutateFound_first _ (applyReviewUpdate req.rating req.reviewText) pre r post hp hr'
  simp only [updateMovieReview, hr, ht, hm, hsplit, hf, hmf]
  simp

theorem updateMovieReview_no_movie (db : MovieCollection) (req : ReviewRequest)
    (hr : updateRatingRejected req.rating = false)
    (ht : updateTextRejected req.reviewText = .ok false)
    (hm : db req.id = none) :
    updateMovieReview db req = (.error (.ErrorHandler 404 "Movie not found."), db) := by
  simp [updateMovieReview, hr, ht, hm]

theorem updateMovieReview_no_review (db : MovieCollection) (req : ReviewRequest)
    (movie : Movie)
    (hr : updateRatingRejected req.rating = false)
    (ht : updateTextRejected req.reviewText = .ok false)
    (hm : db req.id = some movie) (hu : ∀ x ∈ movie.reviews, x.user ≠ req.user._id) :
    updateMovieReview db req =
      (.error (.ErrorHandler 404 "Review not found for this user."), db) := by
  have hf := find?_user_none.mpr hu
  simp [updateMovieReview, hr, ht, hm, hf]

theorem updateMovieReview_cases (db : MovieCollection) (req : ReviewRequest) :
    (∃ movie pre r post, updateRatingRejected req.rating = false ∧
      updateTextRejected req.reviewText = .ok false ∧ db req.id = some movie ∧
      movie.reviews = pre ++ r :: post ∧ (∀ x ∈ pre, x.user ≠ req.user._id) ∧
      r.user = req.user._id) ∨
    ∃ e, updateMovieReview db req = (.error e, db) := by
  by_cases hr : updateRatingRejected req.rating = true
  · right
    exact ⟨.ErrorHandler 400 "Rating must be a number between 1 and 5.",
      by simp [updateMovieReview, hr]⟩
  · have hr' : updateRatingRejected req.rating = false := by simpa using hr
    cases ht : updateTextRejected req.reviewText with
    | error e => right; exact ⟨e, by simp [updateMovieReview, hr', ht]⟩
    | ok b =>
      cases b with
      | true =>
        right
        exact ⟨.ErrorHandler 400 "Review text cannot be empty.",
          by simp [updateMovieReview, hr', ht]⟩
      | false =>
        cases hm : db req.id with
        | none => right; exact ⟨_, updateMovieReview_no_movie db req hr' ht hm⟩
        | some movie =>
          rcases exists_first (fun review : Review => review.user == req.user._id)
            movie.reviews with hall | ⟨pre, r, post, hsplit, hpre, hfound⟩
          · right
            refine ⟨_, updateMovieReview_no_review db req movie hr' ht hm ?_⟩
            intro x hx
            simpa using hall x hx
          · left
            refine ⟨movie, pre, r, post, hr', rfl, rfl, hsplit, ?_, by simpa using hfound⟩
            intro x hx
            simpa using hpre x hx

theorem deleteMovieReview_success (db : MovieCollection) (req : ReviewRequest)
    (movie : Movie) (pre : List Review) (r : Review) (post : List Review)
    (hm : db req.id = some movie) (hsplit : movie.reviews = pre ++ r :: post)
    (hpre : ∀ x ∈ pre, x.user ≠ req.user._id) (hu : r.user = req.user._id) :
    deleteMovieReview db req =
      (.ok ⟨200, (), "Review deleted successfully."⟩,
        save db req.id { movie with
          reviews := pre ++ post,
          averageRating := if (pre ++ post).length > 0 then recomputeAverage (pre ++ post) else 0 }
          req.now) := by
  have hp : ∀ x ∈ pre, (fun review : Review => review.user == req.user._id) x = false := by
    intro x hx
    simpa using hpre x hx
  have hr' : (fun review : Review => review.user == req.user._id) r = true := by
    simpa using hu
  have hi := findIndex_first _ pre r post hp hr'
  have hne : (pre.length : Int) ≠ -1 := by omega
  have hs := splice1_first pre r post
  simp only [deleteMovieReview, hm, hsplit, hi, hs, hne, false_and, and_false, if_false]

theorem deleteMovieReview_no_movie (db : MovieCollection) (req : ReviewRequest)
    (hm : db req.id = none) :
    deleteMovieReview db req = (.error (.ErrorHandler 404 "Movie not found."), db) := by
  simp [deleteMovieReview, hm]

theorem findIndex_user_none {reviews : List Review} {u : ObjectId}
    (hu : ∀ x ∈ reviews, x.user ≠ u) :
    findIndex (fun review : Review => review.user == u) reviews = -1 := by
  apply findIndex_none
  intro x hx
  simpa using hu x hx

theorem deleteMovieReview_admin_without_review (db : MovieCollection) (req : ReviewRequest)
    (movie : Movie) (hm : db req.id = some movie)
    (hu : ∀ x ∈ movie.reviews, x.user ≠ req.user._id) (hadmin : req.user.role = "admin") :
    deleteMovieReview db req = (.error (.ErrorHandler 404 "Review not found."), db) := by
  simp [deleteMovieReview, hm, findIndex_user_none hu, hadmin]

theorem deleteMovieReview_other_without_review (db : MovieCollection) (req : ReviewRequest)
    (movie : Movie) (hm : db req.id = some movie)
    (hu : ∀ x ∈ movie.reviews, x.user ≠ req.user._id) (hadmin : req.user.role ≠ "admin") :
    deleteMovieReview db req =
      (.error (.ErrorHandler 403 "Review not found or insufficient permissions."), db) := by
  simp [deleteMovieReview, hm, findIndex_user_none hu, hadmin]

theorem deleteMovieReview_cases (db : MovieCollection) (req : ReviewRequest) :
    (∃ movie pre r post, db req.id = some movie ∧
      movie.reviews = pre ++ r :: post ∧ (∀ x ∈ pre, x.user ≠ req.user._id) ∧
      r.user = req.user._id) ∨
    ∃ e, deleteMovieReview db req = (.error e, db) := by
  cases hm : db req.id with
  | none => right; exact ⟨_, deleteMovieReview_no_movie db req hm⟩
  | some movie =>
    rcases exists_first (fun review : Review => review.user == req.user._id)
      movie.reviews with hall | ⟨pre, r, post, hsplit, hpre, hfound⟩
    · right
      have hu : ∀ x ∈ movie.reviews, x.user ≠ req.user._id := by
        intro x hx
        simpa using hall x hx
      by_cases hadmin : req.user.role = "admin"
      · exact ⟨_, deleteMovieReview_admin_without_review db req movie hm hu hadmin⟩
      · exact ⟨_, deleteMovieReview_other_without_review db req movie hm hu hadmin⟩
    · left
      refine ⟨movie, pre, r, post, rfl, hsplit, ?_, by simpa using hfound⟩
      intro x hx
      simpa using hpre x hx

theorem save_same (db : MovieCollection) (id : ObjectId) (movie : Movie) (now : Nat) :
    save db id movie now id = some { movie with updatedAt := now } := by
  simp [save]

theorem save_other (db : MovieCollection) (id : ObjectId) (movie : Movie) (now : Nat)
    (j : ObjectId) (h : j ≠ id) : save db id movie now j = db j := by
  simp [save, Function.update_noteq h]

theorem runOps_append (db : MovieCollection) (ops : List ReviewOp) (op : ReviewOp) :
    runOps db (ops ++ [op]) = op.next (runOps db ops) := by
  simp [runOps, List.foldl_append]

theorem take_succ_get {α : Type} (xs : List α) (k : Nat) (hk : k < xs.length) :
    xs.take (k + 1) = xs.take k ++ [xs.get ⟨k, hk⟩] := by
  induction xs generalizing k with
  | nil => simp at hk
  | cons x xs ih =>
    cases k with
    | zero => simp
    | succ k =>
      have hk' : k < xs.length := by simpa using hk
      have h := ih k hk'
      simp only [List.take_succ_cons, List.cons_append, List.get_cons_succ, List.cons.injEq,
        true_and]
      exact h

theorem runOps_take_succ (db : MovieCollection) (ops : List ReviewOp) (k : Nat)
    (hk : k < ops.length) :
    runOps db (ops.take (k + 1)) = (ops.get ⟨k, hk⟩).next (runOps db (ops.take k)) := by
  rw [take_succ_get ops k hk, runOps_append]

theorem Good_ne : ("Good" : String) ≠ "" := by decide
theorem Meh_ne : ("Meh" : String) ≠ "" := by decide
theorem trim_Good : (trim "Good").length = 4 := by decide
theorem trim_Meh : (trim "Meh").length = 3 := by decide
theorem Great_ne : ("Great" : String) ≠ "" := by decide
theorem trim_Great : (trim "Great").length = 5 := by decide

/-- After a successful review call the stored average of the movie it
addresses is the mean of the stored ratings as double arithmetic computes
it. -/
theorem review_op_average (db : MovieCollection) (op : ReviewOp)
    (h : op.succeeds db = true) :
    ∃ movie, op.next db op.req.id = some movie ∧
      movie.averageRating = doubleMean movie.ratings := by
  cases op with
  | add req =>
    obtain ⟨q, s, movie, hr, h1, h5, ht, hs, hm, hu⟩ := addMovieReview_ok_inv db req h
    simp only [ReviewOp.next, ReviewOp.req,
      addMovieReview_success db req q s movie hr h1 h5 ht hs hm hu, save_same]
    exact ⟨_, rfl, recomputeAverage_eq_doubleMean _ (by simp)⟩
  | update req =>
    rcases updateMovieReview_cases db req with
      ⟨movie, pre, r, post, hr, ht, hm, hsplit, hpre, hu⟩ | ⟨e, he⟩
    · simp only [ReviewOp.next, ReviewOp.req,
        updateMovieReview_success db req movie pre r post hr ht hm hsplit hpre hu, save_same]
      exact ⟨_, rfl, recomputeAverage_eq_doubleMean _ (by simp)⟩
    · simp [ReviewOp.succeeds, he, Except.isOk, Except.toBool] at h
  | delete req =>
    rcases deleteMovieReview_cases db req with
      ⟨movie, pre, r, post, hm, hsplit, hpre, hu⟩ | ⟨e, he⟩
    · simp only [ReviewOp.next, ReviewOp.req,
        deleteMovieReview_success db req movie pre r post hm hsplit hpre hu, save_same]
      refine ⟨_, rfl, ?_⟩
      by_cases hl : (pre ++ post).length > 0
      · have hne : pre ++ post ≠ [] := by
          intro h0
          rw [h0] at hl
          simp at hl
        simp only [hl, if_true, Movie.ratings]
        exact recomputeAverage_eq_doubleMean _ hne
      · have h0 : (pre ++ post).length = 0 := by omega
        have hnil : pre ++ post = [] := List.length_eq_zero.mp h0
        simp only [hl, if_false, Movie.ratings, hnil]
        rfl
    · simp [ReviewOp.succeeds, he, Except.isOk, Except.toBool] at h

/-- The tolerance of the stored average: for a movie with fewer than `2^32`
reviews whose ratings lie between 1 and 5, the mean as double arithmetic
computes it is the exact mean up to a factor between `(1 - 2^-53)^(n+1)` and
`(1 + 2^-53)^(n+1)`, `n` the number of reviews. -/
theorem doubleMean_ratings_between (movie : Movie)
    (hrange : ∀ r ∈ movie.ratings, 1 ≤ r ∧ r ≤ 5) (hlen : movie.reviews.length < 2 ^ 32) :
    (1 - 1 / 2 ^ 53) ^ (movie.reviews.length + 1) * mean movie.ratings
        ≤ doubleMean movie.ratings ∧
      doubleMean movie.ratings
        ≤ (1 + 1 / 2 ^ 53) ^ (movie.reviews.length + 1) * mean movie.ratings := by
  have h := doubleMean_between movie.ratings (fun r hr => (hrange r hr).1)
    (by simpa [Movie.ratings] using hlen)
  simpa [Movie.ratings] using h

theorem roundDouble_two : roundDouble 2 = 2 := roundDouble_ofNat 2 (by norm_num)
theorem roundDouble_three : roundDouble 3 = 3 := roundDouble_ofNat 3 (by norm_num)
theorem roundDouble_four : roundDouble 4 = 4 := roundDouble_ofNat 4 (by norm_num)
theorem roundDouble_six : roundDouble 6 = 6 := roundDouble_ofNat 6 (by norm_num)
theorem roundDouble_nine : roundDouble 9 = 9 := roundDouble_ofNat 9 (by norm_num)
theorem roundDouble_eleven : roundDouble 11 = 11 := roundDouble_ofNat 11 (by norm_num)

theorem roundDouble_nine_halves : roundDouble (9 / 2) = 9 / 2 := by
  have h := roundDouble_dyadic 9 (-1) (by norm_num) (by norm_num)
  norm_num [zpow_neg] at h
  norm_num
  exact h

/-- C1, as amended. At every step of every finite sequence of
`addMovieReview`, `updateMovieReview` and `deleteMovieReview` calls, started
from any store (whatever averages it holds): if the step succeeds, the
`averageRating` stored afterwards for the movie it addresses is the mean of
the ratings of the reviews stored afterwards as double arithmetic computes it
(the ratings added from the left, each sum rounded, the quotient rounded), and
`0` when no review remains. When the movie has fewer than `2^32` reviews and
their ratings lie between 1 and 5, this is the exact arithmetic mean up to a
factor between `(1 - 2^-53)^(n+1)` and `(1 + 2^-53)^(n+1)`. -/
theorem averageRating_is_double_mean_after_each_review_step (db : MovieCollection)
    (ops : List ReviewOp) (k : Nat) (hk : k < ops.length)
    (hok : (ops.get ⟨k, hk⟩).succeeds (runOps db (ops.take k)) = true) :
    ∃ movie, runOps db (ops.take (k + 1)) (ops.get ⟨k, hk⟩).req.id = some movie ∧
      movie.averageRating = doubleMean movie.ratings ∧
      (movie.reviews = [] → movie.averageRating = 0) ∧
      ((∀ r ∈ movie.ratings, 1 ≤ r ∧ r ≤ 5) → movie.reviews.length < 2 ^ 32 →
        (1 - 1 / 2 ^ 53) ^ (movie.reviews.length + 1) * mean movie.ratings
            ≤ movie.averageRating ∧
          movie.averageRating
            ≤ (1 + 1 / 2 ^ 53) ^ (movie.reviews.length + 1) * mean movie.ratings) := by
  rw [runOps_take_succ db ops k hk]
  obtain ⟨movie, hm, havg⟩ := review_op_average _ _ hok
  refine ⟨movie, hm, havg, ?_, ?_⟩
  · intro hnil
    rw [havg]
    simp [Movie.ratings, hnil, doubleMean]
  · intro hrange hlen
    rw [havg]
    exact doubleMean_ratings_between movie hrange hlen

/-- The scenario of C1: on a movie without reviews, add 4, add 2 by another
user, delete the first review, delete the second; every step succeeds and the
stored averages are 4, 3, 2, 0. -/
theorem averageRating_scenario :
    ((List.range 4).map fun k =>
        ((scenarioOps.get? k).map fun op =>
          op.succeeds (runOps (singleMovieDb (blankMovie [] 0)) (scenarioOps.take k))))
      = [some true, some true, some true, some true] ∧
    ((List.range 4).map fun k =>
        (runOps (singleMovieDb (blankMovie [] 0)) (scenarioOps.take (k + 1)) 1).map
          fun movie => movie.averageRating)
      = [some 4, some 3, some 2, some 0] ∧
    ∃ movie, runOps (singleMovieDb (blankMovie [] 0)) (scenarioOps.take (3 + 1)) 1
        = some movie ∧
      movie.averageRating = doubleMean movie.ratings ∧
      (movie.reviews = [] → movie.averageRating = 0) ∧
      ((∀ r ∈ movie.ratings, 1 ≤ r ∧ r ≤ 5) → movie.reviews.length < 2 ^ 32 →
        (1 - 1 / 2 ^ 53) ^ (movie.reviews.length + 1) * mean movie.ratings
            ≤ movie.averageRating ∧
          movie.averageRating
            ≤ (1 + 1 / 2 ^ 53) ^ (movie.reviews.length + 1) * mean movie.ratings) := by
  refine ⟨?_, ?_, averageRating_is_double_mean_after_each_review_step
    (singleMovieDb (blankMovie [] 0)) scenarioOps 3 (by decide) ?_⟩
  · norm_num [List.range, List.range.loop, runOps, scenarioOps, ReviewOp.next,
      ReviewOp.succeeds, addMovieReview,
      deleteMovieReview, requestBy, singleMovieDb, blankMovie, save, findIndex, splice1,
      recomputeAverage, totalRatings, trim_Good, trim_Meh, Good_ne, Meh_ne, Except.isOk,
      Except.toBool]
  · norm_num [List.range, List.range.loop, runOps, scenarioOps, ReviewOp.next, addMovieReview,
      deleteMovieReview, requestBy, singleMovieDb, blankMovie, save, findIndex, splice1,
      recomputeAverage, totalRatings, jsAdd, jsDiv, roundDouble_two, roundDouble_three,
      roundDouble_four, roundDouble_six, trim_Good, trim_Meh, Good_ne, Meh_ne]
  · norm_num [runOps, scenarioOps, ReviewOp.next, ReviewOp.succeeds, addMovieReview,
      deleteMovieReview, requestBy, singleMovieDb, blankMovie, save, findIndex, splice1,
      recomputeAverage, totalRatings, trim_Good, trim_Meh, Good_ne, Meh_ne, Except.isOk,
      Except.toBool]

/-- Counterexample to C1 as stated: on a movie without reviews, three users
add the ratings 4, 2 and 5. Every call succeeds; the exact mean of the stored
ratings is 11/3, which is no double, and the `averageRating` stored is the
double next to it, `8256599316845909 / 2^51` (printed 3.6666666666666665). -/
theorem averageRating_not_exact_mean :
    ((List.range 3).map fun k =>
        ((threeAdds.get? k).map fun op =>
          op.succeeds (runOps (singleMovieDb (blankMovie [] 0)) (threeAdds.take k))))
      = [some true, some true, some true] ∧
    (runOps (singleMovieDb (blankMovie [] 0)) threeAdds 1).map
        (fun movie => (movie.ratings, movie.averageRating, mean movie.ratings))
      = some ([4, 2, 5], 8256599316845909 / 2251799813685248, 11 / 3) ∧
    (8256599316845909 / 2251799813685248 : ℚ) ≠ 11 / 3 := by
  refine ⟨?_, ?_, by norm_num⟩
  · norm_num [List.range, List.range.loop, runOps, threeAdds, ReviewOp.next,
      ReviewOp.succeeds, addMovieReview, requestBy, singleMovieDb, blankMovie, save,
      recomputeAverage, totalRatings, trim_Good, trim_Meh, trim_Great, Good_ne, Meh_ne,
      Great_ne, Except.isOk, Except.toBool]
  · norm_num [runOps, threeAdds, ReviewOp.next, addMovieReview, requestBy, singleMovieDb,
      blankMovie, save, recomputeAverage, totalRatings, jsAdd, jsDiv, roundDouble_four,
      roundDouble_six, roundDouble_eleven, roundDouble_eleven_thirds, Movie.ratings, mean,
      trim_Good, trim_Meh, trim_Great, Good_ne, Meh_ne, Great_ne]
    simp

/-! ## Invariants of the review sequence -/

theorem applyReviewUpdate_user (rating reviewText : JSValue) (r : Review) :
    (applyReviewUpdate rating reviewText r).user = r.user := by
  unfold applyReviewUpdate
  cases rating <;> cases reviewText <;> simp <;> split_ifs <;> rfl

theorem applyReviewUpdate_createdAt (rating reviewText : JSValue) (r : Review) :
    (applyReviewUpdate rating reviewText r).createdAt = r.createdAt := by
  unfold applyReviewUpdate
  cases rating <;> cases reviewText <;> simp <;> split_ifs <;> rfl

/-- A property of the review sequence that the three shapes of mutation keep
is kept by every review call, on every movie of the store. -/
theorem next_preserves (P : List Review → Prop)
    (hadd : ∀ rs u q s now, P rs → 1 ≤ q → q ≤ 5 → (trim s).length ≠ 0 →
      (∀ r ∈ rs, r.user ≠ u) → P (rs ++ [⟨u, q, s, now⟩]))
    (hupd : ∀ pre r post rating text, P (pre ++ r :: post) →
      updateRatingRejected rating = false → updateTextRejected text = .ok false →
      P (pre ++ applyReviewUpdate rating text r :: post))
    (hdel : ∀ pre r post, P (pre ++ r :: post) → P (pre ++ post))
    (db : MovieCollection) (op : ReviewOp) (id : ObjectId)
    (h : ∀ m, db id = some m → P m.reviews) :
    ∀ m, op.next db id = some m → P m.reviews := by
  intro m' hm'
  cases op with
  | add req =>
    rcases addMovieReview_cases db req with
      ⟨q, s, movie, hr, h1, h5, ht, hs, hm, hu⟩ | ⟨e, he⟩
    · simp only [ReviewOp.next,
        addMovieReview_success db req q s movie hr h1 h5 ht hs hm hu] at hm'
      by_cases hid : id = req.id
      · subst hid
        rw [save_same] at hm'
        cases hm'
        exact hadd _ _ _ _ _ (h movie hm) h1 h5 hs hu
      · rw [save_other _ _ _ _ _ hid] at hm'
        exact h m' hm'
    · simp only [ReviewOp.next, he] at hm'
      exact h m' hm'
  | update req =>
    rcases updateMovieReview_cases db req with
      ⟨movie, pre, r, post, hr, ht, hm, hsplit, hpre, hu⟩ | ⟨e, he⟩
    · simp only [ReviewOp.next,
        updateMovieReview_success db req movie pre r post hr ht hm hsplit hpre hu] at hm'
      by_cases hid : id = req.id
      · subst hid
        rw [save_same] at hm'
        cases hm'
        exact hupd _ _ _ _ _ (hsplit ▸ h movie hm) hr ht
      · rw [save_other _ _ _ _ _ hid] at hm'
        exact h m' hm'
    · simp only [ReviewOp.next, he] at hm'
      exact h m' hm'
  | delete req =>
    rcases deleteMovieReview_cases db req with
      ⟨movie, pre, r, post, hm, hsplit, hpre, hu⟩ | ⟨e, he⟩
    · simp only [ReviewOp.next,
        deleteMovieReview_success db req movie pre r post hm hsplit hpre hu] at hm'
      by_cases hid : id = req.id
      · subst hid
        rw [save_same] at hm'
        cases hm'
        exact hdel _ r _ (hsplit ▸ h movie hm)
      · rw [save_other _ _ _ _ _ hid] at hm'
        exact h m' hm'
    · simp only [ReviewOp.next, he] at hm'
      exact h m' hm'

theorem runOps_preserves (P : List Review → Prop)
    (hadd : ∀ rs u q s now, P rs → 1 ≤ q → q ≤ 5 → (trim s).length ≠ 0 →
      (∀ r ∈ rs, r.user ≠ u) → P (rs ++ [⟨u, q, s, now⟩]))
    (hupd : ∀ pre r post rating text, P (pre ++ r :: post) →
      updateRatingRejected rating = false → updateTextRejected text = .ok false →
      P (pre ++ applyReviewUpdate rating text r :: post))
    (hdel : ∀ pre r post, P (pre ++ r :: post) → P (pre ++ post))
    (ops : List ReviewOp) (db : MovieCollection) (id : ObjectId)
    (h : ∀ m, db id = some m → P m.reviews) :
    ∀ m, runOps db ops id = some m → P m.reviews := by
  induction ops generalizing db with
  | nil => simpa [runOps] using h
  | cons op ops ih =>
    have hstep := next_preserves P hadd hupd hdel db op id h
    simpa [runOps] using ih (op.next db) hstep

/-! ## One review per user -/

theorem pairwise_user_append_single (rs : List Review) (r : Review)
    (h : rs.Pairwise (fun a b => a.user ≠ b.user)) (hu : ∀ x ∈ rs, x.user ≠ r.user) :
    (rs ++ [r]).Pairwise (fun a b => a.user ≠ b.user) := by
  rw [List.pairwise_append]
  refine ⟨h, by simp, ?_⟩
  intro a ha b hb
  simp only [List.mem_singleton] at hb
  subst hb
  exact hu a ha

theorem pairwise_user_of_map_eq (rs rs' : List Review)
    (hmap : rs'.map (fun r => r.user) = rs.map (fun r => r.user))
    (h : rs.Pairwise (fun a b => a.user ≠ b.user)) :
    rs'.Pairwise (fun a b => a.user ≠ b.user) := by
  have h1 : (rs.map (fun r => r.user)).Pairwise (fun a b => a ≠ b) :=
    List.pairwise_map.mpr h
  rw [← hmap] at h1
  exact List.pairwise_map.mp h1

theorem reviews_step_unique :
    (∀ (rs : List Review) (u : ObjectId) (q : ℚ) (s : String) (now : Nat),
      rs.Pairwise (fun a b => a.user ≠ b.user) → 1 ≤ q → q ≤ 5 → (trim s).length ≠ 0 →
      (∀ r ∈ rs, r.user ≠ u) →
      (rs ++ [(⟨u, q, s, now⟩ : Review)]).Pairwise (fun a b => a.user ≠ b.user)) ∧
    (∀ (pre : List Review) (r : Review) (post : List Review) (rating text : JSValue),
      (pre ++ r :: post).Pairwise (fun a b => a.user ≠ b.user) →
      updateRatingRejected rating = false → updateTextRejected text = .ok false →
      (pre ++ applyReviewUpdate rating text r :: post).Pairwise (fun a b => a.user ≠ b.user)) ∧
    (∀ (pre : List Review) (r : Review) (post : List Review),
      (pre ++ r :: post).Pairwise (fun a b => a.user ≠ b.user) →
      (pre ++ post).Pairwise (fun a b => a.user ≠ b.user)) := by
  refine ⟨?_, ?_, ?_⟩
  · intro rs u q s now h _ _ _ hu
    exact pairwise_user_append_single rs ⟨u, q, s, now⟩ h hu
  · intro pre r post rating text h _ _
    refine pairwise_user_of_map_eq _ _ ?_ h
    simp [applyReviewUpdate_user]
  · intro pre r post h
    refine List.Pairwise.sublist ?_ h
    exact List.Sublist.append (List.Sublist.refl pre) (List.sublist_cons_self r post)

/-- C2, as amended. Starting from a movie in which no two reviews have the
same user, after every finite sequence of `addMovieReview`, `updateMovieReview`
and `deleteMovieReview` calls no two reviews of the movie have the same user;
and `addMovieReview` by a user who already has a review on the movie is always
rejected and leaves the store unchanged, with the duplicate-review error (kind
Conflict) whenever its rating and reviewText pass the validation that is
checked first. -/
theorem one_review_per_user (db : MovieCollection) (id : ObjectId) (movie : Movie)
    (hm : db id = some movie) (huniq : movie.oneReviewPerUser) :
    (∀ ops movie', runOps db ops id = some movie' → movie'.oneReviewPerUser) ∧
    (∀ req : ReviewRequest, req.id = id →
      (∃ r ∈ movie.reviews, r.user = req.user._id) →
      (addMovieReview db req).1.isOk = false ∧ (addMovieReview db req).2 = db ∧
      (∀ q s, req.rating = .num q → 1 ≤ q → q ≤ 5 → req.reviewText = .str s →
        (trim s).length ≠ 0 →
        (addMovieReview db req).1 = .error
          (.ErrorHandler 400 "User has already submitted a review for this movie.") ∧
        (Thrown.ErrorHandler 400 "User has already submitted a review for this movie.").kind
          = .Conflict)) := by
  constructor
  · intro ops movie' h'
    obtain ⟨hadd, hupd, hdel⟩ := reviews_step_unique
    refine runOps_preserves (fun rs => rs.Pairwise (fun a b => a.user ≠ b.user))
      hadd hupd hdel ops db id ?_ movie' h'
    intro m hm'
    rw [hm] at hm'
    cases hm'
    exact huniq
  · intro req hid hdup
    subst hid
    have hfail : (addMovieReview db req).1.isOk = false := by
      cases hok : (addMovieReview db req).1.isOk with
      | false => rfl
      | true =>
        obtain ⟨q, s, movie', _, _, _, _, _, hm', hu⟩ := addMovieReview_ok_inv db req hok
        rw [hm] at hm'
        cases hm'
        obtain ⟨r, hr, hru⟩ := hdup
        exact absurd hru (hu r hr)
    refine ⟨hfail, addMovieReview_fail_unchanged db req hfail, ?_⟩
    intro q s hr h1 h5 ht hs
    have hq : ¬ (q = 0 ∨ q < 1 ∨ q > 5) := by
      rintro (h | h | h)
      · rw [h] at h1; norm_num at h1
      · exact absurd h1 (not_le.mpr h)
      · exact absurd h5 (not_le.mpr h)
    have hs' : ¬ (s = "" ∨ (trim s).length = 0) := by
      rintro (h | h)
      · rw [h] at hs; exact hs trim_empty_length
      · exact hs h
    obtain ⟨r, hr', hru⟩ := hdup
    have hfind : ∃ x, movie.reviews.find? (fun review => review.user == req.user._id) = some x := by
      cases hf : movie.reviews.find? (fun review => review.user == req.user._id) with
      | some x => exact ⟨x, rfl⟩
      | none => exact absurd hru (find?_user_none.mp hf r hr')
    obtain ⟨x, hx⟩ := hfind
    constructor
    · simp only [addMovieReview, hr, ht, hm, hx, if_neg hq, if_neg hs']
    · rfl

/-- Witness of C2 on the store `reviewedDb`, whose movie 1 has one review, by
user 10: uniqueness is kept by every sequence, and a second, valid
`addMovieReview` by user 10 is rejected as a conflict, the store unchanged. -/
theorem one_review_per_user_witness :
    (blankMovie [{ user := 10, rating := 4, reviewText := "Good", createdAt := 1000 }]
        4).oneReviewPerUser ∧
    (∀ ops movie', runOps reviewedDb ops 1 = some movie' → movie'.oneReviewPerUser) ∧
    (addMovieReview reviewedDb (requestBy 10 (.num 3) (.str "Again"))).1 = .error
      (.ErrorHandler 400 "User has already submitted a review for this movie.") ∧
    (addMovieReview reviewedDb (requestBy 10 (.num 3) (.str "Again"))).2 = reviewedDb := by
  have huniq : (blankMovie [{ user := 10, rating := 4, reviewText := "Good", createdAt := 1000 }]
      4).oneReviewPerUser := by
    simp [Movie.oneReviewPerUser, blankMovie]
  have h := one_review_per_user reviewedDb 1 _ rfl huniq
  have h2 := h.2 (requestBy 10 (.num 3) (.str "Again")) rfl
    ⟨{ user := 10, rating := 4, reviewText := "Good", createdAt := 1000 },
      by simp [blankMovie], rfl⟩
  exact ⟨huniq, h.1, (h2.2.2 3 "Again" rfl (by norm_num) (by norm_num) rfl (by decide)).1,
    h2.2.1⟩

/-- Counterexample to C2 as stated: user 10 already has a review on movie 1;
their `addMovieReview` with rating 9 is rejected by the rating validation, a
validation error and not a conflict. -/
theorem duplicate_add_invalid_rating_not_conflict :
    (∃ movie, reviewedDb 1 = some movie ∧ ∃ r ∈ movie.reviews, r.user = 10) ∧
    (addMovieReview reviewedDb (requestBy 10 (.num 9) (.str "Again"))).1
      = .error (.ErrorHandler 400 "Rating must be a number between 1 and 5.") ∧
    (Thrown.ErrorHandler 400 "Rating must be a number between 1 and 5.").kind
      = .ValidationError ∧
    ¬ ∃ e, (addMovieReview reviewedDb (requestBy 10 (.num 9) (.str "Again"))).1 = .error e ∧
      e.kind = .Conflict := by
  have hout : (addMovieReview reviewedDb (requestBy 10 (.num 9) (.str "Again"))).1
      = .error (.ErrorHandler 400 "Rating must be a number between 1 and 5.") := by
    norm_num [addMovieReview, requestBy]
  refine ⟨⟨_, rfl, by simp [blankMovie]⟩, hout, by decide, ?_⟩
  rintro ⟨e, he, hk⟩
  rw [hout] at he
  cases he
  revert hk
  decide

/-! ## The derived field and the admin handlers -/

theorem reviewOp_next_eq_or_target (db : MovieCollection) (op : ReviewOp) (id : ObjectId) :
    op.next db id = db id ∨ (id = op.req.id ∧ op.succeeds db = true) := by
  cases op with
  | add req =>
    rcases addMovieReview_cases db req with
      ⟨q, s, movie, hr, h1, h5, ht, hs, hm, hu⟩ | ⟨e, he⟩
    · have hout := addMovieReview_success db req q s movie hr h1 h5 ht hs hm hu
      by_cases hid : id = req.id
      · right
        exact ⟨hid, by simp [ReviewOp.succeeds, hout, Except.isOk, Except.toBool]⟩
      · left
        simp only [ReviewOp.next, hout]
        exact save_other _ _ _ _ _ hid
    · left
      simp only [ReviewOp.next, he]
  | update req =>
    rcases updateMovieReview_cases db req with
      ⟨movie, pre, r, post, hr, ht, hm, hsplit, hpre, hu⟩ | ⟨e, he⟩
    · have hout := updateMovieReview_success db req movie pre r post hr ht hm hsplit hpre hu
      by_cases hid : id = req.id
      · right
        exact ⟨hid, by simp [ReviewOp.succeeds, hout, Except.isOk, Except.toBool]⟩
      · left
        simp only [ReviewOp.next, hout]
        exact save_other _ _ _ _ _ hid
    · left
      simp only [ReviewOp.next, he]
  | delete req =>
    rcases deleteMovieReview_cases db req with
      ⟨movie, pre, r, post, hm, hsplit, hpre, hu⟩ | ⟨e, he⟩
    · have hout := deleteMovieReview_success db req movie pre r post hm hsplit hpre hu
      by_cases hid : id = req.id
      · right
        exact ⟨hid, by simp [ReviewOp.succeeds, hout, Except.isOk, Except.toBool]⟩
      · left
        simp only [ReviewOp.next, hout]
        exact save_other _ _ _ _ _ hid
    · left
      simp only [ReviewOp.next, he]

theorem reviewOp_next_consistent (db : MovieCollection) (op : ReviewOp)
    (hcons : AverageConsistent db) : AverageConsistent (op.next db) := by
  intro id movie hm
  rcases reviewOp_next_eq_or_target db op id with hsame | ⟨hid, hok⟩
  · rw [hsame] at hm
    exact hcons id movie hm
  · obtain ⟨movie', hm', havg⟩ := review_op_average db op hok
    rw [← hid, hm] at hm'
    cases hm'
    exact havg

theorem averageRatingOrZero_eq (a : Option ℚ) : averageRatingOrZero a = a.getD 0 := by
  cases a with
  | none => rfl
  | some q =>
    by_cases hq : q = 0
    · simp [averageRatingOrZero, hq]
    · simp [averageRatingOrZero, hq]

theorem addMovie_cases (db : MovieCollection) (req : AddMovieRequest) :
    (req.user.role = "admin" ∧ db req.newId = none ∧
      addMovie db req = (.ok ⟨201, newMovie req.body req.now, "Movie added successfully."⟩,
        Function.update db req.newId (some (newMovie req.body req.now)))) ∨
    ∃ e, addMovie db req = (.error e, db) := by
  unfold addMovie
  split
  · exact Or.inr ⟨_, rfl⟩
  · rename_i hrole
    split
    · exact Or.inr ⟨_, rfl⟩
    · split
      · exact Or.inr ⟨_, rfl⟩
      · rename_i hfree
        exact Or.inl ⟨by simpa using hrole, hfree, rfl⟩

theorem updateMovie_cases (validators : MovieUpdate → Bool) (db : MovieCollection)
    (req : UpdateMovieRequest) :
    (∃ movie, req.user.role = "admin" ∧ db req.id = some movie ∧
      updateMovie validators db req =
        (.ok ⟨200, req.body.set movie req.now, "Movie updated successfully."⟩,
          Function.update db req.id (some (req.body.set movie req.now)))) ∨
    ∃ e, updateMovie validators db req = (.error e, db) := by
  unfold updateMovie
  split
  · exact Or.inr ⟨_, rfl⟩
  · rename_i hrole
    split
    · exact Or.inr ⟨_, rfl⟩
    · split
      · exact Or.inr ⟨_, rfl⟩
      · split
        · exact Or.inr ⟨_, rfl⟩
        · rename_i movie hm
          exact Or.inl ⟨movie, by simpa using hrole, hm, rfl⟩

theorem deleteMovie_cases (db : MovieCollection) (req : DeleteMovieRequest) :
    (req.user.role = "admin" ∧
      deleteMovie db req = (.ok ⟨200, (), "Movie deleted successfully."⟩,
        Function.update db req.id none)) ∨
    ∃ e, deleteMovie db req = (.error e, db) := by
  unfold deleteMovie
  split
  · exact Or.inr ⟨_, rfl⟩
  · rename_i hrole
    split
    · exact Or.inr ⟨_, rfl⟩
    · exact Or.inl ⟨by simpa using hrole, rfl⟩

theorem movieOp_next_consistent (validators : MovieUpdate → Bool) (db : MovieCollection)
    (op : MovieOp) (hcons : AverageConsistent db) (hop : op.leavesDerivedFields) :
    AverageConsistent (op.next validators db) := by
  cases op with
  | review op => exact reviewOp_next_consistent db op hcons
  | addMovie req =>
    rcases addMovie_cases db req with ⟨_, _, hout⟩ | ⟨e, he⟩
    · intro id movie hm
      simp only [MovieOp.next, hout] at hm
      by_cases hid : id = req.newId
      · subst hid
        rw [Function.update_same] at hm
        cases hm
        have h0 : averageRatingOrZero req.body.averageRating = 0 := by
          rcases hop with h | h <;> simp [h, averageRatingOrZero]
        simp [newMovie, h0, Movie.ratings, doubleMean]
      · rw [Function.update_noteq hid] at hm
        exact hcons id movie hm
    · simpa only [MovieOp.next, he] using hcons
  | updateMovie req =>
    rcases updateMovie_cases validators db req with ⟨movie, _, hm0, hout⟩ | ⟨e, he⟩
    · intro id movie' hm
      simp only [MovieOp.next, hout] at hm
      by_cases hid : id = req.id
      · subst hid
        rw [Function.update_same] at hm
        cases hm
        have := hcons _ movie hm0
        simpa [MovieUpdate.set, hop.1, hop.2, Movie.ratings] using this
      · rw [Function.update_noteq hid] at hm
        exact hcons id movie' hm
    · simpa only [MovieOp.next, he] using hcons
  | deleteMovie req =>
    rcases deleteMovie_cases db req with ⟨_, hout⟩ | ⟨e, he⟩
    · intro id movie hm
      simp only [MovieOp.next, hout] at hm
      by_cases hid : id = req.id
      · subst hid
        rw [Function.update_same] at hm
        cases hm
      · rw [Function.update_noteq hid] at hm
        exact hcons id movie hm
    · simpa only [MovieOp.next, he] using hcons

/-- C3, as amended. `averageRating` is recomputed by the review handlers but
is written from the request body by `addMovie` and `updateMovie`: a movie
created by `addMovie` has no reviews and the `averageRating` of the body, `0`
when the body has none; `updateMovie` sets `averageRating` and `reviews` to
the values its body names and keeps them when it names neither. Hence when no
`addMovie` body carries a non-zero `averageRating` and no `updateMovie` body
names `averageRating` or `reviews`, every finite sequence of writing calls of
the movie controller keeps `averageRating` equal to the mean of
`reviews[].rating` as double arithmetic computes it (`0` without reviews) on
every stored movie; for a movie with fewer than `2^32` reviews, rated between
1 and 5, that is the exact mean up to a factor between `(1 - 2^-53)^(n+1)` and
`(1 + 2^-53)^(n+1)`. -/
theorem average_consistent_when_bodies_leave_it (validators : MovieUpdate → Bool)
    (db : MovieCollection) (ops : List MovieOp) (hcons : AverageConsistent db)
    (hops : ∀ op ∈ ops, op.leavesDerivedFields) :
    AverageConsistent (runMovieOps validators db ops) ∧
    (∀ id movie, runMovieOps validators db ops id = some movie →
      (∀ r ∈ movie.ratings, 1 ≤ r ∧ r ≤ 5) → movie.reviews.length < 2 ^ 32 →
      (1 - 1 / 2 ^ 53) ^ (movie.reviews.length + 1) * mean movie.ratings
          ≤ movie.averageRating ∧
        movie.averageRating
          ≤ (1 + 1 / 2 ^ 53) ^ (movie.reviews.length + 1) * mean movie.ratings) ∧
    (∀ (db0 : MovieCollection) (req : AddMovieRequest), (addMovie db0 req).1.isOk = true →
      ∃ movie, (addMovie db0 req).2 req.newId = some movie ∧ movie.reviews = [] ∧
        movie.averageRating = req.body.averageRating.getD 0) ∧
    (∀ (db0 : MovieCollection) (req : UpdateMovieRequest) (movie : Movie),
      db0 req.id = some movie → (updateMovie validators db0 req).1.isOk = true →
      ∃ movie', (updateMovie validators db0 req).2 req.id = some movie' ∧
        movie'.averageRating = req.body.averageRating.getD movie.averageRating ∧
        movie'.reviews = req.body.reviews.getD movie.reviews) := by
  have hall : AverageConsistent (runMovieOps validators db ops) := by
    induction ops generalizing db with
    | nil => simpa [runMovieOps] using hcons
    | cons op ops ih =>
      have hstep := movieOp_next_consistent validators db op hcons (hops op (by simp))
      have := ih (op.next validators db) hstep (fun o ho => hops o (by simp [ho]))
      simpa [runMovieOps] using this
  refine ⟨hall, ?_, ?_, ?_⟩
  · intro id movie hm hrange hlen
    rw [hall id movie hm]
    exact doubleMean_ratings_between movie hrange hlen
  · intro db0 req hok
    rcases addMovie_cases db0 req with ⟨_, _, hout⟩ | ⟨e, he⟩
    · rw [hout]
      refine ⟨newMovie req.body req.now, by simp, rfl, ?_⟩
      exact averageRatingOrZero_eq _
    · rw [he] at hok
      simp [Except.isOk, Except.toBool] at hok
  · intro db0 req movie hm hok
    rcases updateMovie_cases validators db0 req with ⟨movie', _, hm', hout⟩ | ⟨e, he⟩
    · rw [hm] at hm'
      cases hm'
      rw [hout]
      exact ⟨req.body.set movie req.now, by simp, rfl, rfl⟩
    · rw [he] at hok
      simp [Except.isOk, Except.toBool] at hok

/-- Witness of C3: a movie created without `averageRating` and then reviewed
twice. -/
theorem average_consistent_witness :
    AverageConsistent emptyDb ∧ (∀ op ∈ createAndReview, op.leavesDerivedFields) ∧
    AverageConsistent (runMovieOps (fun _ => true) emptyDb createAndReview) := by
  have hcons : AverageConsistent emptyDb := by
    intro id movie hm
    simp [emptyDb] at hm
  have hops : ∀ op ∈ createAndReview, op.leavesDerivedFields := by
    intro op hop
    simp only [createAndReview, List.mem_cons, List.mem_singleton, List.mem_nil_iff,
      or_false] at hop
    rcases hop with rfl | rfl | rfl
    · exact Or.inl rfl
    · trivial
    · trivial
  exact ⟨hcons, hops,
    (average_consistent_when_bodies_leave_it (fun _ => true) emptyDb createAndReview
      hcons hops).1⟩

/-- Counterexample to C3 as stated: an admin's `addMovie` whose body carries
`averageRating: 5` succeeds and stores a movie without reviews whose
`averageRating` is 5, not 0, hence not the mean of its ratings, neither the
exact one nor the one double arithmetic computes. -/
theorem addMovie_stores_body_averageRating :
    (addMovie emptyDb (addHeat (some 5))).1.isOk = true ∧
    ∃ movie, (addMovie emptyDb (addHeat (some 5))).2 1 = some movie ∧
      movie.reviews = [] ∧ movie.averageRating = 5 ∧
      movie.averageRating ≠ 0 ∧ movie.averageRating ≠ mean movie.ratings ∧
      movie.averageRating ≠ doubleMean movie.ratings := by
  rcases addMovie_cases emptyDb (addHeat (some 5)) with ⟨_, _, hout⟩ | ⟨e, he⟩
  · rw [hout]
    refine ⟨rfl, newMovie (heatBody (some 5)) 500, ?_, rfl, ?_, ?_, ?_, ?_⟩
    · simp [addHeat]
    · norm_num [newMovie, heatBody, averageRatingOrZero]
    · norm_num [newMovie, heatBody, averageRatingOrZero]
    · norm_num [newMovie, heatBody, averageRatingOrZero, Movie.ratings, mean]
    · norm_num [newMovie, heatBody, averageRatingOrZero, Movie.ratings, doubleMean]
  · exfalso
    have h : (addMovie emptyDb (addHeat (some 5))).1.isOk = true := by
      have hs : ¬ (("Heat" : String) = "" ∨ ("A heist." : String) = "") := by decide
      norm_num [addMovie, addHeat, heatBody, missingMandatory, falsyString, falsyNumber,
        emptyDb, Except.isOk, Except.toBool, hs]
    rw [he] at h
    simp [Except.isOk, Except.toBool] at h

/-! ## `addMovieReview`: failures and effect -/

/-- The failures of `addMovieReview` in the order they are checked, for a
request whose `reviewText` is a string or is falsy: the rating check, the text
check, the lookup of the movie, the duplicate check; each leaves the store
unchanged. -/
theorem addMovieReview_failure_order (db : MovieCollection) (req : ReviewRequest) :
    ((∀ q, req.rating = .num q → q < 1 ∨ q > 5) →
      addMovieReview db req =
        (.error (.ErrorHandler 400 "Rating must be a number between 1 and 5."), db)) ∧
    (∀ q, req.rating = .num q → 1 ≤ q → q ≤ 5 →
      ((req.reviewText.truthy = false ∨
          ∃ s, req.reviewText = .str s ∧ (trim s).length = 0) →
        addMovieReview db req = (.error (.ErrorHandler 400 "Review text cannot be empty."), db)) ∧
      (∀ s, req.reviewText = .str s → (trim s).length ≠ 0 →
        (db req.id = none →
          addMovieReview db req = (.error (.ErrorHandler 404 "Movie not found."), db)) ∧
        (∀ movie, db req.id = some movie →
          (∃ r ∈ movie.reviews, r.user = req.user._id) →
          addMovieReview db req = (.error
            (.ErrorHandler 400 "User has already submitted a review for this movie."), db)))) := by
  constructor
  · intro hbad
    unfold addMovieReview
    split
    · rename_i q hq
      have hq' : q = 0 ∨ q < 1 ∨ q > 5 := Or.inr (hbad q hq)
      simp only [if_pos hq']
    · rfl
  · intro q hr h1 h5
    have hq : ¬ (q = 0 ∨ q < 1 ∨ q > 5) := by
      rintro (h | h | h)
      · rw [h] at h1; norm_num at h1
      · exact absurd h1 (not_le.mpr h)
      · exact absurd h5 (not_le.mpr h)
    constructor
    · rintro (hfalsy | ⟨s, hs, hblank⟩)
      · cases ht : req.reviewText with
        | str s =>
          have hs : s = "" := by simpa [ht, JSValue.truthy] using hfalsy
          simp [addMovieReview, hr, ht, hq, hs]
        | undefined => simp [addMovieReview, hr, ht, hq, JSValue.truthy]
        | null => simp [addMovieReview, hr, ht, hq, JSValue.truthy]
        | bool b =>
          have hb : b = false := by simpa [ht, JSValue.truthy] using hfalsy
          simp [addMovieReview, hr, ht, hq, JSValue.truthy, hb]
        | num n =>
          have hn : n = 0 := by simpa [ht, JSValue.truthy] using hfalsy
          simp [addMovieReview, hr, ht, hq, JSValue.truthy, hn]
        | object => simp [ht, JSValue.truthy] at hfalsy
      · simp [addMovieReview, hr, hs, hq, hblank]
    · intro s ht hs
      have hs' : ¬ (s = "" ∨ (trim s).length = 0) := by
        rintro (h | h)
        · rw [h] at hs; exact hs trim_empty_length
        · exact hs h
      constructor
      · intro hm
        simp only [addMovieReview, hr, ht, hm, if_neg hq, if_neg hs']
      · rintro movie hm ⟨r, hrm, hru⟩
        cases hf : movie.reviews.find? (fun review => review.user == req.user._id) with
        | some x => simp only [addMovieReview, hr, ht, hm, hf, if_neg hq, if_neg hs']
        | none => exact absurd hru (find?_user_none.mp hf r hrm)

/-- C4. The failing input: movie 1 exists, user 12 has no review on it, the
rating 4 is a number in [1,5], and `reviewText` is the number 123, neither
missing nor a string that trims to nothing. None of the four listed failures
applies, yet `addMovieReview` does not succeed: `reviewText.trim` is not a
function, the call raises a `TypeError` (an internal failure) and the store is
unchanged. -/
theorem addMovieReview_numeric_text_raises :
    (∃ movie, reviewedDb 1 = some movie ∧ ∀ r ∈ movie.reviews, r.user ≠ 12) ∧
    (1 : ℚ) ≤ 4 ∧ (4 : ℚ) ≤ 5 ∧ (JSValue.num 123).truthy = true ∧
    addMovieReview reviewedDb (requestBy 12 (.num 4) (.num 123))
      = (.error (.TypeError "reviewText.trim is not a function"), reviewedDb) ∧
    (addMovieReview reviewedDb (requestBy 12 (.num 4) (.num 123))).1.isOk = false ∧
    (Thrown.TypeError "reviewText.trim is not a function").kind = .Internal := by
  have hout : addMovieReview reviewedDb (requestBy 12 (.num 4) (.num 123))
      = (.error (.TypeError "reviewText.trim is not a function"), reviewedDb) := by
    norm_num [addMovieReview, requestBy, JSValue.truthy]
  refine ⟨⟨_, rfl, by simp [blankMovie]⟩, by norm_num, by norm_num, ?_, hout, ?_, rfl⟩
  · norm_num [JSValue.truthy]
  · rw [hout]
    rfl

/-- C5. Every successful `addMovieReview` appends exactly one review to the
end of the movie's review sequence, with user, rating and reviewText equal to
the request's values; the reviews stored before are kept unchanged and in
order; the review returned to the caller has that user, rating and
reviewText. -/
theorem addMovieReview_appends (db : MovieCollection) (req : ReviewRequest)
    (hok : (addMovieReview db req).1.isOk = true) :
    ∃ movie movie' rating reviewText response,
      db req.id = some movie ∧ req.rating = .num rating ∧ req.reviewText = .str reviewText ∧
      (addMovieReview db req).1 = .ok response ∧
      (addMovieReview db req).2 req.id = some movie' ∧
      movie'.reviews = movie.reviews ++
        [{ user := req.user._id, rating := rating, reviewText := reviewText,
           createdAt := req.now }] ∧
      movie'.reviews.length = movie.reviews.length + 1 ∧
      response.statusCode = 201 ∧
      response.data = { user := req.user._id, rating := rating, reviewText := reviewText } := by
  obtain ⟨q, s, movie, hr, h1, h5, ht, hs, hm, hu⟩ := addMovieReview_ok_inv db req hok
  rw [addMovieReview_success db req q s movie hr h1 h5 ht hs hm hu]
  exact ⟨movie, _, q, s, _, hm, hr, ht, rfl, save_same _ _ _ _, rfl, by simp, rfl, rfl⟩

/-- Witness of C5: user 11 adds rating 2, "Meh", to the movie already reviewed
by user 10. -/
theorem addMovieReview_appends_witness :
    (addMovieReview reviewedDb (requestBy 11 (.num 2) (.str "Meh"))).1.isOk = true ∧
    ∃ movie movie' rating reviewText response,
      reviewedDb 1 = some movie ∧ JSValue.num 2 = .num rating ∧
      JSValue.str "Meh" = .str reviewText ∧
      (addMovieReview reviewedDb (requestBy 11 (.num 2) (.str "Meh"))).1 = .ok response ∧
      (addMovieReview reviewedDb (requestBy 11 (.num 2) (.str "Meh"))).2 1 = some movie' ∧
      movie'.reviews = movie.reviews ++
        [{ user := 11, rating := rating, reviewText := reviewText, createdAt := 1000 }] ∧
      movie'.reviews.length = movie.reviews.length + 1 ∧
      response.statusCode = 201 ∧
      response.data = { user := 11, rating := rating, reviewText := reviewText } := by
  have hok : (addMovieReview reviewedDb (requestBy 11 (.num 2) (.str "Meh"))).1.isOk = true := by
    rw [addMovieReview_success reviewedDb (requestBy 11 (.num 2) (.str "Meh")) 2 "Meh" _ rfl
      (by norm_num) (by norm_num) rfl (by decide) rfl (by simp [blankMovie, requestBy])]
    rfl
  exact ⟨hok, addMovieReview_appends reviewedDb (requestBy 11 (.num 2) (.str "Meh")) hok⟩

/-! ## Ratings and texts of stored reviews -/

theorem applyReviewUpdate_reviewText (rating text : JSValue) (r : Review) :
    (applyReviewUpdate rating text r).reviewText =
      match text with
      | .str s => if s ≠ "" then s else r.reviewText
      | _ => r.reviewText := by
  unfold applyReviewUpdate
  cases text <;> cases rating <;> simp <;> split_ifs <;> simp

theorem applyReviewUpdate_rating (rating text : JSValue) (r : Review) :
    (applyReviewUpdate rating text r).rating =
      match rating with
      | .num q => if q ≠ 0 then q else r.rating
      | _ => r.rating := by
  unfold applyReviewUpdate
  cases text <;> cases rating <;> simp <;> split_ifs <;> simp

theorem applyReviewUpdate_rating_range (rating text : JSValue) (r : Review)
    (hr : updateRatingRejected rating = false) (h : 1 ≤ r.rating ∧ r.rating ≤ 5) :
    1 ≤ (applyReviewUpdate rating text r).rating ∧
      (applyReviewUpdate rating text r).rating ≤ 5 := by
  rw [applyReviewUpdate_rating]
  cases rating with
  | num q =>
    by_cases hq : q = 0
    · simpa [hq] using h
    · simp only [updateRatingRejected, decide_eq_false_iff_not, not_and, not_or, not_lt] at hr
      have := hr hq
      simp only [ne_eq, hq, not_false_eq_true, if_true]
      exact ⟨this.1, not_lt.mp (by simpa using this.2)⟩
  | undefined => exact h
  | null => exact h
  | bool b => exact h
  | str s => exact h
  | object => exact h

theorem applyReviewUpdate_text_nonblank (rating text : JSValue) (r : Review)
    (ht : updateTextRejected text = .ok false) (h : (trim r.reviewText).length ≠ 0) :
    (trim (applyReviewUpdate rating text r).reviewText).length ≠ 0 := by
  rw [applyReviewUpdate_reviewText]
  cases text with
  | str s =>
    by_cases hs : s = ""
    · simpa [hs] using h
    · simp only [updateTextRejected, Except.ok.injEq, decide_eq_false_iff_not, not_and] at ht
      have := ht hs
      simpa [hs] using this
  | undefined => exact h
  | null => exact h
  | bool b => exact h
  | num q => exact h
  | object => exact h

/-- C6, as amended. After every finite sequence of `addMovieReview`,
`updateMovieReview` and `deleteMovieReview` calls starting from a movie without
reviews, the rating of every stored review is a number between 1 and 5
inclusive (not necessarily an integer). -/
theorem stored_ratings_between_1_and_5 (db : MovieCollection) (id : ObjectId)
    (movie : Movie) (hm : db id = some movie) (hempty : movie.reviews = [])
    (ops : List ReviewOp) (movie' : Movie) (hm' : runOps db ops id = some movie') :
    ∀ r ∈ movie'.reviews, 1 ≤ r.rating ∧ r.rating ≤ 5 := by
  refine runOps_preserves (fun rs => ∀ r ∈ rs, 1 ≤ r.rating ∧ r.rating ≤ 5)
    ?_ ?_ ?_ ops db id ?_ movie' hm'
  · intro rs u q s now h h1 h5 _ _ r hr
    rcases List.mem_append.mp hr with hr | hr
    · exact h r hr
    · simp only [List.mem_singleton] at hr
      subst hr
      exact ⟨h1, h5⟩
  · intro pre r post rating text h hrej _ x hx
    rcases List.mem_append.mp hx with hx | hx
    · exact h x (List.mem_append.mpr (Or.inl hx))
    · rcases List.mem_cons.mp hx with hx | hx
      · subst hx
        exact applyReviewUpdate_rating_range rating text r hrej
          (h r (List.mem_append.mpr (Or.inr (List.mem_cons_self r post))))
      · exact h x (List.mem_append.mpr (Or.inr (List.mem_cons_of_mem r hx)))
  · intro pre r post h x hx
    rcases List.mem_append.mp hx with hx | hx
    · exact h x (List.mem_append.mpr (Or.inl hx))
    · exact h x (List.mem_append.mpr (Or.inr (List.mem_cons_of_mem r hx)))
  · intro m hm0
    rw [hm] at hm0
    cases hm0
    simp [hempty]

/-- Witness of C6 on the scenario of C1, after its first two steps. -/
theorem stored_ratings_witness :
    singleMovieDb (blankMovie [] 0) 1 = some (blankMovie [] 0) ∧
    (blankMovie [] 0).reviews = [] ∧
    ∀ movie', runOps (singleMovieDb (blankMovie [] 0)) (scenarioOps.take 2) 1 = some movie' →
      ∀ r ∈ movie'.reviews, 1 ≤ r.rating ∧ r.rating ≤ 5 :=
  ⟨rfl, rfl, fun movie' hm' =>
    stored_ratings_between_1_and_5 (singleMovieDb (blankMovie [] 0)) 1 (blankMovie [] 0)
      rfl rfl (scenarioOps.take 2) movie' hm'⟩

/-- Counterexample to C6 as stated: on a movie without reviews
`addMovieReview` with rating 2.5 succeeds and stores a review whose rating,
5/2, is no integer. -/
theorem half_star_rating_is_stored :
    (blankMovie [] 0).reviews = [] ∧
    (addMovieReview (singleMovieDb (blankMovie [] 0))
      (requestBy 10 (.num (5 / 2)) (.str "Good"))).1.isOk = true ∧
    ∃ movie', runOps (singleMovieDb (blankMovie [] 0))
        [.add (requestBy 10 (.num (5 / 2)) (.str "Good"))] 1 = some movie' ∧
      ∃ r ∈ movie'.reviews, r.rating = 5 / 2 ∧ ¬ ∃ n : ℤ, r.rating = (n : ℚ) := by
  have hout := addMovieReview_success (singleMovieDb (blankMovie [] 0))
    (requestBy 10 (.num (5 / 2)) (.str "Good")) (5 / 2) "Good" (blankMovie [] 0) rfl
    (by norm_num) (by norm_num) rfl (by decide) rfl (by simp [blankMovie])
  refine ⟨rfl, by rw [hout]; rfl, ?_⟩
  simp only [runOps, List.foldl, ReviewOp.next, hout]
  refine ⟨_, save_same _ _ _ _, ⟨10, 5 / 2, "Good", 1000⟩, by simp [blankMovie, requestBy],
    rfl, ?_⟩
  rintro ⟨n, hn⟩
  have h2 : (5 : ℚ) = 2 * (n : ℚ) := by
    have : (5 / 2 : ℚ) = (n : ℚ) := hn
    linarith
  have h3 : (5 : ℤ) = 2 * n := by exact_mod_cast h2
  omega

/-- C7. After every finite sequence of `addMovieReview`, `updateMovieReview`
and `deleteMovieReview` calls starting from a movie without reviews, the
reviewText of every stored review is non-empty after trimming; and no
`updateMovieReview` request, whatever its reviewText (the empty string and
whitespace included), turns a store whose texts are non-blank into one holding
a blank text. -/
theorem stored_texts_nonblank (db : MovieCollection) (id : ObjectId)
    (movie : Movie) (hm : db id = some movie) (hempty : movie.reviews = []) :
    (∀ ops movie', runOps db ops id = some movie' →
      ∀ r ∈ movie'.reviews, (trim r.reviewText).length ≠ 0) ∧
    (∀ (db0 : MovieCollection) (req : ReviewRequest),
      (∀ m, db0 req.id = some m → ∀ r ∈ m.reviews, (trim r.reviewText).length ≠ 0) →
      ∀ m', (updateMovieReview db0 req).2 req.id = some m' →
        ∀ r ∈ m'.reviews, (trim r.reviewText).length ≠ 0) := by
  have hadd : ∀ (rs : List Review) (u : ObjectId) (q : ℚ) (s : String) (now : Nat),
      (∀ r ∈ rs, (trim r.reviewText).length ≠ 0) → 1 ≤ q → q ≤ 5 → (trim s).length ≠ 0 →
      (∀ r ∈ rs, r.user ≠ u) →
      ∀ r ∈ rs ++ [(⟨u, q, s, now⟩ : Review)], (trim r.reviewText).length ≠ 0 := by
    intro rs u q s now h _ _ hs _ r hr
    rcases List.mem_append.mp hr with hr | hr
    · exact h r hr
    · simp only [List.mem_singleton] at hr
      subst hr
      exact hs
  have hupd : ∀ (pre : List Review) (r : Review) (post : List Review) (rating text : JSValue),
      (∀ x ∈ pre ++ r :: post, (trim x.reviewText).length ≠ 0) →
      updateRatingRejected rating = false → updateTextRejected text = .ok false →
      ∀ x ∈ pre ++ applyReviewUpdate rating text r :: post,
        (trim x.reviewText).length ≠ 0 := by
    intro pre r post rating text h _ ht x hx
    rcases List.mem_append.mp hx with hx | hx
    · exact h x (List.mem_append.mpr (Or.inl hx))
    · rcases List.mem_cons.mp hx with hx | hx
      · subst hx
        exact applyReviewUpdate_text_nonblank rating text r ht
          (h r (List.mem_append.mpr (Or.inr (List.mem_cons_self r post))))
      · exact h x (List.mem_append.mpr (Or.inr (List.mem_cons_of_mem r hx)))
  have hdel : ∀ (pre : List Review) (r : Review) (post : List Review),
      (∀ x ∈ pre ++ r :: post, (trim x.reviewText).length ≠ 0) →
      ∀ x ∈ pre ++ post, (trim x.reviewText).length ≠ 0 := by
    intro pre r post h x hx
    rcases List.mem_append.mp hx with hx | hx
    · exact h x (List.mem_append.mpr (Or.inl hx))
    · exact h x (List.mem_append.mpr (Or.inr (List.mem_cons_of_mem r hx)))
  constructor
  · intro ops movie' hm'
    refine runOps_preserves (fun rs => ∀ r ∈ rs, (trim r.reviewText).length ≠ 0)
      hadd hupd hdel ops db id ?_ movie' hm'
    intro m hm0
    rw [hm] at hm0
    cases hm0
    simp [hempty]
  · intro db0 req h0 m' hm'
    exact next_preserves (fun rs => ∀ r ∈ rs, (trim r.reviewText).length ≠ 0)
      hadd hupd hdel db0 (.update req) req.id h0 m' hm'

/-- Witness of C7 on a movie without reviews; and on the movie reviewed by
user 10 with "Good": an update whose reviewText is the empty string succeeds
and keeps "Good", an update whose reviewText is whitespace is rejected. -/
theorem stored_texts_nonblank_witness :
    singleMovieDb (blankMovie [] 0) 1 = some (blankMovie [] 0) ∧
    (blankMovie [] 0).reviews = [] ∧
    (∀ ops movie', runOps (singleMovieDb (blankMovie [] 0)) ops 1 = some movie' →
      ∀ r ∈ movie'.reviews, (trim r.reviewText).length ≠ 0) ∧
    ((updateMovieReview reviewedDb (requestBy 10 .undefined (.str ""))).2 1).map
        (fun m => m.reviews.map (fun r => r.reviewText)) = some ["Good"] ∧
    updateMovieReview reviewedDb (requestBy 10 .undefined (.str "  "))
      = (.error (.ErrorHandler 400 "Review text cannot be empty."), reviewedDb) := by
  refine ⟨rfl, rfl,
    (stored_texts_nonblank (singleMovieDb (blankMovie [] 0)) 1 (blankMovie [] 0) rfl rfl).1,
    ?_, ?_⟩
  · rw [updateMovieReview_success reviewedDb (requestBy 10 .undefined (.str "")) _ []
      ⟨10, 4, "Good", 1000⟩ [] rfl rfl rfl rfl (by simp) rfl]
    simp [save, applyReviewUpdate, requestBy]
  · have h : (trim "  ").length = 0 := by decide
    have h2 : ("  " : String) ≠ "" := by decide
    simp [updateMovieReview, updateRatingRejected, updateTextRejected, requestBy,
      JSValue.truthy, h, h2]

/-! ## `updateMovieReview` -/

theorem updateMovieReview_ok_inv (db : MovieCollection) (req : ReviewRequest)
    (hok : (updateMovieReview db req).1.isOk = true) :
    ∃ movie pre r post, updateRatingRejected req.rating = false ∧
      updateTextRejected req.reviewText = .ok false ∧ db req.id = some movie ∧
      movie.reviews = pre ++ r :: post ∧ (∀ x ∈ pre, x.user ≠ req.user._id) ∧
      r.user = req.user._id := by
  rcases updateMovieReview_cases db req with h | ⟨e, he⟩
  · exact h
  · rw [he] at hok
    simp [Except.isOk, Except.toBool] at hok

theorem updateMovieReview_fail_unchanged (db : MovieCollection) (req : ReviewRequest)
    (h : (updateMovieReview db req).1.isOk = false) : (updateMovieReview db req).2 = db := by
  rcases updateMovieReview_cases db req with
    ⟨movie, pre, r, post, hr, ht, hm, hsplit, hpre, hu⟩ | ⟨e, he⟩
  · rw [updateMovieReview_success db req movie pre r post hr ht hm hsplit hpre hu] at h
    simp [Except.isOk, Except.toBool] at h
  · rw [he]

theorem validUpdateInput_passes (req : ReviewRequest) (h : ValidUpdateInput req) :
    updateRatingRejected req.rating = false ∧
      updateTextRejected req.reviewText = .ok false := by
  obtain ⟨hr, ht⟩ := h
  constructor
  · rcases hr with hr | ⟨q, hq, h1, h5⟩
    · cases hrt : req.rating with
      | num q =>
        have hq : q = 0 := by simpa [hrt, JSValue.truthy] using hr
        simp [updateRatingRejected, hq]
      | undefined => rfl
      | null => rfl
      | bool b => simpa [hrt, JSValue.truthy, updateRatingRejected] using hr
      | str s => simpa [hrt, JSValue.truthy, updateRatingRejected] using hr
      | object => simp [hrt, JSValue.truthy] at hr
    · rw [hq]
      simp only [updateRatingRejected, decide_eq_false_iff_not, not_and, not_or, not_lt]
      intro _
      exact ⟨h1, by simpa using h5⟩
  · rcases ht with ht | ⟨s, hs, hlen⟩
    · cases htt : req.reviewText with
      | str s =>
        have hs : s = "" := by simpa [htt, JSValue.truthy] using ht
        simp [updateTextRejected, hs]
      | undefined => rfl
      | null => rfl
      | bool b =>
        have hb : b = false := by simpa [htt, JSValue.truthy] using ht
        simp [updateTextRejected, JSValue.truthy, hb]
      | num q =>
        have hq : q = 0 := by simpa [htt, JSValue.truthy] using ht
        simp [updateTextRejected, JSValue.truthy, hq]
      | object => simp [htt, JSValue.truthy] at ht
    · rw [hs]
      simp [updateTextRejected, hlen]

/-- C8, as amended. `updateMovieReview` is a partial update: on success only
the requesting user's (first) review changes; in it a field supplied with a
truthy value (a non-zero rating, a non-empty reviewText) takes the supplied
value, a field that is absent or falsy (0, null, false, the empty string)
keeps its previous value, and the review's user and createdAt keep their
previous values; the number and order of the movie's reviews and every other
review are unchanged; the returned review is the updated one. -/
theorem updateMovieReview_partial_update (db : MovieCollection) (req : ReviewRequest)
    (hok : (updateMovieReview db req).1.isOk = true) :
    ∃ movie pre r post movie' response,
      db req.id = some movie ∧ movie.reviews = pre ++ r :: post ∧
      (∀ x ∈ pre, x.user ≠ req.user._id) ∧ r.user = req.user._id ∧
      (updateMovieReview db req).1 = .ok response ∧
      (updateMovieReview db req).2 req.id = some movie' ∧
      movie'.reviews = pre ++ response.data :: post ∧
      movie'.reviews.length = movie.reviews.length ∧
      response.data.user = r.user ∧ response.data.createdAt = r.createdAt ∧
      (∀ q, req.rating = .num q → q ≠ 0 → response.data.rating = q) ∧
      (req.rating.truthy = false → response.data.rating = r.rating) ∧
      (∀ s, req.reviewText = .str s → s ≠ "" → response.data.reviewText = s) ∧
      (req.reviewText.truthy = false → response.data.reviewText = r.reviewText) := by
  obtain ⟨movie, pre, r, post, hr, ht, hm, hsplit, hpre, hu⟩ :=
    updateMovieReview_ok_inv db req hok
  rw [updateMovieReview_success db req movie pre r post hr ht hm hsplit hpre hu]
  refine ⟨movie, pre, r, post, _, _, hm, hsplit, hpre, hu, rfl, save_same _ _ _ _, rfl, ?_,
    applyReviewUpdate_user _ _ _, applyReviewUpdate_createdAt _ _ _, ?_, ?_, ?_, ?_⟩
  · simp [hsplit]
  · intro q hq hq0
    simp [applyReviewUpdate_rating, hq, hq0]
  · intro hfalsy
    rw [applyReviewUpdate_rating]
    cases hrt : req.rating with
    | num q =>
      have hq : q = 0 := by simpa [hrt, JSValue.truthy] using hfalsy
      simp [hq]
    | undefined => rfl
    | null => rfl
    | bool b => rfl
    | str s => rfl
    | object => rfl
  · intro s hs hs0
    simp [applyReviewUpdate_reviewText, hs, hs0]
  · intro hfalsy
    rw [applyReviewUpdate_reviewText]
    cases htt : req.reviewText with
    | str s =>
      have hs : s = "" := by simpa [htt, JSValue.truthy] using hfalsy
      simp [hs]
    | undefined => rfl
    | null => rfl
    | bool b => rfl
    | num q => rfl
    | object => rfl

theorem update_by_11_succeeds :
    (updateMovieReview threeReviewsDb (requestBy 11 (.num 3) .undefined)).1.isOk = true := by
  rw [updateMovieReview_success threeReviewsDb (requestBy 11 (.num 3) .undefined) _
    [⟨10, 4, "Good", 1000⟩] ⟨11, 2, "Meh", 2000⟩ [⟨12, 5, "Great", 3000⟩]
    (by norm_num [updateRatingRejected, requestBy]) rfl rfl rfl
    (by simp [requestBy]) rfl]
  rfl

/-- Witness of C8: user 11 updates only the rating, to 3, on the movie with
three reviews. -/
theorem updateMovieReview_partial_update_witness :
    (updateMovieReview threeReviewsDb (requestBy 11 (.num 3) .undefined)).1.isOk = true ∧
    ∃ movie pre r post movie' response,
      threeReviewsDb 1 = some movie ∧ movie.reviews = pre ++ r :: post ∧
      (∀ x ∈ pre, x.user ≠ 11) ∧ r.user = 11 ∧
      (updateMovieReview threeReviewsDb (requestBy 11 (.num 3) .undefined)).1 = .ok response ∧
      (updateMovieReview threeReviewsDb (requestBy 11 (.num 3) .undefined)).2 1 = some movie' ∧
      movie'.reviews = pre ++ response.data :: post ∧
      movie'.reviews.length = movie.reviews.length ∧
      response.data.user = r.user ∧ response.data.createdAt = r.createdAt ∧
      (∀ q, JSValue.num 3 = .num q → q ≠ 0 → response.data.rating = q) ∧
      ((JSValue.num 3).truthy = false → response.data.rating = r.rating) ∧
      (∀ s, JSValue.undefined = .str s → s ≠ "" → response.data.reviewText = s) ∧
      (JSValue.undefined.truthy = false → response.data.reviewText = r.reviewText) :=
  ⟨update_by_11_succeeds,
    updateMovieReview_partial_update threeReviewsDb (requestBy 11 (.num 3) .undefined)
      update_by_11_succeeds⟩

/-- Counterexample to C8 as stated: user 10, whose review has rating 4,
sends `rating: 0`. The field is supplied, the update succeeds, and the stored
and returned rating is still 4, not the supplied 0. -/
theorem update_with_zero_rating_keeps_rating :
    (requestBy 10 (.num 0) .undefined).rating ≠ .undefined ∧
    (updateMovieReview reviewedDb (requestBy 10 (.num 0) .undefined)).1
      = .ok ⟨200, { user := 10, rating := 4, reviewText := "Good", createdAt := 1000 },
          "Review updated successfully."⟩ ∧
    ((updateMovieReview reviewedDb (requestBy 10 (.num 0) .undefined)).2 1).map
      (fun m => m.reviews.map (fun r => r.rating)) = some [4] ∧
    (4 : ℚ) ≠ 0 := by
  have hout := updateMovieReview_success reviewedDb (requestBy 10 (.num 0) .undefined) _ []
    ⟨10, 4, "Good", 1000⟩ [] (by norm_num [updateRatingRejected, requestBy]) rfl rfl rfl
    (by simp) rfl
  refine ⟨by simp [requestBy], ?_, ?_, by norm_num⟩
  · rw [hout]
    simp [applyReviewUpdate, requestBy]
  · rw [hout]
    simp [save, applyReviewUpdate, requestBy]

/-- C9. `updateMovieReview` with valid inputs fails with NotFound if and only
if no movie has the given id or the movie holds no review by the requesting
user, and with valid inputs it fails in no other way; whenever
`updateMovieReview` fails, for whatever reason, the store, and so the movie
and its averageRating, is unchanged. -/
theorem updateMovieReview_not_found_iff (db : MovieCollection) (req : ReviewRequest)
    (hvalid : ValidUpdateInput req) :
    (failsNotFound (updateMovieReview db req) ↔
      (db req.id = none ∨
        ∃ movie, db req.id = some movie ∧ ∀ r ∈ movie.reviews, r.user ≠ req.user._id)) ∧
    ((updateMovieReview db req).1.isOk = false ↔ failsNotFound (updateMovieReview db req)) ∧
    (∀ (db0 : MovieCollection) (req0 : ReviewRequest),
      (updateMovieReview db0 req0).1.isOk = false → (updateMovieReview db0 req0).2 = db0) := by
  obtain ⟨hr, ht⟩ := validUpdateInput_passes req hvalid
  have hiff : failsNotFound (updateMovieReview db req) ↔
      (db req.id = none ∨
        ∃ movie, db req.id = some movie ∧ ∀ r ∈ movie.reviews, r.user ≠ req.user._id) := by
    constructor
    · rintro ⟨e, he, _⟩
      rcases updateMovieReview_cases db req with
        ⟨movie, pre, r, post, _, _, hm, hsplit, hpre, hu⟩ | ⟨e', he'⟩
      · rw [updateMovieReview_success db req movie pre r post hr ht hm hsplit hpre hu] at he
        cases he
      · cases hm : db req.id with
        | none => exact Or.inl rfl
        | some movie =>
          right
          refine ⟨movie, rfl, ?_⟩
          rcases exists_first (fun review : Review => review.user == req.user._id)
            movie.reviews with hall | ⟨pre, r, post, hsplit, hpre, hfound⟩
          · intro x hx
            simpa using hall x hx
          · exfalso
            have hpre' : ∀ x ∈ pre, x.user ≠ req.user._id := by
              intro x hx
              simpa using hpre x hx
            rw [updateMovieReview_success db req movie pre r post hr ht hm hsplit hpre'
              (by simpa using hfound)] at he
            cases he
    · rintro (hm | ⟨movie, hm, hu⟩)
      · exact ⟨.ErrorHandler 404 "Movie not found.",
          by rw [updateMovieReview_no_movie db req hr ht hm], rfl⟩
      · exact ⟨.ErrorHandler 404 "Review not found for this user.",
          by rw [updateMovieReview_no_review db req movie hr ht hm hu], rfl⟩
  refine ⟨hiff, ?_, updateMovieReview_fail_unchanged⟩
  constructor
  · intro hfail
    rw [hiff]
    cases hm : db req.id with
    | none => exact Or.inl rfl
    | some movie =>
      right
      refine ⟨movie, rfl, ?_⟩
      rcases exists_first (fun review : Review => review.user == req.user._id)
        movie.reviews with hall | ⟨pre, r, post, hsplit, hpre, hfound⟩
      · intro x hx
        simpa using hall x hx
      · exfalso
        have hpre' : ∀ x ∈ pre, x.user ≠ req.user._id := by
          intro x hx
          simpa using hpre x hx
        rw [updateMovieReview_success db req movie pre r post hr ht hm hsplit hpre'
          (by simpa using hfound)] at hfail
        simp [Except.isOk, Except.toBool] at hfail
  · rintro ⟨e, he, _⟩
    rw [he]
    rfl

/-- Witness of C9: user 13, who has no review on movie 1, sends a valid
update and gets NotFound; the store is unchanged. -/
theorem updateMovieReview_not_found_witness :
    ValidUpdateInput (requestBy 13 (.num 3) (.str "Fine")) ∧
    failsNotFound (updateMovieReview threeReviewsDb (requestBy 13 (.num 3) (.str "Fine"))) ∧
    (updateMovieReview threeReviewsDb (requestBy 13 (.num 3) (.str "Fine"))).2
      = threeReviewsDb := by
  have hvalid : ValidUpdateInput (requestBy 13 (.num 3) (.str "Fine")) :=
    ⟨Or.inr ⟨3, rfl, by norm_num, by norm_num⟩, Or.inr ⟨"Fine", rfl, by decide⟩⟩
  have h := updateMovieReview_not_found_iff threeReviewsDb
    (requestBy 13 (.num 3) (.str "Fine")) hvalid
  have hnf : failsNotFound
      (updateMovieReview threeReviewsDb (requestBy 13 (.num 3) (.str "Fine"))) :=
    h.1.mpr (Or.inr ⟨_, rfl, by simp [blankMovie, requestBy]⟩)
  exact ⟨hvalid, hnf, h.2.2 _ _ (h.2.1.mpr hnf)⟩

/-! ## `deleteMovieReview` -/

theorem filter_other_users_remove (pre : List Review) (r : Review) (post : List Review)
    (u : ObjectId) (hu : r.user = u) :
    (pre ++ post).filter (fun x => x.user != u)
      = (pre ++ r :: post).filter (fun x => x.user != u) := by
  simp [List.filter_append, List.filter_cons, hu]

/-- C10. When the requesting user has a review on the movie,
`deleteMovieReview` succeeds and removes exactly that user's (first) review:
the review count drops by one, every other review is kept unchanged and in the
same order, no review by the requester remains when the movie had at most one
review per user, and `averageRating` becomes the mean of the remaining
ratings as double arithmetic computes it (the ratings added from the left,
each sum rounded, the quotient rounded), `0` if none remains; when fewer than
`2^32` reviews remain, rated between 1 and 5, that is their exact mean up to a
factor between `(1 - 2^-53)^(n+1)` and `(1 + 2^-53)^(n+1)`. -/
theorem deleteMovieReview_removes_own_review (db : MovieCollection) (req : ReviewRequest)
    (movie : Movie) (hm : db req.id = some movie)
    (hown : ∃ r ∈ movie.reviews, r.user = req.user._id) :
    (deleteMovieReview db req).1 = .ok ⟨200, (), "Review deleted successfully."⟩ ∧
    ∃ pre r post movie',
      movie.reviews = pre ++ r :: post ∧ r.user = req.user._id ∧
      (∀ x ∈ pre, x.user ≠ req.user._id) ∧
      (deleteMovieReview db req).2 req.id = some movie' ∧
      movie'.reviews = pre ++ post ∧
      movie'.reviews.length + 1 = movie.reviews.length ∧
      movie'.reviews.filter (fun x => x.user != req.user._id)
        = movie.reviews.filter (fun x => x.user != req.user._id) ∧
      (movie.oneReviewPerUser → ∀ x ∈ movie'.reviews, x.user ≠ req.user._id) ∧
      movie'.averageRating = doubleMean movie'.ratings ∧
      (movie'.reviews = [] → movie'.averageRating = 0) ∧
      ((∀ x ∈ movie'.ratings, 1 ≤ x ∧ x ≤ 5) → movie'.reviews.length < 2 ^ 32 →
        (1 - 1 / 2 ^ 53) ^ (movie'.reviews.length + 1) * mean movie'.ratings
            ≤ movie'.averageRating ∧
          movie'.averageRating
            ≤ (1 + 1 / 2 ^ 53) ^ (movie'.reviews.length + 1) * mean movie'.ratings) := by
  rcases deleteMovieReview_cases db req with
    ⟨movie0, pre, r, post, hm0, hsplit, hpre, hu⟩ | ⟨e, he⟩
  · rw [hm] at hm0
    cases hm0
    have hout := deleteMovieReview_success db req movie pre r post hm hsplit hpre hu
    have hok : (ReviewOp.delete req).succeeds db = true := by
      simp [ReviewOp.succeeds, hout, Except.isOk, Except.toBool]
    obtain ⟨m1, hm1, havg⟩ := review_op_average db (.delete req) hok
    simp only [ReviewOp.next, ReviewOp.req, hout, save_same] at hm1
    cases hm1
    rw [hout]
    refine ⟨rfl, pre, r, post, _, hsplit, hu, hpre, save_same _ _ _ _, rfl, ?_, ?_, ?_, havg,
      ?_, ?_⟩
    · simp [hsplit]
      omega
    · rw [hsplit]
      exact filter_other_users_remove pre r post _ hu
    · intro huniq x hx
      have hp : (pre ++ r :: post).Pairwise (fun a b => a.user ≠ b.user) := by
        have := huniq
        rwa [Movie.oneReviewPerUser, hsplit] at this
      rw [List.pairwise_append] at hp
      obtain ⟨_, hrp, hcross⟩ := hp
      rcases List.mem_append.mp hx with hx | hx
      · exact hpre x hx
      · rw [List.pairwise_cons] at hrp
        intro hxu
        exact hrp.1 x hx (by rw [hu, hxu])
    · intro hnil
      rw [havg]
      simp only [Movie.ratings] at hnil ⊢
      rw [hnil]
      rfl
    · intro hrange hlen
      rw [havg]
      exact doubleMean_ratings_between _ hrange hlen
  · exfalso
    obtain ⟨r, hr, hru⟩ := hown
    rcases exists_first (fun review : Review => review.user == req.user._id)
      movie.reviews with hall | ⟨pre, r0, post, hsplit, hpre, hfound⟩
    · have := hall r hr
      simp [hru] at this
    · have hpre' : ∀ x ∈ pre, x.user ≠ req.user._id := by
        intro x hx
        simpa using hpre x hx
      rw [deleteMovieReview_success db req movie pre r0 post hm hsplit hpre'
        (by simpa using hfound)] at he
      cases he

/-- Witness of C10: user 11 deletes their review from the movie with three
reviews; the reviews of users 10 and 12 remain, in order, with mean 9/2. -/
theorem deleteMovieReview_removes_own_review_witness :
    (∃ r ∈ (blankMovie
        [ { user := 10, rating := 4, reviewText := "Good", createdAt := 1000 },
          { user := 11, rating := 2, reviewText := "Meh", createdAt := 2000 },
          { user := 12, rating := 5, reviewText := "Great", createdAt := 3000 } ]
        (8256599316845909 / 2251799813685248)).reviews, r.user = 11) ∧
    (deleteMovieReview threeReviewsDb (requestBy 11 .undefined .undefined)).1
      = .ok ⟨200, (), "Review deleted successfully."⟩ ∧
    ((deleteMovieReview threeReviewsDb (requestBy 11 .undefined .undefined)).2 1).map
      (fun m => (m.reviews.map (fun r => r.user), m.averageRating))
      = some ([10, 12], 9 / 2) := by
  have hown : ∃ r ∈ (blankMovie
      [ { user := 10, rating := 4, reviewText := "Good", createdAt := 1000 },
        { user := 11, rating := 2, reviewText := "Meh", createdAt := 2000 },
        { user := 12, rating := 5, reviewText := "Great", createdAt := 3000 } ]
      (8256599316845909 / 2251799813685248)).reviews, r.user = 11 :=
    ⟨⟨11, 2, "Meh", 2000⟩, by simp [blankMovie], rfl⟩
  refine ⟨hown,
    (deleteMovieReview_removes_own_review threeReviewsDb
      (requestBy 11 .undefined .undefined) _ rfl hown).1, ?_⟩
  rw [deleteMovieReview_success threeReviewsDb (requestBy 11 .undefined .undefined) _
    [⟨10, 4, "Good", 1000⟩] ⟨11, 2, "Meh", 2000⟩ [⟨12, 5, "Great", 3000⟩] rfl rfl
    (by simp [requestBy]) rfl]
  dsimp only [requestBy]
  rw [save_same]
  norm_num [recomputeAverage, totalRatings, jsAdd, jsDiv, roundDouble_four, roundDouble_nine,
    roundDouble_nine_halves]

/-- Counterexample to C10 as stated: user 13 deletes their review from the
movie rated 4, 2, 5 and 3. The call succeeds and the ratings 4, 2, 5 remain;
their exact mean is 11/3, which is no double, and the `averageRating` stored
is the double next to it, `8256599316845909 / 2^51` (printed
3.6666666666666665). -/
theorem deleteMovieReview_average_not_exact_mean :
    (deleteMovieReview fourReviewsDb (requestBy 13 .undefined .undefined)).1
      = .ok ⟨200, (), "Review deleted successfully."⟩ ∧
    ((deleteMovieReview fourReviewsDb (requestBy 13 .undefined .undefined)).2 1).map
        (fun movie => (movie.ratings, movie.averageRating, mean movie.ratings))
      = some ([4, 2, 5], 8256599316845909 / 2251799813685248, 11 / 3) ∧
    (8256599316845909 / 2251799813685248 : ℚ) ≠ 11 / 3 := by
  have hout := deleteMovieReview_success fourReviewsDb (requestBy 13 .undefined .undefined) _
    [⟨10, 4, "Good", 1000⟩, ⟨11, 2, "Meh", 2000⟩, ⟨12, 5, "Great", 3000⟩]
    ⟨13, 3, "Fine", 4000⟩ [] rfl rfl (by simp [requestBy]) rfl
  rw [hout]
  refine ⟨rfl, ?_, by norm_num⟩
  dsimp only [requestBy]
  rw [save_same]
  norm_num [recomputeAverage, totalRatings, jsAdd, jsDiv, roundDouble_four, roundDouble_six,
    roundDouble_eleven, roundDouble_eleven_thirds, Movie.ratings, mean]
  simp

/-! ## `deleteMovieReview` without an own review -/

/-- C11. When the requester has no review of their own on an existing movie,
`deleteMovieReview` fails and leaves the store, hence the movie, unchanged,
whatever the role: with 403 (Forbidden) for a requester who is not an admin and
with 404 (NotFound) for an admin. No review is removed. -/
theorem deleteMovieReview_without_own_review (db : MovieCollection) (req : ReviewRequest)
    (movie : Movie) (hm : db req.id = some movie)
    (hnone : ∀ r ∈ movie.reviews, r.user ≠ req.user._id) :
    (req.user.role ≠ "admin" →
      deleteMovieReview db req =
        (.error (.ErrorHandler 403 "Review not found or insufficient permissions."), db) ∧
      (Thrown.ErrorHandler 403 "Review not found or insufficient permissions.").kind
        = .Forbidden) ∧
    (req.user.role = "admin" →
      deleteMovieReview db req = (.error (.ErrorHandler 404 "Review not found."), db) ∧
      (Thrown.ErrorHandler 404 "Review not found.").kind = .NotFound) ∧
    (deleteMovieReview db req).1.isOk = false ∧
    (deleteMovieReview db req).2 = db ∧
    (deleteMovieReview db req).2 req.id = some movie := by
  have hadmin : req.user.role = "admin" →
      deleteMovieReview db req = (.error (.ErrorHandler 404 "Review not found."), db) :=
    deleteMovieReview_admin_without_review db req movie hm hnone
  have hother : req.user.role ≠ "admin" →
      deleteMovieReview db req =
        (.error (.ErrorHandler 403 "Review not found or insufficient permissions."), db) :=
    deleteMovieReview_other_without_review db req movie hm hnone
  refine ⟨fun h => ⟨hother h, rfl⟩, fun h => ⟨hadmin h, rfl⟩, ?_⟩
  by_cases h : req.user.role = "admin"
  · rw [hadmin h]
    exact ⟨rfl, rfl, hm⟩
  · rw [hother h]
    exact ⟨rfl, rfl, hm⟩

/-- Witness of C11: admin 99 and user 13, neither with a review on movie 1 of
`reviewedDb`, get 404 and 403, and the store is unchanged. -/
theorem deleteMovieReview_without_own_review_witness :
    (∀ r ∈ (blankMovie [{ user := 10, rating := 4, reviewText := "Good", createdAt := 1000 }]
        4).reviews, r.user ≠ 99) ∧
    deleteMovieReview reviewedDb adminDeleteRequest
      = (.error (.ErrorHandler 404 "Review not found."), reviewedDb) ∧
    deleteMovieReview reviewedDb (requestBy 13 .undefined .undefined)
      = (.error (.ErrorHandler 403 "Review not found or insufficient permissions."),
          reviewedDb) := by
  have h99 : ∀ r ∈ (blankMovie
      [{ user := 10, rating := 4, reviewText := "Good", createdAt := 1000 }] 4).reviews,
      r.user ≠ 99 := by
    simp [blankMovie]
  have h13 : ∀ r ∈ (blankMovie
      [{ user := 10, rating := 4, reviewText := "Good", createdAt := 1000 }] 4).reviews,
      r.user ≠ 13 := by
    simp [blankMovie]
  exact ⟨h99,
    ((deleteMovieReview_without_own_review reviewedDb adminDeleteRequest _ rfl h99).2.1
      rfl).1,
    ((deleteMovieReview_without_own_review reviewedDb (requestBy 13 .undefined .undefined)
      _ rfl h13).1 (by decide)).1⟩

theorem deleteMovieReview_keeps_other_reviews (db : MovieCollection) (req : ReviewRequest)
    (id : ObjectId) (movie : Movie) (r : Review) (hm : db id = some movie)
    (hr : r ∈ movie.reviews) (hu : r.user ≠ req.user._id) :
    ∃ movie', (deleteMovieReview db req).2 id = some movie' ∧ r ∈ movie'.reviews := by
  rcases deleteMovieReview_cases db req with
    ⟨movie0, pre, r0, post, hm0, hsplit, hpre, hu0⟩ | ⟨e, he⟩
  · rw [deleteMovieReview_success db req movie0 pre r0 post hm0 hsplit hpre hu0]
    by_cases hid : id = req.id
    · subst hid
      rw [hm] at hm0
      cases hm0
      refine ⟨_, save_same _ _ _ _, ?_⟩
      rw [hsplit] at hr
      rcases List.mem_append.mp hr with h | h
      · exact List.mem_append.mpr (Or.inl h)
      · rcases List.mem_cons.mp h with h | h
        · subst h
          exact absurd hu0 hu
        · exact List.mem_append.mpr (Or.inr h)
    · exact ⟨movie, (save_other _ _ _ _ _ hid).trans hm, hr⟩
  · rw [he]
    exact ⟨movie, hm, hr⟩

/-- C12. The failing input: movie 1 holds a review by user 10; the admin 99
asks `deleteMovieReview` for movie 1. The handler looks for the admin's own
review, finds none and answers 404; and whatever request anyone other than
user 10 sends, admins included, the review of user 10 is still in the movie's
review sequence afterwards. -/
theorem admin_cannot_delete_others_review :
    adminDeleteRequest.user.role = "admin" ∧
    deleteMovieReview reviewedDb adminDeleteRequest
      = (.error (.ErrorHandler 404 "Review not found."), reviewedDb) ∧
    ∀ req : ReviewRequest, req.user._id ≠ 10 →
      ∃ movie', (deleteMovieReview reviewedDb req).2 1 = some movie' ∧
        ({ user := 10, rating := 4, reviewText := "Good", createdAt := 1000 } : Review)
          ∈ movie'.reviews := by
  refine ⟨rfl, ?_, ?_⟩
  · exact deleteMovieReview_admin_without_review reviewedDb adminDeleteRequest _ rfl
      (by simp [blankMovie, adminDeleteRequest]) rfl
  · intro req hreq
    exact deleteMovieReview_keeps_other_reviews reviewedDb req 1 _ _ rfl
      (by simp [blankMovie]) (fun h => hreq h.symm)

/-! ## Listing reviews -/

theorem mapExcept_ok_forall₂ {α β : Type} (f : α → Except Thrown β) (xs : List α)
    (ys : List β) (h : mapExcept f xs = .ok ys) :
    List.Forall₂ (fun x y => f x = .ok y) xs ys := by
  induction xs generalizing ys with
  | nil =>
    simp only [mapExcept, Except.ok.injEq] at h
    subst h
    exact List.Forall₂.nil
  | cons x xs ih =>
    unfold mapExcept at h
    cases hx : f x with
    | error e => simp [hx] at h
    | ok y =>
      cases hxs : mapExcept f xs with
      | error e => simp [hx, hxs] at h
      | ok ys' =>
        simp only [hx, hxs, Except.ok.injEq] at h
        subst h
        exact List.Forall₂.cons hx (ih ys' hxs)

theorem mapExcept_eq_ok_map {α β : Type} (f : α → Except Thrown β) (g : α → β)
    (xs : List α) (h : ∀ x ∈ xs, f x = .ok (g x)) : mapExcept f xs = .ok (xs.map g) := by
  induction xs with
  | nil => rfl
  | cons x xs ih =>
    have hx := h x (by simp)
    have hxs := ih (fun y hy => h y (by simp [hy]))
    simp [mapExcept, hx, hxs]

theorem forall₂_map_eq {α β γ : Type} (R : α → β → Prop) (g : β → γ) (g' : α → γ)
    (hR : ∀ x y, R x y → g y = g' x) (xs : List α) (ys : List β)
    (h : List.Forall₂ R xs ys) : ys.map g = xs.map g' := by
  induction h with
  | nil => rfl
  | cons hxy _ ih => simp [hR _ _ hxy, ih]

theorem jsSlice_infix {α : Type} (xs : List α) (start stop : Int) :
    jsSlice xs start stop <:+: xs := by
  unfold jsSlice
  exact (List.take_prefix _ _).isInfix.trans (List.drop_suffix _ _).isInfix

theorem reviewAuthor_ok_id (users : UserCollection) (review : Review) (user : PopulatedUser)
    (h : reviewAuthor users review = .ok user) : user._id = review.user := by
  unfold reviewAuthor populateUser at h
  cases hu : users review.user with
  | none => simp [hu] at h
  | some u =>
    simp only [hu, Option.map_some', Except.ok.injEq] at h
    rw [← h]

/-- C13, as amended. `getMovieReviews` does not sort: whenever it responds
with reviews, for whatever page and limit, they are the stored reviews at the
positions `skip .. skip + limit` (with `skip = (page - 1) * limit`), a block of
consecutive stored reviews in stored order, with their stored ratings and
authors. -/
theorem getMovieReviews_lists_stored_order (movies : MovieCollection)
    (users : UserCollection) (req : ReviewListRequest)
    (response : ApiResponseHandler (Option ReviewPage)) (page : ReviewPage)
    (hok : getMovieReviews movies users req = .ok response)
    (hpage : response.data = some page) :
    ∃ movie, movies req.id = some movie ∧
      page.reviews.map (fun review => review.rating) =
        (jsSlice movie.reviews ((req.page.getD 1 - 1) * req.limit.getD 10)
          ((req.page.getD 1 - 1) * req.limit.getD 10 + req.limit.getD 10)).map
          (fun review => review.rating) ∧
      page.reviews.map (fun review => review.user._id) =
        (jsSlice movie.reviews ((req.page.getD 1 - 1) * req.limit.getD 10)
          ((req.page.getD 1 - 1) * req.limit.getD 10 + req.limit.getD 10)).map
          (fun review => review.user) ∧
      jsSlice movie.reviews ((req.page.getD 1 - 1) * req.limit.getD 10)
          ((req.page.getD 1 - 1) * req.limit.getD 10 + req.limit.getD 10)
        <:+: movie.reviews := by
  unfold getMovieReviews at hok
  cases hm : movies req.id with
  | none => simp [hm] at hok
  | some movie =>
    simp only [hm] at hok
    split at hok
    · simp only [Except.ok.injEq] at hok
      subst hok
      simp at hpage
    · split at hok
      · simp at hok
      · rename_i reviews hmap
        simp only [Except.ok.injEq] at hok
        subst hok
        simp only [Option.some.injEq] at hpage
        subst hpage
        have hall := mapExcept_ok_forall₂ _ _ _ hmap
        refine ⟨movie, rfl, ?_, ?_, jsSlice_infix _ _ _⟩
        · refine forall₂_map_eq _ _ _ ?_ _ _ hall
          intro x y hxy
          cases ha : reviewAuthor users x with
          | error e => simp [ha] at hxy
          | ok u =>
            simp only [ha, Except.ok.injEq] at hxy
            rw [← hxy]
        · refine forall₂_map_eq _ _ _ ?_ _ _ hall
          intro x y hxy
          cases ha : reviewAuthor users x with
          | error e => simp [ha] at hxy
          | ok u =>
            simp only [ha, Except.ok.injEq] at hxy
            rw [← hxy]
            exact reviewAuthor_ok_id users x u ha

theorem lowThenHigh_first_page :
    getMovieReviews lowThenHighDb annAndBob ⟨1, none, none⟩ = .ok ⟨200, some
      { reviews :=
          [ { user := ⟨10, some "Ann", "avatar.jpg"⟩, rating := 2, comment := none,
              date := none },
            { user := ⟨11, some "Bob", "avatar.jpg"⟩, rating := 5, comment := none,
              date := none } ],
        currentPage := 1, limit := 10, totalReviews := 2,
        totalPages := totalPagesOf 2 10 }, "Reviews retrieved successfully."⟩ := by
  simp [getMovieReviews, lowThenHighDb, singleMovieDb, blankMovie, jsSlice,
    sliceIndex, mapExcept, reviewAuthor, populateUser, annAndBob, blankUser]

/-- Witness of C13: the first page of the movie reviewed with 2 and then with
5 lists the two reviews in that order. -/
theorem getMovieReviews_lists_stored_order_witness :
    ∃ movie, lowThenHighDb 1 = some movie ∧
      ([2, 5] : List ℚ) = (jsSlice movie.reviews ((1 - 1) * 10) ((1 - 1) * 10 + 10)).map
        (fun review => review.rating) ∧
      ([10, 11] : List ObjectId) =
        (jsSlice movie.reviews ((1 - 1) * 10) ((1 - 1) * 10 + 10)).map
          (fun review => review.user) ∧
      jsSlice movie.reviews ((1 - 1) * 10) ((1 - 1) * 10 + 10) <:+: movie.reviews :=
  getMovieReviews_lists_stored_order lowThenHighDb annAndBob ⟨1, none, none⟩ _ _
    lowThenHigh_first_page rfl

/-- Counterexample to C13 as stated: movie 1 was reviewed with rating 2 and
then with rating 5. The default page lists the ratings 2, 5, which is not
non-increasing; and with limit 1, page 1 lists rating 2 and page 2 lists
rating 5, a higher rating on the later page. -/
theorem getMovieReviews_not_sorted :
    listedRatings (getMovieReviews lowThenHighDb annAndBob ⟨1, none, none⟩) = some [2, 5] ∧
    ¬ ([2, 5] : List ℚ).Pairwise (fun a b => b ≤ a) ∧
    listedRatings (getMovieReviews lowThenHighDb annAndBob ⟨1, some 1, some 1⟩) = some [2] ∧
    listedRatings (getMovieReviews lowThenHighDb annAndBob ⟨1, some 2, some 1⟩) = some [5] ∧
    (2 : ℚ) < 5 := by
  refine ⟨?_, by norm_num, ?_, ?_, by norm_num⟩
  · simp [listedRatings, getMovieReviews, lowThenHighDb, singleMovieDb, blankMovie, jsSlice,
      sliceIndex, mapExcept, reviewAuthor, populateUser, annAndBob, blankUser]
  · simp [listedRatings, getMovieReviews, lowThenHighDb, singleMovieDb, blankMovie, jsSlice,
      sliceIndex, mapExcept, reviewAuthor, populateUser, annAndBob, blankUser]
  · simp [listedRatings, getMovieReviews, lowThenHighDb, singleMovieDb, blankMovie, jsSlice,
      sliceIndex, mapExcept, reviewAuthor, populateUser, annAndBob, blankUser]

/-! ## Top-rated reviews -/

theorem jsSlice_zero_three {α : Type} (xs : List α) : jsSlice xs 0 3 = xs.take 3 := by
  have h0 : sliceIndex xs.length 0 = 0 := by simp [sliceIndex]
  have h3 : sliceIndex xs.length 3 = min 3 xs.length := by
    have h : ¬ ((3 : Int) < 0) := by norm_num
    simp only [sliceIndex, h, if_false]
    rfl
  rw [jsSlice, h0, h3, List.drop_zero, Nat.sub_zero, List.take_eq_take]
  simp

theorem sortByRatingDesc_perm (reviews : List Review) :
    (sortByRatingDesc reviews).Perm reviews :=
  List.perm_insertionSort _ reviews

theorem sortByRatingDesc_sorted (reviews : List Review) :
    (sortByRatingDesc reviews).Pairwise (fun a b => b.rating ≤ a.rating) := by
  haveI : IsTotal Review (fun a b => b.rating ≤ a.rating) := ⟨fun a b => le_total _ _⟩
  haveI : IsTrans Review (fun a b => b.rating ≤ a.rating) :=
    ⟨fun a b c hab hbc => le_trans hbc hab⟩
  exact List.sorted_insertionSort (fun a b => b.rating ≤ a.rating) reviews

/-- The behaviour of `getTopRatedReviews` on a movie all of whose reviews have
an existing author: 404 without reviews; otherwise the first three reviews of
the stable sort by rating, highest first, so `min 3 n` reviews of the movie in
non-increasing order of rating, none rated below a review left out. -/
theorem getTopRatedReviews_when_authors_exist (movies : MovieCollection)
    (users : UserCollection) (id : ObjectId) (movie : Movie)
    (hm : movies id = some movie)
    (hauth : ∀ r ∈ movie.reviews, ∃ u, users r.user = some u) :
    (movie.reviews = [] → getTopRatedReviews movies users id
      = .ok ⟨404, none, "No reviews found for this movie."⟩) ∧
    (movie.reviews ≠ [] → ∃ items,
      getTopRatedReviews movies users id
        = .ok ⟨200, some items, "Top-rated reviews fetched successfully."⟩ ∧
      items.length = min 3 movie.reviews.length ∧
      items.map (fun item => (item.user._id, item.rating, item.reviewText, item.createdAt))
        = ((sortByRatingDesc movie.reviews).take 3).map
            (fun r => (r.user, r.rating, r.reviewText, r.createdAt)) ∧
      (sortByRatingDesc movie.reviews).Perm movie.reviews ∧
      (items.map (fun item => item.rating)).Pairwise (fun a b => b ≤ a) ∧
      ∀ a ∈ (sortByRatingDesc movie.reviews).take 3,
        ∀ b ∈ (sortByRatingDesc movie.reviews).drop 3, b.rating ≤ a.rating) := by
  constructor
  · intro hnil
    simp [getTopRatedReviews, hm, hnil, sortByRatingDesc, jsSlice, sliceIndex]
  · intro hne
    have hperm := sortByRatingDesc_perm movie.reviews
    have hsorted := sortByRatingDesc_sorted movie.reviews
    have hlen : (sortByRatingDesc movie.reviews).length = movie.reviews.length := hperm.length_eq
    have hpos : 0 < movie.reviews.length := List.length_pos.mpr hne
    have htake : ((sortByRatingDesc movie.reviews).take 3).length ≠ 0 := by
      rw [List.length_take, hlen]
      omega
    -- every listed review has an author
    have hitem : ∀ r ∈ (sortByRatingDesc movie.reviews).take 3,
        (match reviewAuthor users r with
          | .error e => (.error e : Except Thrown TopRatedReview)
          | .ok user =>
            .ok ({ user := user, rating := r.rating, reviewText := r.reviewText,
                   createdAt := r.createdAt } : TopRatedReview))
        = .ok ((fun r : Review =>
            ({ user := ⟨r.user, ((users r.user).map (fun u => u.name)).join,
                  ((users r.user).map (fun u => u.avatar)).getD ""⟩,
               rating := r.rating, reviewText := r.reviewText, createdAt := r.createdAt }
              : TopRatedReview)) r) := by
      intro r hr
      have hmem : r ∈ movie.reviews := hperm.mem_iff.mp (List.mem_of_mem_take hr)
      obtain ⟨u, hu⟩ := hauth r hmem
      simp [reviewAuthor, populateUser, hu]
    have hmap := mapExcept_eq_ok_map _ _ _ hitem
    generalize hI : List.map (fun r : Review =>
            ({ user := ⟨r.user, ((users r.user).map (fun u => u.name)).join,
                  ((users r.user).map (fun u => u.avatar)).getD ""⟩,
               rating := r.rating, reviewText := r.reviewText, createdAt := r.createdAt }
              : TopRatedReview)) ((sortByRatingDesc movie.reviews).take 3) = items at hmap
    refine ⟨items, ?_, ?_, ?_, hperm, ?_, ?_⟩
    · simp only [getTopRatedReviews, hm, jsSlice_zero_three, htake, if_false, hmap]
    · rw [← hI, List.length_map, List.length_take, hlen]
    · rw [← hI, List.map_map]
      rfl
    · rw [← hI, List.map_map]
      have h3 : ((sortByRatingDesc movie.reviews).take 3).Pairwise
          (fun a b => b.rating ≤ a.rating) :=
        hsorted.sublist (List.take_sublist _ _)
      exact List.pairwise_map.mpr h3
    · intro a ha b hb
      have hsplit := List.take_append_drop 3 (sortByRatingDesc movie.reviews)
      rw [← hsplit] at hsorted
      exact (List.pairwise_append.mp hsorted).2.2 a ha b hb

/-- C14. The failing input: movie 1 has three reviews, by users 10, 11 and
12, and the account of user 12 no longer exists. `populate` leaves `null` for
that author, reading `review.user._id` raises a `TypeError`, and
`getTopRatedReviews` returns no reviews at all instead of the three the movie
has. -/
theorem getTopRatedReviews_raises_on_deleted_author :
    (∃ movie, threeReviewsDb 1 = some movie ∧ movie.reviews.length = 3 ∧
      ∃ r ∈ movie.reviews, r.user = 12) ∧
    annAndBob 12 = none ∧
    getTopRatedReviews threeReviewsDb annAndBob 1
      = .error (.TypeError "Cannot read properties of null (reading '_id')") ∧
    (Thrown.TypeError "Cannot read properties of null (reading '_id')").kind = .Internal := by
  refine ⟨⟨_, rfl, rfl, ⟨12, 5, "Great", 3000⟩, by simp [blankMovie], rfl⟩, rfl, ?_, rfl⟩
  norm_num [getTopRatedReviews, threeReviewsDb, singleMovieDb, blankMovie, sortByRatingDesc,
    List.insertionSort, List.orderedInsert, jsSlice, sliceIndex, mapExcept, reviewAuthor,
    populateUser, annAndBob, blankUser]

/-! ## The wishlist handlers, case by case -/

theorem saveUser_same (users : UserCollection) (id : ObjectId) (user : User) (now : Nat) :
    saveUser users id user now id = some { user with updatedAt := now } := by
  simp [saveUser]

theorem saveUser_other (users : UserCollection) (id : ObjectId) (user : User) (now : Nat)
    (j : ObjectId) (h : j ≠ id) : saveUser users id user now j = users j := by
  simp [saveUser, Function.update_noteq h]

theorem addToWishlist_no_id (stack : Thrown → String) (movies : MovieCollection)
    (users : UserCollection) (req : WishlistRequest) (hid : req.movieId = none) :
    addToWishlist stack movies users req =
      (.error (.ErrorHandler 400 "Movie ID is required to add to wishlist."), users) := by
  simp [addToWishlist, hid]

theorem addToWishlist_no_user (stack : Thrown → String) (movies : MovieCollection)
    (users : UserCollection) (req : WishlistRequest) (movieId : ObjectId)
    (hid : req.movieId = some movieId) (hu : users req.user._id = none) :
    addToWishlist stack movies users req =
      (.error (.ErrorHandler 500 (stack (.ErrorHandler 404 "User not found."))), users) := by
  simp [addToWishlist, hid, hu, tryCatch]

theorem addToWishlist_no_movie (stack : Thrown → String) (movies : MovieCollection)
    (users : UserCollection) (req : WishlistRequest) (movieId : ObjectId) (user : User)
    (hid : req.movieId = some movieId) (hu : users req.user._id = some user)
    (hm : movies movieId = none) :
    addToWishlist stack movies users req =
      (.error (.ErrorHandler 500 (stack (.ErrorHandler 404 "Movie not found."))), users) := by
  simp [addToWishlist, hid, hu, hm, tryCatch]

theorem addToWishlist_present (stack : Thrown → String) (movies : MovieCollection)
    (users : UserCollection) (req : WishlistRequest) (movieId : ObjectId) (user : User)
    (movie : Movie)
    (hid : req.movieId = some movieId) (hu : users req.user._id = some user)
    (hm : movies movieId = some movie) (hin : movieId ∈ user.wishlist) :
    addToWishlist stack movies users req =
      (.ok ⟨400, none, "Movie is already in your wishlist."⟩, users) := by
  simp [addToWishlist, hid, hu, hm, tryCatch, hin]

theorem addToWishlist_appends (stack : Thrown → String) (movies : MovieCollection)
    (users : UserCollection) (req : WishlistRequest) (movieId : ObjectId) (user : User)
    (movie : Movie)
    (hid : req.movieId = some movieId) (hu : users req.user._id = some user)
    (hm : movies movieId = some movie) (hin : movieId ∉ user.wishlist) :
    addToWishlist stack movies users req =
      (.ok ⟨200, some (user.wishlist ++ [movieId]), "Movie added to wishlist successfully."⟩,
        saveUser users req.user._id { user with wishlist := user.wishlist ++ [movieId] }
          req.now) := by
  simp [addToWishlist, hid, hu, hm, tryCatch, hin]

theorem findIndex_eq_none {xs : List ObjectId} {m : ObjectId} (h : m ∉ xs) :
    findIndex (fun entry => entry == m) xs = -1 := by
  apply findIndex_none
  intro x hx
  simp only [beq_eq_false_iff_ne, ne_eq]
  intro hxm
  exact h (hxm ▸ hx)

theorem mem_split_first {xs : List ObjectId} {m : ObjectId} (h : m ∈ xs) :
    ∃ pre post, xs = pre ++ m :: post ∧ m ∉ pre := by
  rcases exists_first (fun entry : ObjectId => entry == m) xs with
    hall | ⟨pre, r, post, hsplit, hpre, hr⟩
  · have := hall m h
    simp at this
  · have hrm : r = m := by simpa using hr
    subst hrm
    refine ⟨pre, post, hsplit, ?_⟩
    intro hmem
    have := hpre r hmem
    simp at this

theorem erase_split_first (pre post : List ObjectId) (m : ObjectId) (h : m ∉ pre) :
    (pre ++ m :: post).erase m = pre ++ post := by
  rw [List.erase_append_right _ h]
  simp

theorem removeFromWishlist_no_id (users : UserCollection) (req : WishlistRequest)
    (hid : req.movieId = none) :
    removeFromWishlist users req =
      (.error (.ErrorHandler 400 "Movie ID is required to remove from wishlist."), users) := by
  simp [removeFromWishlist, hid]

theorem removeFromWishlist_no_user (users : UserCollection) (req : WishlistRequest)
    (movieId : ObjectId) (hid : req.movieId = some movieId)
    (hu : users req.user._id = none) :
    removeFromWishlist users req =
      (.error (.ErrorHandler 500
        "An error occurred while removing the movie from the wishlist."), users) := by
  simp [removeFromWishlist, hid, hu, tryCatch]

theorem removeFromWishlist_absent (users : UserCollection) (req : WishlistRequest)
    (movieId : ObjectId) (user : User) (hid : req.movieId = some movieId)
    (hu : users req.user._id = some user) (hin : movieId ∉ user.wishlist) :
    removeFromWishlist users req =
      (.ok ⟨400, none, "Movie not found in your wishlist."⟩, users) := by
  simp [removeFromWishlist, hid, hu, tryCatch, findIndex_eq_none hin]

theorem removeFromWishlist_removes (users : UserCollection) (req : WishlistRequest)
    (movieId : ObjectId) (user : User) (hid : req.movieId = some movieId)
    (hu : users req.user._id = some user) (hin : movieId ∈ user.wishlist) :
    removeFromWishlist users req =
      (.ok ⟨200, some (user.wishlist.erase movieId),
          "Movie removed from wishlist successfully."⟩,
        saveUser users req.user._id { user with wishlist := user.wishlist.erase movieId }
          req.now) := by
  obtain ⟨pre, post, hsplit, hpre⟩ := mem_split_first hin
  have hp : ∀ x ∈ pre, (fun entry : ObjectId => entry == movieId) x = false := by
    intro x hx
    simp only [beq_eq_false_iff_ne, ne_eq]
    intro hxm
    exact hpre (hxm ▸ hx)
  have hi := findIndex_first (fun entry : ObjectId => entry == movieId) pre movieId post hp
    (by simp)
  have hne : (pre.length : Int) ≠ -1 := by omega
  have hs := splice1_first pre movieId post
  have he := erase_split_first pre post movieId hpre
  simp only [removeFromWishlist, hid, hu, hsplit, hi, hne, if_false, hs, he, tryCatch]

/-! ## Wishlist: idempotence, uniqueness, removal -/

/-- C15. `addToWishlist` is idempotent: for an existing user and movie, a
second call with the same movie id (at whatever later time) reports
already-present and leaves the users, hence the wishlist, as the first call
left them; that wishlist ends up holding the movie id, and exactly once when
it held it at most once before. -/
theorem addToWishlist_idempotent (stack : Thrown → String) (movies : MovieCollection)
    (users : UserCollection) (req : WishlistRequest) (movieId : ObjectId) (user : User)
    (movie : Movie) (later : Nat)
    (hid : req.movieId = some movieId) (hu : users req.user._id = some user)
    (hm : movies movieId = some movie) :
    addToWishlist stack movies (addToWishlist stack movies users req).2
        { req with now := later }
      = (.ok ⟨400, none, "Movie is already in your wishlist."⟩,
          (addToWishlist stack movies users req).2) ∧
    ∃ user', (addToWishlist stack movies users req).2 req.user._id = some user' ∧
      movieId ∈ user'.wishlist ∧
      (user.wishlist.count movieId ≤ 1 → user'.wishlist.count movieId = 1) := by
  by_cases hin : movieId ∈ user.wishlist
  · have h1 := addToWishlist_present stack movies users req movieId user movie hid hu hm hin
    rw [h1]
    refine ⟨addToWishlist_present stack movies users { req with now := later } movieId user
      movie hid hu hm hin, user, hu, hin, ?_⟩
    intro hle
    have hpos : 0 < user.wishlist.count movieId := List.count_pos_iff.mpr hin
    omega
  · have h1 := addToWishlist_appends stack movies users req movieId user movie hid hu hm hin
    rw [h1]
    refine ⟨addToWishlist_present stack movies _ { req with now := later } movieId
      { user with wishlist := user.wishlist ++ [movieId], updatedAt := req.now } movie hid
      (saveUser_same _ _ _ _) hm (by simp), _, saveUser_same _ _ _ _, by simp, ?_⟩
    intro _
    have h0 : user.wishlist.count movieId = 0 := List.count_eq_zero_of_not_mem hin
    simp [List.count_append, h0]

/-- Witness of C15: user 10 adds movie 1 twice to an empty wishlist. -/
theorem addToWishlist_idempotent_witness :
    addToWishlist Thrown.message reviewedDb
        (addToWishlist Thrown.message reviewedDb annAndBob (wishlistRequestBy 10 1)).2
        { wishlistRequestBy 10 1 with now := 3000 }
      = (.ok ⟨400, none, "Movie is already in your wishlist."⟩,
          (addToWishlist Thrown.message reviewedDb annAndBob (wishlistRequestBy 10 1)).2) ∧
    ((addToWishlist Thrown.message reviewedDb annAndBob (wishlistRequestBy 10 1)).2 10).map
      (fun user => user.wishlist) = some [1] := by
  refine ⟨(addToWishlist_idempotent Thrown.message reviewedDb annAndBob
    (wishlistRequestBy 10 1) 1 (blankUser "Ann" [] []) _ 3000 rfl rfl rfl).1, ?_⟩
  rw [addToWishlist_appends Thrown.message reviewedDb annAndBob (wishlistRequestBy 10 1) 1
    (blankUser "Ann" [] []) _ rfl rfl rfl (by simp [blankUser])]
  dsimp only [wishlistRequestBy]
  rw [saveUser_same]
  simp [blankUser]

theorem wishlistOp_next_cases (stack : Thrown → String) (movies : MovieCollection)
    (users : UserCollection) (op : WishlistOp) (id : ObjectId) :
    op.next stack movies users id = users id ∨
    ∃ user movieId, users id = some user ∧
      ((movieId ∉ user.wishlist ∧
          op.next stack movies users id =
            some { user with wishlist := user.wishlist ++ [movieId],
                             updatedAt := (match op with | .add r => r.now | .remove r => r.now) }) ∨
        (movieId ∈ user.wishlist ∧
          op.next stack movies users id =
            some { user with wishlist := user.wishlist.erase movieId,
                             updatedAt := (match op with | .add r => r.now | .remove r => r.now) })) := by
  cases op with
  | add req =>
    cases hid : req.movieId with
    | none =>
      left
      simp [WishlistOp.next, addToWishlist_no_id stack movies users req hid]
    | some movieId =>
      cases hu : users req.user._id with
      | none =>
        left
        simp [WishlistOp.next, addToWishlist_no_user stack movies users req movieId hid hu]
      | some user =>
        cases hm : movies movieId with
        | none =>
          left
          simp [WishlistOp.next,
            addToWishlist_no_movie stack movies users req movieId user hid hu hm]
        | some movie =>
          by_cases hin : movieId ∈ user.wishlist
          · left
            simp [WishlistOp.next,
              addToWishlist_present stack movies users req movieId user movie hid hu hm hin]
          · simp only [WishlistOp.next,
              addToWishlist_appends stack movies users req movieId user movie hid hu hm hin]
            by_cases hj : id = req.user._id
            · subst hj
              right
              exact ⟨user, movieId, hu, Or.inl ⟨hin, saveUser_same _ _ _ _⟩⟩
            · left
              exact saveUser_other _ _ _ _ _ hj
  | remove req =>
    cases hid : req.movieId with
    | none =>
      left
      simp [WishlistOp.next, removeFromWishlist_no_id users req hid]
    | some movieId =>
      cases hu : users req.user._id with
      | none =>
        left
        simp [WishlistOp.next, removeFromWishlist_no_user users req movieId hid hu]
      | some user =>
        by_cases hin : movieId ∈ user.wishlist
        · simp only [WishlistOp.next,
            removeFromWishlist_removes users req movieId user hid hu hin]
          by_cases hj : id = req.user._id
          · subst hj
            right
            exact ⟨user, movieId, hu, Or.inr ⟨hin, saveUser_same _ _ _ _⟩⟩
          · left
            exact saveUser_other _ _ _ _ _ hj
        · left
          simp [WishlistOp.next, removeFromWishlist_absent users req movieId user hid hu hin]

theorem wishlistOp_next_nodup (stack : Thrown → String) (movies : MovieCollection)
    (users : UserCollection) (op : WishlistOp) (id : ObjectId)
    (h : ∀ user, users id = some user → user.wishlist.Nodup) :
    ∀ user, op.next stack movies users id = some user → user.wishlist.Nodup := by
  intro user' hu'
  rcases wishlistOp_next_cases stack movies users op id with hsame |
    ⟨user, movieId, hu, ⟨hin, hnext⟩ | ⟨hin, hnext⟩⟩
  · rw [hsame] at hu'
    exact h user' hu'
  · rw [hnext] at hu'
    cases hu'
    have hnd := h user hu
    exact List.Nodup.append hnd (List.nodup_singleton _) (by simpa using hin)
  · rw [hnext] at hu'
    cases hu'
    exact (h user hu).erase _

/-- C16. Starting from a wishlist without duplicates, after every finite
sequence of `addToWishlist` and `removeFromWishlist` calls, successful or not,
the user's wishlist has no duplicate movie id; and an `addToWishlist` that
answers 200 has appended the id at the end of the wishlist, the earlier
entries kept in order, and returns that wishlist. -/
theorem wishlist_never_duplicates (stack : Thrown → String) (movies : MovieCollection)
    (users : UserCollection) (id : ObjectId)
    (hinit : ∀ user, users id = some user → user.wishlist.Nodup) :
    (∀ ops user, runWishlistOps stack movies users ops id = some user →
      user.wishlist.Nodup) ∧
    (∀ (users0 : UserCollection) (req : WishlistRequest)
        (response : ApiResponseHandler (Option (List ObjectId))),
      (addToWishlist stack movies users0 req).1 = .ok response → response.statusCode = 200 →
      ∃ user movieId user', req.movieId = some movieId ∧
        users0 req.user._id = some user ∧
        (addToWishlist stack movies users0 req).2 req.user._id = some user' ∧
        user'.wishlist = user.wishlist ++ [movieId] ∧
        response.data = some (user.wishlist ++ [movieId])) := by
  constructor
  · intro ops
    induction ops generalizing users with
    | nil => simpa [runWishlistOps] using hinit
    | cons op ops ih =>
      have hstep := wishlistOp_next_nodup stack movies users op id hinit
      simpa [runWishlistOps] using ih (op.next stack movies users) hstep
  · intro users0 req response hok h200
    cases hid : req.movieId with
    | none =>
      rw [addToWishlist_no_id stack movies users0 req hid] at hok
      cases hok
    | some movieId =>
      cases hu : users0 req.user._id with
      | none =>
        rw [addToWishlist_no_user stack movies users0 req movieId hid hu] at hok
        cases hok
      | some user =>
        cases hm : movies movieId with
        | none =>
          rw [addToWishlist_no_movie stack movies users0 req movieId user hid hu hm] at hok
          cases hok
        | some movie =>
          by_cases hin : movieId ∈ user.wishlist
          · rw [addToWishlist_present stack movies users0 req movieId user movie hid hu hm
              hin] at hok
            simp only [Except.ok.injEq] at hok
            subst hok
            simp at h200
          · rw [addToWishlist_appends stack movies users0 req movieId user movie hid hu hm
              hin] at hok ⊢
            simp only [Except.ok.injEq] at hok
            subst hok
            exact ⟨user, movieId, _, rfl, rfl, saveUser_same _ _ _ _, rfl, rfl⟩

/-- Witness of C16: the scenario add, add again, remove on the empty wishlist
of user 10. -/
theorem wishlist_never_duplicates_witness :
    (∀ user, annAndBob 10 = some user → user.wishlist.Nodup) ∧
    (∀ user, runWishlistOps Thrown.message reviewedDb annAndBob wishlistScenario 10
      = some user → user.wishlist.Nodup) := by
  have hinit : ∀ user, annAndBob 10 = some user → user.wishlist.Nodup := by
    intro user hu
    have : user = blankUser "Ann" [] [] := by
      have h : annAndBob 10 = some (blankUser "Ann" [] []) := rfl
      rw [h] at hu
      exact (Option.some.inj hu).symm
    subst this
    simp [blankUser]
  exact ⟨hinit, (wishlist_never_duplicates Thrown.message reviewedDb annAndBob 10 hinit).1
    wishlistScenario⟩

/-- C17. `removeFromWishlist` removes by value, for an existing user: when the
movie id is not in the wishlist the call reports not-found-in-list (a 400
response, no exception) and changes nothing; otherwise the wishlist afterwards
is the previous one with the first occurrence of the id removed, the other
entries in their previous order, so the id is absent afterwards when the
wishlist was duplicate-free; and removing a movie just added to a wishlist
that lacked it restores the original wishlist. -/
theorem removeFromWishlist_removes_by_value (stack : Thrown → String)
    (movies : MovieCollection) (users : UserCollection) (req : WishlistRequest)
    (movieId : ObjectId) (user : User)
    (hid : req.movieId = some movieId) (hu : users req.user._id = some user) :
    (movieId ∉ user.wishlist →
      removeFromWishlist users req =
        (.ok ⟨400, none, "Movie not found in your wishlist."⟩, users)) ∧
    (movieId ∈ user.wishlist →
      ∃ pre post user', user.wishlist = pre ++ movieId :: post ∧ movieId ∉ pre ∧
        (removeFromWishlist users req).1 =
          .ok ⟨200, some (pre ++ post), "Movie removed from wishlist successfully."⟩ ∧
        (removeFromWishlist users req).2 req.user._id = some user' ∧
        user'.wishlist = pre ++ post ∧
        (user.wishlist.Nodup → movieId ∉ user'.wishlist)) ∧
    (movieId ∉ user.wishlist → ∀ movie, movies movieId = some movie → ∀ later : Nat,
      ∃ user'', (removeFromWishlist (addToWishlist stack movies users req).2
          { req with now := later }).2 req.user._id = some user'' ∧
        user''.wishlist = user.wishlist) := by
  refine ⟨removeFromWishlist_absent users req movieId user hid hu, ?_, ?_⟩
  · intro hin
    obtain ⟨pre, post, hsplit, hpre⟩ := mem_split_first hin
    have he : user.wishlist.erase movieId = pre ++ post := by
      rw [hsplit]
      exact erase_split_first pre post movieId hpre
    rw [removeFromWishlist_removes users req movieId user hid hu hin, he]
    refine ⟨pre, post, _, hsplit, hpre, rfl, saveUser_same _ _ _ _, rfl, ?_⟩
    intro hnd
    rw [hsplit] at hnd
    have hnd' : (movieId :: post).Nodup := (List.nodup_append.mp hnd).2.1
    intro hmem
    rcases List.mem_append.mp hmem with h | h
    · exact hpre h
    · exact (List.nodup_cons.mp hnd').1 h
  · intro hin movie hm later
    rw [addToWishlist_appends stack movies users req movieId user movie hid hu hm hin]
    have hu' : saveUser users req.user._id
        { user with wishlist := user.wishlist ++ [movieId] } req.now req.user._id
        = some { user with wishlist := user.wishlist ++ [movieId], updatedAt := req.now } :=
      saveUser_same _ _ _ _
    rw [removeFromWishlist_removes _ { req with now := later } movieId _ hid hu' (by simp)]
    refine ⟨_, saveUser_same _ _ _ _, ?_⟩
    show (user.wishlist ++ [movieId]).erase movieId = user.wishlist
    rw [List.erase_append_right _ hin]
    simp

/-- Witness of C17: user 10, whose wishlist is empty, adds movie 1 and removes
it again; the wishlist is empty again. -/
theorem removeFromWishlist_witness :
    (1 : ObjectId) ∉ (blankUser "Ann" [] []).wishlist ∧
    removeFromWishlist annAndBob (wishlistRequestBy 10 1) =
      (.ok ⟨400, none, "Movie not found in your wishlist."⟩, annAndBob) ∧
    ∃ user'', (removeFromWishlist
        (addToWishlist Thrown.message reviewedDb annAndBob (wishlistRequestBy 10 1)).2
        { wishlistRequestBy 10 1 with now := 3000 }).2 10 = some user'' ∧
      user''.wishlist = [] := by
  have hin : (1 : ObjectId) ∉ (blankUser "Ann" [] []).wishlist := by simp [blankUser]
  have h := removeFromWishlist_removes_by_value Thrown.message reviewedDb annAndBob
    (wishlistRequestBy 10 1) 1 (blankUser "Ann" [] []) rfl rfl
  exact ⟨hin, h.1 hin, h.2.2 hin _ rfl 3000⟩

/-! ## Errors thrown inside `try` -/

theorem kind_500 (message : String) : (Thrown.ErrorHandler 500 message).kind = .Internal := by
  simp [Thrown.kind]

/-- C18. The failing inputs: `addToWishlist` for movie 2, which does not exist;
`addToWishlist` and `removeFromWishlist` by user 13, who does not exist. Each
404 is thrown inside the handler's own `try`, caught, and replaced by an
`ErrorHandler(500, ...)`: the caller gets an error of kind Internal, not
NotFound. The users are unchanged. -/
theorem wishlist_not_found_reported_as_internal :
    reviewedDb 2 = none ∧ annAndBob 13 = none ∧
    (∀ stack : Thrown → String,
      addToWishlist stack reviewedDb annAndBob (wishlistRequestBy 10 2) =
        (.error (.ErrorHandler 500 (stack (.ErrorHandler 404 "Movie not found."))),
          annAndBob)) ∧
    (∀ stack : Thrown → String,
      addToWishlist stack reviewedDb annAndBob (wishlistRequestBy 13 1) =
        (.error (.ErrorHandler 500 (stack (.ErrorHandler 404 "User not found."))),
          annAndBob)) ∧
    removeFromWishlist annAndBob (wishlistRequestBy 13 1) =
      (.error (.ErrorHandler 500
        "An error occurred while removing the movie from the wishlist."), annAndBob) ∧
    (∀ message, (Thrown.ErrorHandler 500 message).kind = .Internal) ∧
    ErrorKind.Internal ≠ ErrorKind.NotFound := by
  refine ⟨rfl, rfl, ?_, ?_, ?_, kind_500, by decide⟩
  · intro stack
    exact addToWishlist_no_movie stack reviewedDb annAndBob (wishlistRequestBy 10 2) 2
      (blankUser "Ann" [] []) rfl rfl rfl
  · intro stack
    exact addToWishlist_no_user stack reviewedDb annAndBob (wishlistRequestBy 13 1) 1 rfl rfl
  · exact removeFromWishlist_no_user annAndBob (wishlistRequestBy 13 1) 1 rfl rfl

/-! ## `createCustomList` -/

theorem any_title_iff (lists : List CustomList) (title : String) :
    lists.any (fun list => list.title == title) = true
      ↔ title ∈ lists.map (fun list => list.title) := by
  simp only [List.any_eq_true, beq_iff_eq, List.mem_map]

theorem createCustomList_duplicate (movies : MovieCollection) (users : UserCollection)
    (req : CustomListRequest) (title : String) (ids : List ObjectId) (user : User)
    (ht : req.title = some title) (hne : title ≠ "") (hmovies : req.movies = .array ids)
    (hu : users req.user._id = some user) (hdup : title ∈ user.listTitles) :
    createCustomList movies users req =
      (.error (.ErrorHandler 500 "A list with this name already exists."), users) := by
  have hany : user.customLists.any (fun list => list.title == title) = true :=
    (any_title_iff _ _).mpr hdup
  simp [createCustomList, ht, hmovies, hne, findUserWithListTitled, hu, hany, tryCatch,
    Thrown.message]

theorem createCustomList_no_user (movies : MovieCollection) (users : UserCollection)
    (req : CustomListRequest) (title : String) (ids : List ObjectId)
    (ht : req.title = some title) (hne : title ≠ "") (hmovies : req.movies = .array ids)
    (hu : users req.user._id = none) :
    createCustomList movies users req =
      (.error (.ErrorHandler 500 "User not found."), users) := by
  simp [createCustomList, ht, hmovies, hne, findUserWithListTitled, hu, tryCatch,
    Thrown.message]

theorem createCustomList_creates (movies : MovieCollection) (users : UserCollection)
    (req : CustomListRequest) (title : String) (ids : List ObjectId) (user : User)
    (ht : req.title = some title) (hne : title ≠ "") (hmovies : req.movies = .array ids)
    (hu : users req.user._id = some user) (hfresh : title ∉ user.listTitles) :
    createCustomList movies users req =
      (.ok ⟨201,
          ((user.customLists ++
              [({ title := title, description := req.description.getD "", movies := ids }
                : CustomList)]).map
            (populateList movies)).find? (fun list => list.title == title),
          "Custom list created successfully."⟩,
        Function.update users req.user._id (some { user with
          customLists := user.customLists ++
            [{ title := title, description := req.description.getD "", movies := ids }],
          updatedAt := req.now })) := by
  have hany : user.customLists.any (fun list => list.title == title) = false := by
    cases h : user.customLists.any (fun list => list.title == title) with
    | false => rfl
    | true => exact absurd ((any_title_iff _ _).mp h) hfresh
  simp only [createCustomList, ht, hmovies, hne, findUserWithListTitled, hu, hany, tryCatch,
    if_false, Bool.false_eq_true]

theorem createCustomList_invalid (movies : MovieCollection) (users : UserCollection)
    (req : CustomListRequest)
    (h : req.title = none ∨ req.title = some "" ∨ ∀ ids, req.movies ≠ .array ids) :
    createCustomList movies users req =
      (.error (.ErrorHandler 400 "Please provide a list name and an array of movie IDs."),
        users) := by
  unfold createCustomList
  split
  · rename_i title ids ht hm
    rcases h with h | h | h
    · rw [h] at ht; cases ht
    · rw [h] at ht
      cases ht
      simp
    · exact absurd hm (h ids)
  · rfl

/-- Every `createCustomList` call either leaves the users as they were or
appends one list with a title new to the requesting user. -/
theorem createCustomList_next_cases (movies : MovieCollection) (users : UserCollection)
    (req : CustomListRequest) :
    (createCustomList movies users req).2 = users ∨
    ∃ user title ids, users req.user._id = some user ∧ title ∉ user.listTitles ∧
      (createCustomList movies users req).2 =
        Function.update users req.user._id (some { user with
          customLists := user.customLists ++
            [{ title := title, description := req.description.getD "", movies := ids }],
          updatedAt := req.now }) := by
  cases ht : req.title with
  | none => left; rw [createCustomList_invalid movies users req (Or.inl ht)]
  | some title =>
    by_cases hne : title = ""
    · left
      rw [createCustomList_invalid movies users req (Or.inr (Or.inl (by rw [ht, hne])))]
    · cases hmovies : req.movies with
      | missing =>
        left
        rw [createCustomList_invalid movies users req
          (Or.inr (Or.inr (fun ids h => by rw [hmovies] at h; cases h)))]
      | notArray =>
        left
        rw [createCustomList_invalid movies users req
          (Or.inr (Or.inr (fun ids h => by rw [hmovies] at h; cases h)))]
      | array ids =>
        cases hu : users req.user._id with
        | none =>
          left
          rw [createCustomList_no_user movies users req title ids ht hne hmovies hu]
        | some user =>
          by_cases hdup : title ∈ user.listTitles
          · left
            rw [createCustomList_duplicate movies users req title ids user ht hne hmovies hu
              hdup]
          · right
            refine ⟨user, title, ids, rfl, hdup, ?_⟩
            rw [createCustomList_creates movies users req title ids user ht hne hmovies hu
              hdup]

/-- C19. The failing input: user 10 holds a list titled "Favs" and asks
`createCustomList` for the title "Favs" again. The handler throws
`ErrorHandler(409, ...)` inside its own `try`; the `catch` replaces it by
`ErrorHandler(500, error.message)`, so the caller gets an error of kind
Internal, not Conflict. The users, hence the customLists, are unchanged. -/
theorem duplicate_list_title_reported_as_internal :
    (∃ user, annWithFavs 10 = some user ∧ "Favs" ∈ user.listTitles) ∧
    createCustomList reviewedDb annWithFavs (customListRequestBy 10 "Favs") =
      (.error (.ErrorHandler 500 "A list with this name already exists."), annWithFavs) ∧
    (Thrown.ErrorHandler 500 "A list with this name already exists.").kind = .Internal ∧
    (Thrown.ErrorHandler 409 "A list with this name already exists.").kind = .Conflict ∧
    ErrorKind.Internal ≠ ErrorKind.Conflict := by
  refine ⟨⟨_, rfl, by simp [User.listTitles, blankUser]⟩, ?_, rfl, rfl, by decide⟩
  exact createCustomList_duplicate reviewedDb annWithFavs (customListRequestBy 10 "Favs")
    "Favs" [1] _ rfl (by decide) rfl rfl (by simp [User.listTitles, blankUser])

/-- C20. Starting from users whose customLists have pairwise distinct titles,
after every finite sequence of `createCustomList` calls each user's customLists
still has pairwise distinct titles; and the result of `createCustomList` for a
user depends on the users collection only through that user's own document, so
other users' lists, whatever their titles, do not affect it. -/
theorem custom_list_titles_unique_per_user (movies : MovieCollection)
    (users : UserCollection) (reqs : List CustomListRequest)
    (hinit : ∀ id user, users id = some user → user.listTitles.Nodup) :
    (∀ id user, runCreateCustomList movies users reqs id = some user →
      user.listTitles.Nodup) ∧
    (∀ (users' : UserCollection) (req : CustomListRequest),
      users' req.user._id = users req.user._id →
      (createCustomList movies users' req).1 = (createCustomList movies users req).1) := by
  constructor
  · induction reqs generalizing users with
    | nil => simpa [runCreateCustomList] using hinit
    | cons req reqs ih =>
      have hstep : ∀ id user, (createCustomList movies users req).2 id = some user →
          user.listTitles.Nodup := by
        intro id user' hu'
        rcases createCustomList_next_cases movies users req with hsame |
          ⟨user, title, ids, hu, hfresh, hnext⟩
        · rw [hsame] at hu'
          exact hinit id user' hu'
        · rw [hnext] at hu'
          by_cases hid : id = req.user._id
          · subst hid
            rw [Function.update_same] at hu'
            cases hu'
            have hnd := hinit _ user hu
            simp only [User.listTitles, List.map_append, List.map_cons, List.map_nil]
            exact List.Nodup.append hnd (List.nodup_singleton _)
              (by simpa [User.listTitles] using hfresh)
          · rw [Function.update_noteq hid] at hu'
            exact hinit id user' hu'
      simpa [runCreateCustomList] using ih ((createCustomList movies users req).2) hstep
  · intro users' req hsame
    cases ht : req.title with
    | none =>
      rw [createCustomList_invalid movies users' req (Or.inl ht),
        createCustomList_invalid movies users req (Or.inl ht)]
    | some title =>
      by_cases hne : title = ""
      · rw [createCustomList_invalid movies users' req (Or.inr (Or.inl (by rw [ht, hne]))),
          createCustomList_invalid movies users req (Or.inr (Or.inl (by rw [ht, hne])))]
      · cases hmovies : req.movies with
        | missing =>
          rw [createCustomList_invalid movies users' req
              (Or.inr (Or.inr (fun ids h => by rw [hmovies] at h; cases h))),
            createCustomList_invalid movies users req
              (Or.inr (Or.inr (fun ids h => by rw [hmovies] at h; cases h)))]
        | notArray =>
          rw [createCustomList_invalid movies users' req
              (Or.inr (Or.inr (fun ids h => by rw [hmovies] at h; cases h))),
            createCustomList_invalid movies users req
              (Or.inr (Or.inr (fun ids h => by rw [hmovies] at h; cases h)))]
        | array ids =>
          cases hu : users req.user._id with
          | none =>
            rw [createCustomList_no_user movies users' req title ids ht hne hmovies
                (hsame.trans hu),
              createCustomList_no_user movies users req title ids ht hne hmovies hu]
          | some user =>
            by_cases hdup : title ∈ user.listTitles
            · rw [createCustomList_duplicate movies users' req title ids user ht hne hmovies
                  (hsame.trans hu) hdup,
                createCustomList_duplicate movies users req title ids user ht hne hmovies hu
                  hdup]
            · rw [createCustomList_creates movies users' req title ids user ht hne hmovies
                  (hsame.trans hu) hdup,
                createCustomList_creates movies users req title ids user ht hne hmovies hu
                  hdup]

theorem annAndBob_titles_nodup :
    ∀ id user, annAndBob id = some user → user.listTitles.Nodup := by
  intro id user hu
  unfold annAndBob at hu
  split_ifs at hu <;> cases hu <;> simp [User.listTitles, blankUser]

theorem ann_then_bob_create_favs :
    runCreateCustomList reviewedDb annAndBob
        [customListRequestBy 10 "Favs", customListRequestBy 11 "Favs"]
      = Function.update
          (Function.update annAndBob 10 (some { blankUser "Ann" [] [] with
            customLists := [{ title := "Favs", description := "", movies := [1] }],
            updatedAt := 2000 }))
          11 (some { blankUser "Bob" [] [] with
            customLists := [{ title := "Favs", description := "", movies := [1] }],
            updatedAt := 2000 }) := by
  have h1 := createCustomList_creates reviewedDb annAndBob (customListRequestBy 10 "Favs")
    "Favs" [1] (blankUser "Ann" [] []) rfl (by decide) rfl rfl
    (by simp [User.listTitles, blankUser])
  have h2 := createCustomList_creates reviewedDb
    (Function.update annAndBob 10 (some { blankUser "Ann" [] [] with
      customLists := [{ title := "Favs", description := "", movies := [1] }],
      updatedAt := 2000 }))
    (customListRequestBy 11 "Favs") "Favs" [1] (blankUser "Bob" [] []) rfl (by decide) rfl
    rfl (by simp [User.listTitles, blankUser])
  simp only [runCreateCustomList, List.foldl]
  rw [h1]
  exact congrArg Prod.snd h2

/-- Witness of C20: users 10 and 11, without lists, each create a list titled
"Favs"; both succeed and each ends with the single title "Favs". -/
theorem custom_list_titles_witness :
    (∀ id user, annAndBob id = some user → user.listTitles.Nodup) ∧
    (∀ id user, runCreateCustomList reviewedDb annAndBob
        [customListRequestBy 10 "Favs", customListRequestBy 11 "Favs"] id = some user →
      user.listTitles.Nodup) ∧
    ((runCreateCustomList reviewedDb annAndBob
        [customListRequestBy 10 "Favs", customListRequestBy 11 "Favs"] 10).map
      User.listTitles = some ["Favs"]) ∧
    ((runCreateCustomList reviewedDb annAndBob
        [customListRequestBy 10 "Favs", customListRequestBy 11 "Favs"] 11).map
      User.listTitles = some ["Favs"]) := by
  refine ⟨annAndBob_titles_nodup,
    (custom_list_titles_unique_per_user reviewedDb annAndBob
      [customListRequestBy 10 "Favs", customListRequestBy 11 "Favs"]
      annAndBob_titles_nodup).1, ?_, ?_⟩
  · rw [ann_then_bob_create_favs]
    simp [User.listTitles, blankUser]
  · rw [ann_then_bob_create_favs]
    simp [User.listTitles, blankUser]

/-! ## `createCustomList`: effect -/

/-- C21. For an existing user, a non-empty title the user has not used and an
array of movie ids (possibly empty), `createCustomList` answers 201, appends
exactly one entry with that title, the given description (the empty string when
omitted) and the given ids to the end of the user's customLists, leaves the
earlier entries, the user's other fields and every other user unchanged, and
returns the appended entry (with its movies populated), never an older one.
With a missing or empty title, or a missing or non-array `movies`, it fails
with a 400 validation error and changes nothing. -/
theorem createCustomList_appends (movies : MovieCollection) (users : UserCollection)
    (req : CustomListRequest) (title : String) (ids : List ObjectId) (user : User)
    (ht : req.title = some title) (hne : title ≠ "") (hmovies : req.movies = .array ids)
    (hu : users req.user._id = some user) (hfresh : title ∉ user.listTitles) :
    (createCustomList movies users req).1 =
      .ok ⟨201, some (populateList movies
          { title := title, description := req.description.getD "", movies := ids }),
        "Custom list created successfully."⟩ ∧
    (createCustomList movies users req).2 req.user._id = some { user with
      customLists := user.customLists ++
        [{ title := title, description := req.description.getD "", movies := ids }],
      updatedAt := req.now } ∧
    (∀ j, j ≠ req.user._id → (createCustomList movies users req).2 j = users j) ∧
    (∀ (users0 : UserCollection) (req0 : CustomListRequest),
      (req0.title = none ∨ req0.title = some "" ∨ ∀ ids0, req0.movies ≠ .array ids0) →
      createCustomList movies users0 req0 =
        (.error (.ErrorHandler 400 "Please provide a list name and an array of movie IDs."),
          users0) ∧
      (Thrown.ErrorHandler 400 "Please provide a list name and an array of movie IDs.").kind
        = .ValidationError) := by
  rw [createCustomList_creates movies users req title ids user ht hne hmovies hu hfresh]
  refine ⟨?_, Function.update_same _ _ _, fun j hj => Function.update_noteq hj _ _, ?_⟩
  · have hpre : ∀ x ∈ user.customLists.map (populateList movies),
        (fun list : PopulatedList => list.title == title) x = false := by
      intro x hx
      obtain ⟨l, hl, rfl⟩ := List.mem_map.mp hx
      simp only [populateList, beq_eq_false_iff_ne, ne_eq]
      intro hlt
      exact hfresh (List.mem_map.mpr ⟨l, hl, hlt⟩)
    have hfind := find?_first (fun list : PopulatedList => list.title == title)
      (user.customLists.map (populateList movies))
      (populateList movies
        { title := title, description := req.description.getD "", movies := ids })
      [] hpre (by simp [populateList])
    simp only [List.map_append, List.map_cons, List.map_nil, hfind]
  · intro users0 req0 h
    exact ⟨createCustomList_invalid movies users0 req0 h, by decide⟩

/-- Witness of C21: user 11, without lists, creates the list "Favs" holding
movie 1. -/
theorem createCustomList_appends_witness :
    "Favs" ∉ (blankUser "Bob" [] []).listTitles ∧
    (createCustomList reviewedDb annAndBob (customListRequestBy 11 "Favs")).1 =
      .ok ⟨201,
        some { title := "Favs", description := "", movies := [⟨1, "Heat", [], none, none⟩] },
        "Custom list created successfully."⟩ ∧
    ((createCustomList reviewedDb annAndBob (customListRequestBy 11 "Favs")).2 11).map
      (fun user => user.customLists)
      = some [{ title := "Favs", description := "", movies := [1] }] := by
  have hfresh : "Favs" ∉ (blankUser "Bob" [] []).listTitles := by
    simp [User.listTitles, blankUser]
  have h := createCustomList_appends reviewedDb annAndBob (customListRequestBy 11 "Favs")
    "Favs" [1] (blankUser "Bob" [] []) rfl (by decide) rfl rfl hfresh
  refine ⟨hfresh, ?_, ?_⟩
  · rw [h.1]
    simp [populateList, populateMovies, reviewedDb, singleMovieDb, blankMovie,
      customListRequestBy]
  · have h2 : (createCustomList reviewedDb annAndBob (customListRequestBy 11 "Favs")).2 11
        = _ := h.2.1
    rw [h2]
    simp [blankUser, customListRequestBy]

/-! ## `getAverageRating` -/

/-- What `getAverageRating` does for an id that is given: for a movie without
reviews a 404, for a movie with reviews the mean of their ratings as double
arithmetic computes it. -/
theorem getAverageRating_of_existing (movies : MovieCollection) (id : ObjectId)
    (movie : Movie) (hm : movies id = some movie) :
    (movie.reviews = [] → getAverageRating movies (some id)
      = .error (.ErrorHandler 404 "No reviews found for this movie")) ∧
    (movie.reviews ≠ [] → getAverageRating movies (some id)
      = .ok ⟨200, doubleMean movie.ratings, "Average Rating calculated successfully"⟩) := by
  constructor
  · intro hnil
    simp [getAverageRating, hm, hnil]
  · intro hne
    have hlen : ¬ movie.reviews.length ≤ 0 := by
      have := List.length_pos.mpr hne
      omega
    have havg := recomputeAverage_eq_doubleMean movie.reviews hne
    simp only [getAverageRating, hm, hlen, if_false]
    have hsum : jsDiv (movie.reviews.foldl (fun sum review => jsAdd sum review.rating) 0)
        (movie.reviews.length : ℚ) = doubleMean movie.ratings := havg
    rw [hsum]

/-- C28. The failing input: an id that no movie has. `Movie.findById` gives
`null`, and `getAverageRating` reads `movie.reviews` without testing it: the
call raises a `TypeError`, an internal failure, not the 404 of the other by-id
reads. -/
theorem getAverageRating_dereferences_missing_movie :
    reviewedDb 2 = none ∧
    getAverageRating reviewedDb (some 2)
      = .error (.TypeError "Cannot read properties of null (reading 'reviews')") ∧
    (Thrown.TypeError "Cannot read properties of null (reading 'reviews')").kind
      = .Internal ∧
    ErrorKind.Internal ≠ ErrorKind.NotFound ∧
    ∀ (movies : MovieCollection) (id : ObjectId), movies id = none →
      getAverageRating movies (some id)
        = .error (.TypeError "Cannot read properties of null (reading 'reviews')") := by
  refine ⟨rfl, rfl, rfl, by decide, ?_⟩
  intro movies id hm
  simp [getAverageRating, hm]

theorem reviewOp_next_settled (db : MovieCollection) (op : ReviewOp) (id : ObjectId)
    (h : ∀ m, db id = some m → m.reviews = [] ∨ m.averageRating = doubleMean m.ratings) :
    ∀ m, op.next db id = some m → m.reviews = [] ∨ m.averageRating = doubleMean m.ratings := by
  intro m hm
  rcases reviewOp_next_eq_or_target db op id with hsame | ⟨hid, hok⟩
  · rw [hsame] at hm
    exact h m hm
  · obtain ⟨m', hm', havg⟩ := review_op_average db op hok
    rw [← hid, hm] at hm'
    cases hm'
    exact Or.inr havg

theorem runOps_settled (ops : List ReviewOp) (db : MovieCollection) (id : ObjectId)
    (h : ∀ m, db id = some m → m.reviews = [] ∨ m.averageRating = doubleMean m.ratings) :
    ∀ m, runOps db ops id = some m → m.reviews = [] ∨ m.averageRating = doubleMean m.ratings := by
  induction ops generalizing db with
  | nil => simpa [runOps] using h
  | cons op ops ih =>
    have hstep := reviewOp_next_settled db op id h
    simpa [runOps] using ih (op.next db) hstep

/-- C29. For every state reached from a movie without reviews by a finite
sequence of `addMovieReview`, `updateMovieReview` and `deleteMovieReview` calls
in which the movie holds at least one review, `getAverageRating` answers 200
with exactly the movie's stored `averageRating`. -/
theorem getAverageRating_agrees_with_stored (db : MovieCollection) (id : ObjectId)
    (movie : Movie) (hm : db id = some movie) (hempty : movie.reviews = [])
    (ops : List ReviewOp) (movie' : Movie) (hm' : runOps db ops id = some movie')
    (hne : movie'.reviews ≠ []) :
    getAverageRating (runOps db ops) (some id)
      = .ok ⟨200, movie'.averageRating, "Average Rating calculated successfully"⟩ := by
  have hinv := runOps_settled ops db id (by
    intro m hm0
    rw [hm] at hm0
    cases hm0
    exact Or.inl hempty) movie' hm'
  rcases hinv with h | h
  · exact absurd h hne
  · rw [(getAverageRating_of_existing (runOps db ops) id movie' hm').2 hne, h]

theorem state_after_three_adds :
    runOps (singleMovieDb (blankMovie [] 0)) threeAdds 1
      = some { blankMovie
          [ { user := 10, rating := 4, reviewText := "Good", createdAt := 1000 },
            { user := 11, rating := 2, reviewText := "Meh", createdAt := 1000 },
            { user := 12, rating := 5, reviewText := "Great", createdAt := 1000 } ]
          (8256599316845909 / 2251799813685248) with
          updatedAt := 1000 } := by
  norm_num [runOps, threeAdds, ReviewOp.next, addMovieReview, requestBy, singleMovieDb,
    blankMovie, save, recomputeAverage, totalRatings, jsAdd, jsDiv, roundDouble_four,
    roundDouble_six, roundDouble_eleven, roundDouble_eleven_thirds, trim_Good, trim_Meh,
    trim_Great, Good_ne, Meh_ne, Great_ne]

/-- Witness of C29: after three adds, of the ratings 4, 2 and 5, the stored
average is the double `8256599316845909 / 2^51` (printed 3.6666666666666665),
and `getAverageRating` answers that same double. -/
theorem getAverageRating_agrees_witness :
    (blankMovie [] 0).reviews = [] ∧
    (runOps (singleMovieDb (blankMovie [] 0)) threeAdds 1).map
      (fun movie => movie.averageRating) = some (8256599316845909 / 2251799813685248) ∧
    getAverageRating (runOps (singleMovieDb (blankMovie [] 0)) threeAdds) (some 1)
      = .ok ⟨200, 8256599316845909 / 2251799813685248,
          "Average Rating calculated successfully"⟩ :=
  ⟨rfl, by rw [state_after_three_adds]; rfl,
    getAverageRating_agrees_with_stored (singleMovieDb (blankMovie [] 0)) 1
      (blankMovie [] 0) rfl rfl threeAdds _ state_after_three_adds
      (by simp [blankMovie])⟩

/-! ## Who may write movies -/

/-- The three movie handlers of the movie controller reject a requester whose
role is not `admin` with 401 or 403 and leave the store unchanged. -/
theorem movie_controller_requires_admin (validators : MovieUpdate → Bool)
    (db : MovieCollection) :
    (∀ req : AddMovieRequest, req.user.role ≠ "admin" →
      addMovie db req =
        (.error (.ErrorHandler 401 "Access denied. Only admins can add movies."), db)) ∧
    (∀ req : UpdateMovieRequest, req.user.role ≠ "admin" →
      updateMovie validators db req =
        (.error (.ErrorHandler 403 "Access denied. Only admins can update movies."), db)) ∧
    (∀ req : DeleteMovieRequest, req.user.role ≠ "admin" →
      deleteMovie db req =
        (.error (.ErrorHandler 401 "Access denied. Only admins can delete movies."), db)) ∧
    (Thrown.ErrorHandler 401 "Access denied. Only admins can add movies.").kind = .Forbidden ∧
    (Thrown.ErrorHandler 403 "Access denied. Only admins can update movies.").kind
      = .Forbidden ∧
    (Thrown.ErrorHandler 401 "Access denied. Only admins can delete movies.").kind
      = .Forbidden := by
  refine ⟨?_, ?_, ?_, rfl, rfl, rfl⟩
  · intro req h
    simp [addMovie, h]
  · intro req h
    simp [updateMovie, h]
  · intro req h
    simp [deleteMovie, h]

/-- C25. The failing input: user 10, whose role is `normal`, calls the admin
controller's `deleteMovie` and `updateMovieDetails` for movie 1. Neither
handler looks at the role: the delete answers 200 and the movie is gone, the
update answers 200 and the title is changed. -/
theorem admin_controller_ignores_role :
    (∃ movie, reviewedDb 1 = some movie) ∧
    Admin.deleteMovie reviewedDb { user := { _id := 10, role := "normal" }, id := 1 }
      = (.ok ⟨200, none, "Movie deleted successfully."⟩, Function.update reviewedDb 1 none) ∧
    (Admin.deleteMovie reviewedDb { user := { _id := 10, role := "normal" }, id := 1 }).2 1
      = none ∧
    (Admin.updateMovieDetails (fun _ => true) reviewedDb
      { user := { _id := 10, role := "normal" }, id := 1, body := retitle "Cold",
        now := 3000 }).1.isOk = true ∧
    ((Admin.updateMovieDetails (fun _ => true) reviewedDb
      { user := { _id := 10, role := "normal" }, id := 1, body := retitle "Cold",
        now := 3000 }).2 1).map (fun movie => movie.title) = some "Cold" ∧
    (reviewedDb 1).map (fun movie => movie.title) = some "Heat" := by
  refine ⟨⟨_, rfl⟩, rfl, ?_, rfl, ?_, rfl⟩
  · simp [Admin.deleteMovie, reviewedDb, singleMovieDb]
  · simp [Admin.updateMovieDetails, reviewedDb, singleMovieDb, MovieUpdate.set, retitle]

/-! ## Communities: posts and replies -/

theorem saveCommunity_same (db : CommunityCollection) (id : ObjectId) (community : Community)
    (now : Nat) : saveCommunity db id community now id = some { community with updatedAt := now } := by
  simp [saveCommunity]

theorem saveCommunity_other (db : CommunityCollection) (id : ObjectId) (community : Community)
    (now : Nat) (j : ObjectId) (h : j ≠ id) : saveCommunity db id community now j = db j := by
  simp [saveCommunity, Function.update_noteq h]

theorem createPostInCommunity_no_text (db : CommunityCollection) (req : CreatePostRequest)
    (h : falsyString req.text = true) :
    createPostInCommunity db req = (.error (.ErrorHandler 400 "Post text is required."), db) := by
  simp [createPostInCommunity, h]

theorem createPostInCommunity_no_community (db : CommunityCollection) (req : CreatePostRequest)
    (h : falsyString req.text = false) (hc : db req.id = none) :
    createPostInCommunity db req = (.error (.ErrorHandler 404 "Community not found."), db) := by
  simp [createPostInCommunity, h, hc]

theorem createPostInCommunity_success (db : CommunityCollection) (req : CreatePostRequest)
    (community : Community) (h : falsyString req.text = false) (hc : db req.id = some community) :
    createPostInCommunity db req =
      (.ok ⟨201,
        { community with
          posts := community.posts ++ [⟨req.newId, req.user._id, req.text, req.now, []⟩],
          updatedAt := req.now },
        "Post created successfully."⟩,
       saveCommunity db req.id
        { community with
          posts := community.posts ++ [⟨req.newId, req.user._id, req.text, req.now, []⟩] }
        req.now) := by
  simp [createPostInCommunity, h, hc]

/-- C22. `createPostInCommunity` throws 400 (a validation error) when the text
is absent or empty, otherwise 404 (not found) when no community has the id,
and the store is the same in both cases. Otherwise it answers 201 and the
community stored under the id is the one there was with one post more at the
end of `posts`: its user is the requester, its text the given text, its
replies empty; the posts before it are the posts there were, replies included,
and every other community is as it was. -/
theorem createPostInCommunity_contract (db : CommunityCollection) (req : CreatePostRequest) :
    (falsyString req.text = true →
      createPostInCommunity db req =
        (.error (.ErrorHandler 400 "Post text is required."), db) ∧
      (Thrown.ErrorHandler 400 "Post text is required.").kind = .ValidationError) ∧
    (falsyString req.text = false → db req.id = none →
      createPostInCommunity db req =
        (.error (.ErrorHandler 404 "Community not found."), db) ∧
      (Thrown.ErrorHandler 404 "Community not found.").kind = .NotFound) ∧
    (∀ community, falsyString req.text = false → db req.id = some community →
      ∃ text after,
        req.text = some text ∧ text ≠ "" ∧
        (createPostInCommunity db req).1 = .ok ⟨201, after, "Post created successfully."⟩ ∧
        (createPostInCommunity db req).2 req.id = some after ∧
        after.posts =
          community.posts ++
            [{ _id := req.newId, user := req.user._id, text := some text,
               createdAt := req.now, replies := [] }] ∧
        after.posts.take community.posts.length = community.posts ∧
        after.posts.length = community.posts.length + 1 ∧
        (∀ other, other ≠ req.id → (createPostInCommunity db req).2 other = db other)) := by
  refine ⟨fun h => ⟨createPostInCommunity_no_text db req h, by decide⟩,
    fun h hc => ⟨createPostInCommunity_no_community db req h hc, rfl⟩, ?_⟩
  intro community h hc
  rw [createPostInCommunity_success db req community h hc]
  cases ht : req.text with
  | none => simp [falsyString, ht] at h
  | some text =>
    refine ⟨text, _, rfl, ?_, rfl, ?_, rfl, ?_, ?_, ?_⟩
    · simpa [falsyString, ht] using h
    · simp only [saveCommunity_same]
    · simp
    · simp
    · intro other hne
      exact saveCommunity_other _ _ _ _ _ hne

theorem createPostInCommunity_contract_witness :
    ∃ text after,
      thirdPost.text = some text ∧ text ≠ "" ∧
      (createPostInCommunity twoCommunities thirdPost).1
        = .ok ⟨201, after, "Post created successfully."⟩ ∧
      (createPostInCommunity twoCommunities thirdPost).2 thirdPost.id = some after ∧
      after.posts =
        [⟨100, 10, some "first", 1000, [⟨300, 11, some "re", 1500⟩]⟩,
         ⟨101, 11, some "second", 2000, []⟩] ++
          [{ _id := thirdPost.newId, user := thirdPost.user._id, text := some text,
             createdAt := thirdPost.now, replies := [] }] ∧
      after.posts.take 2 =
        [⟨100, 10, some "first", 1000, [⟨300, 11, some "re", 1500⟩]⟩,
         ⟨101, 11, some "second", 2000, []⟩] ∧
      after.posts.length = 2 + 1 ∧
      (∀ other, other ≠ thirdPost.id →
        (createPostInCommunity twoCommunities thirdPost).2 other = twoCommunities other) :=
  (createPostInCommunity_contract twoCommunities thirdPost).2.2
    noir (by decide) (by simp [twoCommunities, thirdPost])

/-! ## `replyToPost` -/

theorem subdocumentById_none (posts : List Post) (postId : Option ObjectId)
    (h : ∀ post ∈ posts, some post._id ≠ postId) : subdocumentById posts postId = none := by
  unfold subdocumentById
  simp only [List.find?_eq_none, decide_eq_true_eq]
  exact h

theorem subdocumentById_first (pre : List Post) (post : Post) (rest : List Post)
    (postId : Option ObjectId) (hpre : ∀ p ∈ pre, some p._id ≠ postId)
    (hpost : some post._id = postId) :
    subdocumentById (pre ++ post :: rest) postId = some post := by
  unfold subdocumentById
  exact find?_first _ pre post rest (fun p hp => by simpa using hpre p hp) (by simpa using hpost)

theorem replyToPost_no_community (db : CommunityCollection) (req : ReplyRequest)
    (h : findCommunityById db req.communityId = none) :
    replyToPost db req = (.error (.ErrorHandler 404 "Community not found."), db) := by
  unfold replyToPost
  cases hc : req.communityId with
  | none => rfl
  | some communityId =>
    have h2 : db communityId = none := by simpa [findCommunityById, hc] using h
    simp [h2]

theorem replyToPost_no_post (db : CommunityCollection) (req : ReplyRequest)
    (community : Community) (h : findCommunityById db req.communityId = some community)
    (hp : ∀ post ∈ community.posts, some post._id ≠ req.postId) :
    replyToPost db req = (.error (.ErrorHandler 404 "Post not found."), db) := by
  unfold replyToPost
  cases hc : req.communityId with
  | none => simp [findCommunityById, hc] at h
  | some communityId =>
    have h2 : db communityId = some community := by simpa [findCommunityById, hc] using h
    simp [h2, subdocumentById_none _ _ hp]

theorem replyToPost_success (db : CommunityCollection) (req : ReplyRequest)
    (communityId : ObjectId) (community : Community) (pre : List Post) (post : Post)
    (rest : List Post) (hid : req.communityId = some communityId)
    (hc : db communityId = some community) (hposts : community.posts = pre ++ post :: rest)
    (hpre : ∀ p ∈ pre, some p._id ≠ req.postId) (hpost : some post._id = req.postId) :
    replyToPost db req =
      (.ok ⟨200,
        { post with replies := post.replies ++ [⟨req.newId, req.user._id, req.text, req.now⟩] },
        "Reply added successfully."⟩,
       saveCommunity db communityId
        { community with
          posts := pre ++
            { post with
              replies := post.replies ++ [⟨req.newId, req.user._id, req.text, req.now⟩] } ::
            rest }
        req.now) := by
  unfold replyToPost
  have hfind := subdocumentById_first pre post rest req.postId hpre hpost
  have hmut := mutateFound_first (fun p : Post => decide (some p._id = req.postId))
    (fun p => { p with replies := p.replies ++ [⟨req.newId, req.user._id, req.text, req.now⟩] })
    pre post rest (fun p hp => by simpa using hpre p hp) (by simpa using hpost)
  simp only [hid, hc, hposts, hfind, hmut]

/-- C23. `replyToPost` throws 404 (not found) and leaves the store as it was
when no community has the community id, and when the community exists but none
of its own posts has `postId` as its `_id`, whatever the posts of the other
communities are. When the post exists, the first post of the community with
that `_id`, it answers 200 and the community is stored with one reply more at
the end of the replies of that post: its user is the requester and its text
the given text; the other communities are as they were. -/
theorem replyToPost_contract (db : CommunityCollection) (req : ReplyRequest) :
    (findCommunityById db req.communityId = none →
      replyToPost db req = (.error (.ErrorHandler 404 "Community not found."), db)) ∧
    (∀ community, findCommunityById db req.communityId = some community →
      (∀ post ∈ community.posts, some post._id ≠ req.postId) →
      replyToPost db req = (.error (.ErrorHandler 404 "Post not found."), db)) ∧
    (∀ communityId community pre post rest,
      req.communityId = some communityId → db communityId = some community →
      community.posts = pre ++ post :: rest →
      (∀ p ∈ pre, some p._id ≠ req.postId) → some post._id = req.postId →
      (replyToPost db req).1 =
        .ok ⟨200,
          { post with
            replies := post.replies ++
              [{ _id := req.newId, user := req.user._id, text := req.text,
                 createdAt := req.now }] },
          "Reply added successfully."⟩ ∧
      (replyToPost db req).2 communityId =
        some { community with
          posts := pre ++
            { post with
              replies := post.replies ++
                [{ _id := req.newId, user := req.user._id, text := req.text,
                   createdAt := req.now }] } :: rest,
          updatedAt := req.now } ∧
      (∀ other, other ≠ communityId → (replyToPost db req).2 other = db other)) ∧
    (Thrown.ErrorHandler 404 "Community not found.").kind = .NotFound ∧
    (Thrown.ErrorHandler 404 "Post not found.").kind = .NotFound := by
  refine ⟨replyToPost_no_community db req, replyToPost_no_post db req, ?_, rfl, rfl⟩
  intro communityId community pre post rest hid hc hposts hpre hpost
  rw [replyToPost_success db req communityId community pre post rest hid hc hposts hpre hpost]
  refine ⟨rfl, saveCommunity_same _ _ _ _, ?_⟩
  intro other hne
  exact saveCommunity_other _ _ _ _ _ hne

/-- The cases of `replyToPost_contract` leave nothing out: a community either
has no post with the `_id` or splits at the first such post. -/
theorem posts_split_at (posts : List Post) (postId : Option ObjectId) :
    (∀ post ∈ posts, some post._id ≠ postId) ∨
      ∃ pre post rest, posts = pre ++ post :: rest ∧
        (∀ p ∈ pre, some p._id ≠ postId) ∧ some post._id = postId := by
  rcases exists_first (fun p : Post => decide (some p._id = postId)) posts with h | h
  · left
    intro post hp
    simpa using h post hp
  · right
    obtain ⟨pre, post, rest, hsplit, hpre, hpost⟩ := h
    exact ⟨pre, post, rest, hsplit, fun p hp => by simpa using hpre p hp, by simpa using hpost⟩

theorem replyToPost_contract_witness :
    replyToPost twoCommunities (replyBy 5 200)
        = (.error (.ErrorHandler 404 "Post not found."), twoCommunities) ∧
    twoCommunities 6 = some westerns ∧
    westerns.posts.map (fun post => post._id) = [200] ∧
    (replyToPost twoCommunities (replyBy 5 101)).2 5 =
      some { noir with
        posts := [⟨100, 10, some "first", 1000, [⟨300, 11, some "re", 1500⟩]⟩,
                  ⟨101, 11, some "second", 2000, [⟨301, 10, some "me too", 4000⟩]⟩],
        updatedAt := 4000 } :=
  ⟨(replyToPost_contract twoCommunities (replyBy 5 200)).2.1 noir
      (by simp [findCommunityById, replyBy, twoCommunities])
      (by simp [replyBy, noir]),
   by simp [twoCommunities],
   rfl,
   ((replyToPost_contract twoCommunities (replyBy 5 101)).2.2.1 5 noir
      [⟨100, 10, some "first", 1000, [⟨300, 11, some "re", 1500⟩]⟩]
      ⟨101, 11, some "second", 2000, []⟩ []
      rfl (by simp [twoCommunities]) rfl (by simp [replyBy]) (by simp [replyBy])).2.1⟩

/-! ## Posts and replies only grow -/

theorem Post.keptIn_refl (post : Post) : Post.keptIn post post :=
  ⟨rfl, rfl, rfl, rfl, List.prefix_refl _⟩

theorem Post.keptIn_trans {a b c : Post} (hab : Post.keptIn a b) (hbc : Post.keptIn b c) :
    Post.keptIn a c :=
  ⟨hbc.1.trans hab.1, hbc.2.1.trans hab.2.1, hbc.2.2.1.trans hab.2.2.1,
    hbc.2.2.2.1.trans hab.2.2.2.1, hab.2.2.2.2.trans hbc.2.2.2.2⟩

theorem forall₂_keptIn_refl (posts : List Post) : List.Forall₂ Post.keptIn posts posts := by
  induction posts with
  | nil => exact List.Forall₂.nil
  | cons post posts ih => exact List.Forall₂.cons (Post.keptIn_refl post) ih

theorem AppendOnly.refl (posts : List Post) : AppendOnly posts posts :=
  ⟨posts, [], by simp, forall₂_keptIn_refl posts⟩

theorem forall₂_keptIn_trans {xs ys zs : List Post} (hxy : List.Forall₂ Post.keptIn xs ys)
    (hyz : List.Forall₂ Post.keptIn ys zs) : List.Forall₂ Post.keptIn xs zs := by
  induction hxy generalizing zs with
  | nil => cases hyz; exact List.Forall₂.nil
  | cons h _ ih =>
    cases hyz with
    | cons h2 t2 => exact List.Forall₂.cons (Post.keptIn_trans h h2) (ih t2)

theorem forall₂_keptIn_split (xs ys zs : List Post)
    (h : List.Forall₂ Post.keptIn (xs ++ ys) zs) :
    ∃ z1 z2, zs = z1 ++ z2 ∧ List.Forall₂ Post.keptIn xs z1 := by
  induction xs generalizing zs with
  | nil => exact ⟨[], zs, rfl, List.Forall₂.nil⟩
  | cons x xs ih =>
    cases h with
    | cons hx ht =>
      obtain ⟨z1, z2, hz, hrel⟩ := ih _ ht
      exact ⟨_ :: z1, z2, by rw [hz, List.cons_append], List.Forall₂.cons hx hrel⟩

theorem AppendOnly.trans {xs ys zs : List Post} (hxy : AppendOnly xs ys)
    (hyz : AppendOnly ys zs) : AppendOnly xs zs := by
  obtain ⟨kept, added, hys, hkept⟩ := hxy
  obtain ⟨kept2, added2, hzs, hkept2⟩ := hyz
  subst hys
  obtain ⟨k1, k2, hk, h1⟩ := forall₂_keptIn_split kept added kept2 hkept2
  exact ⟨k1, k2 ++ added2, by rw [hzs, hk, List.append_assoc], forall₂_keptIn_trans hkept h1⟩

theorem createCommunity_next_cases (db : CommunityCollection) (req : CreateCommunityRequest) :
    (createCommunity db req).2 = db ∨
      ∃ community, db req.newId = none ∧
        (createCommunity db req).2 = Function.update db req.newId (some community) := by
  unfold createCommunity
  split_ifs with h
  · exact Or.inl rfl
  · cases hn : db req.newId with
    | some c => exact Or.inl rfl
    | none => exact Or.inr ⟨_, rfl, rfl⟩

theorem createPostInCommunity_next_cases (db : CommunityCollection) (req : CreatePostRequest) :
    (createPostInCommunity db req).2 = db ∨
      ∃ community, db req.id = some community ∧
        (createPostInCommunity db req).2 =
          saveCommunity db req.id
            { community with
              posts := community.posts ++ [⟨req.newId, req.user._id, req.text, req.now, []⟩] }
            req.now := by
  cases h : falsyString req.text with
  | true => exact Or.inl (by rw [createPostInCommunity_no_text db req h])
  | false =>
    cases hc : db req.id with
    | none => exact Or.inl (by rw [createPostInCommunity_no_community db req h hc])
    | some community =>
      exact Or.inr ⟨community, rfl, by rw [createPostInCommunity_success db req community h hc]⟩

theorem replyToPost_next_cases (db : CommunityCollection) (req : ReplyRequest) :
    (replyToPost db req).2 = db ∨
      ∃ communityId community pre post rest,
        req.communityId = some communityId ∧ db communityId = some community ∧
        community.posts = pre ++ post :: rest ∧
        (∀ p ∈ pre, some p._id ≠ req.postId) ∧ some post._id = req.postId ∧
        (replyToPost db req).2 =
          saveCommunity db communityId
            { community with
              posts := pre ++
                { post with
                  replies := post.replies ++
                    [⟨req.newId, req.user._id, req.text, req.now⟩] } :: rest }
            req.now := by
  cases hid : req.communityId with
  | none =>
    exact Or.inl (by rw [replyToPost_no_community db req (by simp [findCommunityById, hid])])
  | some communityId =>
    cases hc : db communityId with
    | none =>
      exact Or.inl (by
        rw [replyToPost_no_community db req (by simp [findCommunityById, hid, hc])])
    | some community =>
      rcases posts_split_at community.posts req.postId with hp | ⟨pre, post, rest, hs, hpre, hpost⟩
      · exact Or.inl (by
          rw [replyToPost_no_post db req community (by simp [findCommunityById, hid, hc]) hp])
      · exact Or.inr ⟨communityId, community, pre, post, rest, rfl, hc, hs, hpre, hpost,
          by rw [replyToPost_success db req communityId community pre post rest hid hc hs hpre hpost]⟩

theorem forall₂_keptIn_reply (pre : List Post) (post : Post) (rest : List Post)
    (reply : Reply) :
    List.Forall₂ Post.keptIn (pre ++ post :: rest)
      (pre ++ { post with replies := post.replies ++ [reply] } :: rest) := by
  refine List.rel_append (forall₂_keptIn_refl pre) (List.Forall₂.cons ?_ (forall₂_keptIn_refl rest))
  exact ⟨rfl, rfl, rfl, rfl, List.prefix_append _ _⟩

/-- One operation of the communities controller, at one community. -/
theorem communityOp_next_grows (db : CommunityCollection) (op : CommunityOp)
    (id : ObjectId) (community : Community) (h : db id = some community) :
    ∃ after, op.next db id = some after ∧ AppendOnly community.posts after.posts ∧
      (∀ req, op = .replyToPost req →
        after.posts = community.posts ∨
          (req.communityId = some id ∧
            ∃ pre post rest reply, community.posts = pre ++ post :: rest ∧
              (∀ p ∈ pre, some p._id ≠ req.postId) ∧ some post._id = req.postId ∧
              after.posts =
                pre ++ { post with replies := post.replies ++ [reply] } :: rest)) := by
  cases op with
  | createCommunity req =>
    refine ⟨community, ?_, AppendOnly.refl _, by intro r hr; cases hr⟩
    rcases createCommunity_next_cases db req with hn | ⟨c, hnone, hn⟩
    · simp only [CommunityOp.next, hn, h]
    · have hne : id ≠ req.newId := by
        rintro rfl
        rw [h] at hnone
        cases hnone
      simp only [CommunityOp.next, hn, Function.update_noteq hne, h]
  | getAllCommunities page limit =>
    exact ⟨community, h, AppendOnly.refl _, by intro r hr; cases hr⟩
  | getCommunityById i =>
    exact ⟨community, h, AppendOnly.refl _, by intro r hr; cases hr⟩
  | getAllPostsInCommunity req =>
    exact ⟨community, h, AppendOnly.refl _, by intro r hr; cases hr⟩
  | getAllReplies c p =>
    exact ⟨community, h, AppendOnly.refl _, by intro r hr; cases hr⟩
  | createPostInCommunity req =>
    rcases createPostInCommunity_next_cases db req with hn | ⟨c, hc, hn⟩
    · exact ⟨community, by simp only [CommunityOp.next, hn, h], AppendOnly.refl _,
        by intro r hr; cases hr⟩
    · by_cases hid : id = req.id
      · subst hid
        rw [h] at hc
        cases hc
        refine ⟨_, by rw [CommunityOp.next, hn, saveCommunity_same], ?_,
          by intro r hr; cases hr⟩
        exact ⟨community.posts, _, rfl, forall₂_keptIn_refl _⟩
      · exact ⟨community, by simp only [CommunityOp.next, hn, saveCommunity_other _ _ _ _ _ hid, h],
          AppendOnly.refl _, by intro r hr; cases hr⟩
  | replyToPost req =>
    rcases replyToPost_next_cases db req with hn | ⟨cid, c, pre, post, rest, hcid, hc, hs, hpre, hpost, hn⟩
    · exact ⟨community, by simp only [CommunityOp.next, hn, h], AppendOnly.refl _,
        fun _ _ => Or.inl rfl⟩
    · by_cases hid : id = cid
      · subst hid
        rw [h] at hc
        cases hc
        refine ⟨_, by rw [CommunityOp.next, hn, saveCommunity_same], ?_, ?_⟩
        · refine ⟨_, [], (List.append_nil _).symm, ?_⟩
          rw [hs]
          exact forall₂_keptIn_reply pre post rest _
        · intro r hr
          cases hr
          exact Or.inr ⟨hcid, pre, post, rest, _, hs, hpre, hpost, rfl⟩
      · exact ⟨community, by simp only [CommunityOp.next, hn, saveCommunity_other _ _ _ _ _ hid, h],
          AppendOnly.refl _, fun _ _ => Or.inl rfl⟩

/-- Over a sequence of operations as well: a stored community stays stored and
its posts only grow. -/
theorem runCommunityOps_append_only (ops : List CommunityOp) (db : CommunityCollection)
    (id : ObjectId) (community : Community) (h : db id = some community) :
    ∃ after, runCommunityOps db ops id = some after ∧
      AppendOnly community.posts after.posts := by
  induction ops generalizing db community with
  | nil => exact ⟨community, h, AppendOnly.refl _⟩
  | cons op ops ih =>
    obtain ⟨mid, hmid, hgrow, -⟩ := communityOp_next_grows db op id community h
    obtain ⟨after, hafter, hgrow2⟩ := ih (op.next db) mid hmid
    exact ⟨after, hafter, hgrow.trans hgrow2⟩

/-- C24. Whatever operation of the communities controller runs, a community
that was stored is still stored afterwards, and its posts have only grown: the
posts there were are still there, at the same positions and in the same order,
each with the `_id`, user, text and creation time it had, and each with the
replies it had as the first of its replies; anything else was appended. After
`replyToPost` the posts are the same or they differ in nothing but one reply
appended to the first post of the addressed community that has `postId`. -/
theorem posts_and_replies_append_only (db : CommunityCollection) (op : CommunityOp)
    (id : ObjectId) (community : Community) (h : db id = some community) :
    ∃ after, op.next db id = some after ∧ AppendOnly community.posts after.posts ∧
      (∀ req, op = .replyToPost req →
        after.posts = community.posts ∨
          (req.communityId = some id ∧
            ∃ pre post rest reply, community.posts = pre ++ post :: rest ∧
              (∀ p ∈ pre, some p._id ≠ req.postId) ∧ some post._id = req.postId ∧
              after.posts =
                pre ++ { post with replies := post.replies ++ [reply] } :: rest)) :=
  communityOp_next_grows db op id community h

theorem posts_and_replies_append_only_witness :
    ∃ after, (CommunityOp.replyToPost (replyBy 5 101)).next twoCommunities 5 = some after ∧
      AppendOnly noir.posts after.posts ∧
      (∀ req, CommunityOp.replyToPost (replyBy 5 101) = .replyToPost req →
        after.posts = noir.posts ∨
          (req.communityId = some 5 ∧
            ∃ pre post rest reply, noir.posts = pre ++ post :: rest ∧
              (∀ p ∈ pre, some p._id ≠ req.postId) ∧ some post._id = req.postId ∧
              after.posts =
                pre ++ { post with replies := post.replies ++ [reply] } :: rest)) :=
  posts_and_replies_append_only twoCommunities (.replyToPost (replyBy 5 101)) 5 noir
    (by simp [twoCommunities])

/-! ## Pages of posts and of the wishlist -/

theorem findByIdSkip_zero {α : Type} (db : ObjectId → Option α) (id : ObjectId) :
    findByIdSkip db id 0 = .ok (db id) := by
  simp [findByIdSkip]

theorem findByIdSkip_pos {α : Type} (db : ObjectId → Option α) (id : ObjectId) (skip : Int)
    (h : 0 < skip) : findByIdSkip db id skip = .ok none := by
  have h1 : ¬ skip < 0 := by omega
  have h2 : skip ≠ 0 := by omega
  simp [findByIdSkip, h1, h2]

/-- On page 1 `getAllPostsInCommunity` answers with every post of the
community, whatever the limit. -/
theorem getAllPostsInCommunity_first_page (db : CommunityCollection) (users : UserCollection)
    (id : ObjectId) (limit : Int) (community : Community) (h : db id = some community) :
    getAllPostsInCommunity db users ⟨id, some 1, some limit⟩ =
      .ok ⟨200,
        { posts := community.posts.map (populatePost users), currentPage := 1, limit := limit,
          totalPosts := community.posts.length,
          totalPages := totalPagesOf community.posts.length limit },
        "Posts retrieved successfully."⟩ := by
  simp [getAllPostsInCommunity, findByIdSkip_zero, h]

/-- On page 2 or later, with a limit of 1 or more, `getAllPostsInCommunity`
throws the 404 of a missing community, whether the community is stored or
not. -/
theorem getAllPostsInCommunity_later_page (db : CommunityCollection) (users : UserCollection)
    (id : ObjectId) (page limit : Int) (hp : 2 ≤ page) (hl : 1 ≤ limit) :
    getAllPostsInCommunity db users ⟨id, some page, some limit⟩ =
      .error (.ErrorHandler 404 "Community not found.") := by
  have hskip : 0 < (page - 1) * limit := Int.mul_pos (by omega) (by omega)
  simp [getAllPostsInCommunity, findByIdSkip_pos _ _ _ hskip]

/-- On page 1 `getUserWishlist` answers with the whole populated wishlist,
whatever the limit. -/
theorem getUserWishlist_first_page (movies : MovieCollection) (users : UserCollection)
    (requester : AuthUser) (limit : Int) (user : User) (h : users requester._id = some user) :
    getUserWishlist movies users ⟨requester, some 1, some limit⟩ =
      .ok ⟨200,
        { wishlist := populateWishlist movies user.wishlist, currentPage := 1, limit := limit,
          totalwishlistItems := (populateWishlist movies user.wishlist).length,
          totalPages := totalPagesOf (populateWishlist movies user.wishlist).length limit },
        "User's wishlist retrieved successfully."⟩ := by
  simp [getUserWishlist, findByIdSkip_zero, h, tryCatch]

/-- On page 2 or later, with a limit of 1 or more, `getUserWishlist` throws
500. -/
theorem getUserWishlist_later_page (movies : MovieCollection) (users : UserCollection)
    (requester : AuthUser) (page limit : Int) (hp : 2 ≤ page) (hl : 1 ≤ limit) :
    getUserWishlist movies users ⟨requester, some page, some limit⟩ =
      .error (.ErrorHandler 500 "An error occurred while retrieving the wishlist.") := by
  have hskip : 0 < (page - 1) * limit := Int.mul_pos (by omega) (by omega)
  simp [getUserWishlist, findByIdSkip_pos _ _ _ hskip, tryCatch]

/-- C27. The failing inputs. Community 5 is stored with two posts: page 2 with
limit 1 throws the 404 of a missing community, and page 1 with limit 1 lists
both posts. User 10 is stored with three movies on the wishlist: page 2 with
limit 2 throws 500, and page 1 with limit 2 lists all three. -/
theorem embedded_pages_skip_documents :
    twoCommunities 5 = some noir ∧ noir.posts.length = 2 ∧
    getAllPostsInCommunity twoCommunities annAndBob ⟨5, some 2, some 1⟩ =
      .error (.ErrorHandler 404 "Community not found.") ∧
    (∃ page, getAllPostsInCommunity twoCommunities annAndBob ⟨5, some 1, some 1⟩ =
        .ok ⟨200, page, "Posts retrieved successfully."⟩ ∧
      page.posts.map (fun post => post._id) = [100, 101] ∧ page.limit = 1 ∧
      page.totalPages = some 2) ∧
    annWishing 10 = some (blankUser "Ann" [1, 2, 3] []) ∧
    getUserWishlist threeMovies annWishing ⟨⟨10, "normal"⟩, some 2, some 2⟩ =
      .error (.ErrorHandler 500 "An error occurred while retrieving the wishlist.") ∧
    (∃ page, getUserWishlist threeMovies annWishing ⟨⟨10, "normal"⟩, some 1, some 2⟩ =
        .ok ⟨200, page, "User's wishlist retrieved successfully."⟩ ∧
      page.wishlist.map (fun movie => movie._id) = [1, 2, 3] ∧ page.limit = 2 ∧
      page.totalPages = some 2) := by
  have h5 : twoCommunities 5 = some noir := by simp [twoCommunities]
  have h10 : annWishing 10 = some (blankUser "Ann" [1, 2, 3] []) := by simp [annWishing]
  refine ⟨h5, rfl, getAllPostsInCommunity_later_page _ _ _ _ _ (by norm_num) (by norm_num),
    ⟨_, getAllPostsInCommunity_first_page _ _ 5 1 noir h5, ?_, rfl, ?_⟩, h10,
    getUserWishlist_later_page _ _ _ _ _ (by norm_num) (by norm_num),
    ⟨_, getUserWishlist_first_page _ _ ⟨10, "normal"⟩ 2 _ h10, ?_, rfl, ?_⟩⟩
  · simp [noir, populatePost]
  · simp [noir, totalPagesOf]
  · simp [populateWishlist, blankUser, threeMovies]
  · simp [populateWishlist, blankUser, threeMovies, totalPagesOf]
    norm_num [Int.ceil_eq_iff]

/-! ## Pages of a stored sequence -/

theorem jsSlice_nat {α : Type} (xs : List α) (a b : Nat) :
    jsSlice xs (a : Int) ((a : Int) + (b : Int)) = (xs.drop a).take b := by
  have ha : ¬ ((a : Int) < 0) := by omega
  have hb : ¬ ((a : Int) + (b : Int) < 0) := by omega
  have hab : ((a : Int) + (b : Int)).toNat = a + b := by omega
  simp only [jsSlice, sliceIndex, ha, hb, if_false, Int.toNat_ofNat, hab]
  by_cases h : a ≤ xs.length
  · rw [Nat.min_eq_left h]
    apply List.take_eq_take.mpr
    simp only [List.length_drop]
    omega
  · have h2 : xs.length ≤ a := by omega
    rw [List.drop_eq_nil_of_le h2, List.drop_eq_nil_of_le (by omega)]
    simp

theorem range_filterMap_getElem? {α : Type} (ys : List α) (m : Nat) :
    (List.range m).filterMap (fun k => ys[k]?) = ys.take m := by
  induction m with
  | zero => simp
  | succ m ih =>
    rw [List.range_succ, List.filterMap_append, ih, List.take_succ]
    cases h : ys[m]? <;> simp [h]

/-- The page of the specification is a `drop` followed by a `take`. -/
theorem specPage_eq {α : Type} (xs : List α) (p L : Nat) (hp : 1 ≤ p) :
    specPage xs p L = (xs.drop ((p - 1) * L)).take L := by
  unfold specPage
  have h : (fun k => xs[(p - 1) * L + k]?) = (fun k => (xs.drop ((p - 1) * L))[k]?) := by
    funext k
    rw [List.getElem?_drop]
  rw [h, range_filterMap_getElem?]
  apply List.take_eq_take.mpr
  simp only [List.length_drop]
  have hpL : p * L = (p - 1) * L + L := by
    obtain ⟨q, rfl⟩ : ∃ q, p = q + 1 := ⟨p - 1, by omega⟩
    simp [Nat.succ_mul]
  rw [hpL]
  omega

/-- What the handlers slice is the page of the specification. -/
theorem jsSlice_page {α : Type} (xs : List α) (p L : Nat) (hp : 1 ≤ p) :
    jsSlice xs (((p : Int) - 1) * (L : Int)) (((p : Int) - 1) * (L : Int) + (L : Int)) =
      specPage xs p L := by
  have h : ((p : Int) - 1) * (L : Int) = (((p - 1) * L : Nat) : Int) := by
    push_cast [Nat.cast_sub hp]
    ring
  rw [h, jsSlice_nat, specPage_eq xs p L hp]

/-- The slice of `getCustomLists`, which ends at `page * limit`. -/
theorem jsSlice_page_mul {α : Type} (xs : List α) (p L : Nat) (hp : 1 ≤ p) :
    jsSlice xs (((p : Int) - 1) * (L : Int)) ((p : Int) * (L : Int)) = specPage xs p L := by
  have h : (p : Int) * (L : Int) = ((p : Int) - 1) * (L : Int) + (L : Int) := by ring
  rw [h, jsSlice_page xs p L hp]

theorem specPage_length_le {α : Type} (xs : List α) (p L : Nat) (hp : 1 ≤ p) :
    (specPage xs p L).length ≤ L := by
  rw [specPage_eq xs p L hp]
  simp [List.length_take]

theorem specPage_infix {α : Type} (xs : List α) (p L : Nat) (hp : 1 ≤ p) :
    specPage xs p L <:+: xs := by
  rw [specPage_eq xs p L hp]
  exact (List.take_prefix _ _).isInfix.trans (List.drop_suffix _ _).isInfix

/-- A page number is at most `ceil(n / L)` exactly when the page starts
inside the sequence. -/
theorem le_ceil_iff_start_lt (n p L : Nat) (hp : 1 ≤ p) (hL : 1 ≤ L) :
    (p : Int) ≤ ⌈(n : ℚ) / (L : ℚ)⌉ ↔ (p - 1) * L < n := by
  have hLq : (0 : ℚ) < (L : ℚ) := by exact_mod_cast hL
  have h1 : (p : Int) ≤ ⌈(n : ℚ) / (L : ℚ)⌉ ↔ ((p : Int) - 1) < ⌈(n : ℚ) / (L : ℚ)⌉ := by
    constructor <;> intro h <;> omega
  rw [h1, Int.lt_ceil, lt_div_iff₀ hLq]
  have h2 : (((p : Int) - 1 : Int) : ℚ) * (L : ℚ) = (((p - 1) * L : Nat) : ℚ) := by
    push_cast [Nat.cast_sub hp]
    ring
  rw [h2]
  exact Nat.cast_lt

theorem specPage_length_eq_zero_iff {α : Type} (xs : List α) (p L : Nat) (hp : 1 ≤ p)
    (hL : 1 ≤ L) :
    (specPage xs p L).length = 0 ↔ ¬ (p : Int) ≤ ⌈(xs.length : ℚ) / (L : ℚ)⌉ := by
  rw [le_ceil_iff_start_lt xs.length p L hp hL, specPage_eq xs p L hp]
  simp only [List.length_take, List.length_drop]
  omega

theorem pages_take {α : Type} (xs : List α) (L T : Nat) :
    ((List.range T).map (fun k => specPage xs (k + 1) L)).flatten = xs.take (T * L) := by
  induction T with
  | zero => simp
  | succ T ih =>
    rw [List.range_succ, List.map_append, List.flatten_append, ih]
    simp only [List.map_cons, List.map_nil, List.flatten_cons, List.flatten_nil,
      List.append_nil]
    rw [specPage_eq xs (T + 1) L (by omega), Nat.add_sub_cancel, Nat.succ_mul, List.take_add]

/-- Pages 1 to `ceil(n / L)` of the specification, one after the other, are
the whole sequence. -/
theorem pages_concat {α : Type} (xs : List α) (L : Nat) (hL : 1 ≤ L) :
    ((List.range ⌈(xs.length : ℚ) / (L : ℚ)⌉.toNat).map
      (fun k => specPage xs (k + 1) L)).flatten = xs := by
  rw [pages_take]
  apply List.take_of_length_le
  have hLq : (0 : ℚ) < (L : ℚ) := by exact_mod_cast hL
  have h0 : (0 : ℚ) ≤ (xs.length : ℚ) / (L : ℚ) := by positivity
  have hc : (0 : Int) ≤ ⌈(xs.length : ℚ) / (L : ℚ)⌉ := Int.ceil_nonneg h0
  have h1 : (xs.length : ℚ) / (L : ℚ) ≤ ((⌈(xs.length : ℚ) / (L : ℚ)⌉ : Int) : ℚ) :=
    Int.le_ceil _
  rw [div_le_iff₀ hLq] at h1
  have h2 : ((⌈(xs.length : ℚ) / (L : ℚ)⌉ : Int) : ℚ) =
      ((⌈(xs.length : ℚ) / (L : ℚ)⌉.toNat : Nat) : ℚ) := by
    have := Int.toNat_of_nonneg hc
    exact_mod_cast this.symm
  rw [h2] at h1
  exact_mod_cast h1

/-! ## The handlers that slice a stored sequence -/

theorem totalPagesOf_pos (n L : Nat) (hL : 1 ≤ L) :
    totalPagesOf n (L : Int) = some ⌈(n : ℚ) / (L : ℚ)⌉ := by
  have h : (L : Int) ≠ 0 := by omega
  simp [totalPagesOf, h]

/-- `getMovieGoofs` for a stored movie, a page `p ≥ 1` and a limit `L ≥ 1`:
200 with the page of the specification when `p ≤ ceil(n / L)`, the 404
response otherwise. -/
theorem getMovieGoofs_page (movies : MovieCollection) (id : ObjectId) (movie : Movie)
    (p L : Nat) (hp : 1 ≤ p) (hL : 1 ≤ L) (h : movies id = some movie) :
    getMovieGoofs movies ⟨id, some (p : Int), some (L : Int)⟩ =
      if (p : Int) ≤ ⌈(movie.goofs.length : ℚ) / (L : ℚ)⌉ then
        .ok ⟨200, some
          { movieTitle := movie.title, goofs := specPage movie.goofs p L,
            currentPage := p, limit := L, totalGoofs := movie.goofs.length,
            totalPages := some ⌈(movie.goofs.length : ℚ) / (L : ℚ)⌉ },
          "Goofs retrieved successfully."⟩
      else .ok ⟨404, none, "No goofs found for the given page."⟩ := by
  have hz := specPage_length_eq_zero_iff movie.goofs p L hp hL
  simp only [getMovieGoofs, h, Option.getD_some, jsSlice_page _ p L hp, totalPagesOf_pos _ L hL]
  by_cases hc : (p : Int) ≤ ⌈(movie.goofs.length : ℚ) / (L : ℚ)⌉
  · have hne : ¬ (specPage movie.goofs p L).length = 0 := fun h0 => (hz.mp h0) hc
    simp only [hne, hc, if_true, if_false]
  · have h0 : (specPage movie.goofs p L).length = 0 := hz.mpr hc
    simp only [h0, hc, if_true, if_false]

/-- `getMovieAwards`, likewise. -/
theorem getMovieAwards_page (movies : MovieCollection) (id : ObjectId) (movie : Movie)
    (p L : Nat) (hp : 1 ≤ p) (hL : 1 ≤ L) (h : movies id = some movie) :
    getMovieAwards movies ⟨id, some (p : Int), some (L : Int)⟩ =
      if (p : Int) ≤ ⌈(movie.awards.length : ℚ) / (L : ℚ)⌉ then
        .ok ⟨200, some
          { movieTitle := movie.title, awards := specPage movie.awards p L,
            currentPage := p, limit := L, totalAwards := movie.awards.length,
            totalPages := some ⌈(movie.awards.length : ℚ) / (L : ℚ)⌉ },
          "Awards and nominations retrieved successfully."⟩
      else .ok ⟨404, none, "No awards found for the given page."⟩ := by
  have hz := specPage_length_eq_zero_iff movie.awards p L hp hL
  simp only [getMovieAwards, h, Option.getD_some, jsSlice_page _ p L hp, totalPagesOf_pos _ L hL]
  by_cases hc : (p : Int) ≤ ⌈(movie.awards.length : ℚ) / (L : ℚ)⌉
  · have hne : ¬ (specPage movie.awards p L).length = 0 := fun h0 => (hz.mp h0) hc
    simp only [hne, hc, if_true, if_false]
  · have h0 : (specPage movie.awards p L).length = 0 := hz.mpr hc
    simp only [h0, hc, if_true, if_false]

/-- `getCustomLists` for a stored user, a page `p ≥ 1` and a limit `L ≥ 1`:
200 with the page of the specification, its movies populated. -/
theorem getCustomLists_page (movies : MovieCollection) (users : UserCollection)
    (requester : AuthUser) (user : User) (p L : Nat) (hp : 1 ≤ p) (hL : 1 ≤ L)
    (h : users requester._id = some user) :
    getCustomLists movies users ⟨requester, some (p : Int), some (L : Int)⟩ =
      .ok ⟨200,
        { customLists := (specPage user.customLists p L).map (populateList movies),
          currentPage := p, limit := L, totalLists := user.customLists.length,
          totalPages := some ⌈(user.customLists.length : ℚ) / (L : ℚ)⌉ },
        "Custom lists retrieved successfully."⟩ := by
  simp only [getCustomLists, h, Option.getD_some, jsSlice_page_mul _ p L hp,
    totalPagesOf_pos _ L hL, tryCatch]

theorem mapExcept_ok_of_forall {α β : Type} (f : α → Except Thrown β) (xs : List α)
    (h : ∀ x ∈ xs, ∃ y, f x = .ok y) : ∃ ys, mapExcept f xs = .ok ys := by
  induction xs with
  | nil => exact ⟨[], rfl⟩
  | cons x xs ih =>
    obtain ⟨y, hy⟩ := h x (by simp)
    obtain ⟨ys, hys⟩ := ih (fun z hz => h z (by simp [hz]))
    exact ⟨y :: ys, by simp [mapExcept, hy, hys]⟩

/-- `getMovieReviews` for a stored movie, a page `p ≥ 1` and a limit `L ≥ 1`,
when the author of every review on the page is a stored user: the 404 response
when `p > ceil(n / L)`; otherwise 200 with one entry for each review of the
page of the specification, in the same order, carrying its author and
rating. -/
theorem getMovieReviews_page (movies : MovieCollection) (users : UserCollection)
    (id : ObjectId) (movie : Movie) (p L : Nat) (hp : 1 ≤ p) (hL : 1 ≤ L)
    (h : movies id = some movie)
    (hauthors : ∀ review ∈ specPage movie.reviews p L, ∃ user, users review.user = some user) :
    (¬ (p : Int) ≤ ⌈(movie.reviews.length : ℚ) / (L : ℚ)⌉ →
      getMovieReviews movies users ⟨id, some (p : Int), some (L : Int)⟩ =
        .ok ⟨404, none, "No reviews found for the given page."⟩) ∧
    ((p : Int) ≤ ⌈(movie.reviews.length : ℚ) / (L : ℚ)⌉ →
      ∃ reviews,
        getMovieReviews movies users ⟨id, some (p : Int), some (L : Int)⟩ =
          .ok ⟨200, some
            { reviews := reviews, currentPage := p, limit := L,
              totalReviews := movie.reviews.length,
              totalPages := some ⌈(movie.reviews.length : ℚ) / (L : ℚ)⌉ },
            "Reviews retrieved successfully."⟩ ∧
        List.Forall₂
          (fun (review : Review) (listed : ListedReview) =>
            populateUser users review.user = some listed.user ∧ listed.rating = review.rating)
          (specPage movie.reviews p L) reviews ∧
        reviews.length ≤ L ∧ reviews ≠ []) := by
  have hz := specPage_length_eq_zero_iff movie.reviews p L hp hL
  constructor
  · intro hc
    have h0 : (specPage movie.reviews p L).length = 0 := hz.mpr hc
    simp only [getMovieReviews, h, Option.getD_some, jsSlice_page _ p L hp, h0, if_true]
  · intro hc
    have hne : ¬ (specPage movie.reviews p L).length = 0 := fun h0 => (hz.mp h0) hc
    obtain ⟨reviews, hmap⟩ := mapExcept_ok_of_forall
      (fun review =>
          match reviewAuthor users review with
          | .error e => .error e
          | .ok user =>
            .ok ({ user := user, rating := review.rating, comment := none, date := none }
              : ListedReview)) (specPage movie.reviews p L)
      (by
        intro review hr
        obtain ⟨user, hu⟩ := hauthors review hr
        exact ⟨⟨⟨review.user, user.name, user.avatar⟩, review.rating, none, none⟩,
          by simp [reviewAuthor, populateUser, hu]⟩)
    have hrel := mapExcept_ok_forall₂ _ _ _ hmap
    refine ⟨reviews, ?_, ?_, ?_, ?_⟩
    · simp only [getMovieReviews, h, Option.getD_some, jsSlice_page _ p L hp, hne, if_false,
        hmap, totalPagesOf_pos _ L hL]
    · refine hrel.imp ?_
      intro review listed hl
      unfold reviewAuthor at hl
      cases hu : populateUser users review.user with
      | none => simp [hu] at hl
      | some author =>
        simp only [hu, Except.ok.injEq] at hl
        subst hl
        exact ⟨rfl, rfl⟩
    · rw [← hrel.length_eq]
      exact specPage_length_le _ p L hp
    · intro hnil
      apply hne
      rw [hrel.length_eq, hnil]
      rfl

/-- C26. The failing input: movie 1 of `threeReviewsDb` has three reviews, the
third by user 12, and no user 12 is stored. Page 2 with limit 2 is a page
within `ceil(3 / 2) = 2`, holding the third review, and `getMovieReviews`
answers it with neither 200 nor 404: reading `review.user._id` raises a
`TypeError`. -/
theorem getMovieReviews_page_raises :
    (threeReviewsDb 1).map (fun movie => movie.reviews.map (fun review => review.user))
      = some [10, 11, 12] ∧
    (2 : Int) ≤ ⌈(3 : ℚ) / (2 : ℚ)⌉ ∧
    annAndBob 12 = none ∧
    getMovieReviews threeReviewsDb annAndBob ⟨1, some 2, some 2⟩ =
      .error (.TypeError "Cannot read properties of null (reading '_id')") ∧
    (Thrown.TypeError "Cannot read properties of null (reading '_id')").kind = .Internal := by
  refine ⟨rfl, ?_, by simp [annAndBob], ?_, rfl⟩
  · have h := (le_ceil_iff_start_lt 3 2 2 (by norm_num) (by norm_num)).mpr (by norm_num)
    exact_mod_cast h
  · have hs : ∀ a b c : Review, jsSlice [a, b, c] 2 4 = [c] := by
      intro a b c
      have h := jsSlice_nat [a, b, c] 2 2
      norm_num at h
      exact h
    simp [getMovieReviews, threeReviewsDb, singleMovieDb, blankMovie, hs, mapExcept,
      reviewAuthor, populateUser, annAndBob]

/-! ## Routes that no request reaches -/

/-- A parameter accepts every request segment that a non-empty literal
accepts. -/
theorem param_accepts_of_lit (name text s : String) (htext : text ≠ "")
    (h : (Segment.lit text).accepts s = true) : (Segment.param name).accepts s = true := by
  simp only [Segment.accepts, sameText, beq_iff_eq] at h
  simp only [Segment.accepts, decide_eq_true_eq]
  rintro rfl
  apply htext
  have h2 : text.data = [] := by simpa using h
  cases text
  simp only at h2
  subst h2
  rfl

/-- The request paths that `[literal, literal]` matches are matched by
`[literal, parameter]` with the same first literal. -/
theorem pathMatches_lit_param (first second name : String) (hsecond : second ≠ "")
    (path : List String)
    (h : pathMatches [.lit first, .lit second] path = true) :
    pathMatches [.lit first, .param name] path = true := by
  match path, h with
  | [a, b], h =>
    simp only [pathMatches, Bool.and_true, Bool.and_eq_true] at h ⊢
    exact ⟨h.1, param_accepts_of_lit name second b hsecond h.2⟩
  | [], h => simp [pathMatches] at h
  | [_], h => simp [pathMatches] at h
  | _ :: _ :: _ :: _, h => simp [pathMatches] at h

/-- A handler registered only after a route of the same method that matches
every path its own route matches is dispatched to by no request. -/
theorem handlerFor_ne_of_shadowed {H : Type} (pre : List (Route H)) (first : Route H)
    (rest : List (Route H)) (handler : H)
    (hpre : ∀ r ∈ pre, r.handler ≠ handler) (hfirst : first.handler ≠ handler)
    (hshadow : ∀ r ∈ rest, r.handler = handler →
      first.method = r.method ∧
        ∀ path, pathMatches r.path path = true → pathMatches first.path path = true)
    (method : Method) (path : List String) :
    handlerFor (pre ++ first :: rest) method path ≠ some handler := by
  intro h
  unfold handlerFor dispatch at h
  rw [List.find?_append] at h
  cases hp : pre.find?
      (fun route => decide (route.method = method) && pathMatches route.path path) with
  | some x =>
    rw [hp] at h
    simp only [Option.or, Option.map_some', Option.some.injEq] at h
    exact hpre x (List.mem_of_find?_eq_some hp) h
  | none =>
    rw [hp] at h
    simp only [Option.or, List.find?_cons] at h
    cases hf : (decide (first.method = method) && pathMatches first.path path) with
    | true =>
      rw [hf] at h
      simp only [Option.map_some', Option.some.injEq] at h
      exact hfirst h
    | false =>
      rw [hf] at h
      cases hr : rest.find?
          (fun route => decide (route.method = method) && pathMatches route.path path) with
      | none => rw [hr] at h; simp at h
      | some r =>
        rw [hr] at h
        simp only [Option.map_some', Option.some.injEq] at h
        have hmem := List.mem_of_find?_eq_some hr
        have hpr := List.find?_some hr
        simp only [Bool.and_eq_true, decide_eq_true_eq] at hpr
        obtain ⟨hm, hpath⟩ := hshadow r hmem h
        have : (decide (first.method = method) && pathMatches first.path path) = true := by
          simp only [Bool.and_eq_true, decide_eq_true_eq]
          exact ⟨hm.trans hpr.1, hpath path hpr.2⟩
        rw [this] at hf
        cases hf

theorem replyToPost_unreachable : ¬ Reachable communitiesRouter .replyToPost := by
  rintro ⟨method, path, h⟩
  refine @handlerFor_ne_of_shadowed CommunityHandler
    [⟨.POST, [], .createCommunity⟩, ⟨.GET, [], .getAllCommunities⟩,
      ⟨.GET, [.param "id"], .getCommunityById⟩]
    ⟨.POST, [.lit "posts", .param "id"], .createPostInCommunity⟩
    [⟨.GET, [.lit "posts", .param "id"], .getAllPostsInCommunity⟩,
      ⟨.POST, [.lit "posts", .lit "replies"], .replyToPost⟩,
      ⟨.GET, [.lit "posts", .lit "replies"], .getAllReplies⟩]
    .replyToPost (by decide) (by decide) ?_ method path h
  intro r hr hh
  simp only [List.mem_cons, List.mem_singleton, List.not_mem_nil, or_false] at hr
  rcases hr with rfl | rfl | rfl
  · cases hh
  · exact ⟨rfl, pathMatches_lit_param "posts" "replies" "id" (by decide)⟩
  · cases hh

theorem getAllReplies_unreachable : ¬ Reachable communitiesRouter .getAllReplies := by
  rintro ⟨method, path, h⟩
  refine @handlerFor_ne_of_shadowed CommunityHandler
    [⟨.POST, [], .createCommunity⟩, ⟨.GET, [], .getAllCommunities⟩,
      ⟨.GET, [.param "id"], .getCommunityById⟩,
      ⟨.POST, [.lit "posts", .param "id"], .createPostInCommunity⟩]
    ⟨.GET, [.lit "posts", .param "id"], .getAllPostsInCommunity⟩
    [⟨.POST, [.lit "posts", .lit "replies"], .replyToPost⟩,
      ⟨.GET, [.lit "posts", .lit "replies"], .getAllReplies⟩]
    .getAllReplies (by decide) (by decide) ?_ method path h
  intro r hr hh
  simp only [List.mem_cons, List.mem_singleton, List.not_mem_nil, or_false] at hr
  rcases hr with rfl | rfl
  · cases hh
  · exact ⟨rfl, pathMatches_lit_param "posts" "replies" "id" (by decide)⟩

theorem getReviewHighlights_unreachable : ¬ Reachable movieRouter .getReviewHighlights := by
  rintro ⟨method, path, h⟩
  refine @handlerFor_ne_of_shadowed MovieHandler (movieRouter.take 22)
    ⟨.GET, [.lit "reviews", .param "id"], .getMovieReviews⟩
    [⟨.GET, [.lit "reviews", .lit "highlights"], .getReviewHighlights⟩,
      ⟨.GET, [.lit "reviews", .lit "averageRating", .param "id"], .getAverageRating⟩,
      ⟨.GET, [.lit "reviews", .lit "top-rated", .param "id"], .getTopRatedReviews⟩]
    .getReviewHighlights (by decide) (by decide) ?_ method path h
  intro r hr hh
  simp only [List.mem_cons, List.mem_singleton, List.not_mem_nil, or_false] at hr
  rcases hr with rfl | rfl | rfl
  · exact ⟨rfl, pathMatches_lit_param "reviews" "highlights" "id" (by decide)⟩
  · cases hh
  · cases hh

/-- Of the handlers of the communities router, the two for replies and only
they are reached by no request. -/
theorem communitiesRouter_reachable (handler : CommunityHandler) :
    Reachable communitiesRouter handler ↔ handler ≠ .replyToPost ∧ handler ≠ .getAllReplies := by
  cases handler with
  | createCommunity => exact ⟨fun _ => by decide, fun _ => ⟨.POST, [], by decide⟩⟩
  | getAllCommunities => exact ⟨fun _ => by decide, fun _ => ⟨.GET, [], by decide⟩⟩
  | getCommunityById => exact ⟨fun _ => by decide, fun _ => ⟨.GET, ["5"], by decide⟩⟩
  | createPostInCommunity => exact ⟨fun _ => by decide, fun _ => ⟨.POST, ["posts", "5"], by decide⟩⟩
  | getAllPostsInCommunity => exact ⟨fun _ => by decide, fun _ => ⟨.GET, ["posts", "5"], by decide⟩⟩
  | replyToPost =>
    exact ⟨fun hr => absurd hr replyToPost_unreachable, fun hne => by simp at hne⟩
  | getAllReplies =>
    exact ⟨fun hr => absurd hr getAllReplies_unreachable, fun hne => by simp at hne⟩

/-- Of the handlers of the movie router, `getReviewHighlights` and only it is
reached by no request. -/
theorem movieRouter_reachable (handler : MovieHandler) :
    Reachable movieRouter handler ↔ handler ≠ .getReviewHighlights := by
  cases handler with
  | getRecommendations => exact ⟨fun _ => by decide, fun _ => ⟨.GET, ["recommendation"], by decide⟩⟩
  | getSimilarMovies => exact ⟨fun _ => by decide, fun _ => ⟨.GET, ["similar", "7"], by decide⟩⟩
  | getTrendingMovies => exact ⟨fun _ => by decide, fun _ => ⟨.GET, ["trending"], by decide⟩⟩
  | getTopRatedMovies => exact ⟨fun _ => by decide, fun _ => ⟨.GET, ["top-rated"], by decide⟩⟩
  | searchMovies => exact ⟨fun _ => by decide, fun _ => ⟨.GET, ["search"], by decide⟩⟩
  | advancedFilterMovies => exact ⟨fun _ => by decide, fun _ => ⟨.GET, ["advanced-filter"], by decide⟩⟩
  | getTopMoviesOfMonth => exact ⟨fun _ => by decide, fun _ => ⟨.GET, ["top-month"], by decide⟩⟩
  | getTopMoviesByGenre => exact ⟨fun _ => by decide, fun _ => ⟨.GET, ["top-genre"], by decide⟩⟩
  | getBoxOfficeInfo => exact ⟨fun _ => by decide, fun _ => ⟨.GET, ["box-office", "7"], by decide⟩⟩
  | getAwardsInfo => exact ⟨fun _ => by decide, fun _ => ⟨.GET, ["awards", "7"], by decide⟩⟩
  | getAllMovies => exact ⟨fun _ => by decide, fun _ => ⟨.GET, [], by decide⟩⟩
  | getMovieById => exact ⟨fun _ => by decide, fun _ => ⟨.GET, ["7"], by decide⟩⟩
  | addMovie => exact ⟨fun _ => by decide, fun _ => ⟨.POST, [], by decide⟩⟩
  | updateMovie => exact ⟨fun _ => by decide, fun _ => ⟨.PUT, ["7"], by decide⟩⟩
  | deleteMovie => exact ⟨fun _ => by decide, fun _ => ⟨.DELETE, ["7"], by decide⟩⟩
  | getMovieCast => exact ⟨fun _ => by decide, fun _ => ⟨.GET, ["cast", "7"], by decide⟩⟩
  | getMovieTrivia => exact ⟨fun _ => by decide, fun _ => ⟨.GET, ["trivia", "7"], by decide⟩⟩
  | getMovieGoofs => exact ⟨fun _ => by decide, fun _ => ⟨.GET, ["goofs", "7"], by decide⟩⟩
  | getMovieSoundtrack => exact ⟨fun _ => by decide, fun _ => ⟨.GET, ["soundtracks", "7"], by decide⟩⟩
  | addMovieReview => exact ⟨fun _ => by decide, fun _ => ⟨.POST, ["reviews", "7"], by decide⟩⟩
  | updateMovieReview => exact ⟨fun _ => by decide, fun _ => ⟨.PUT, ["reviews", "7"], by decide⟩⟩
  | deleteMovieReview => exact ⟨fun _ => by decide, fun _ => ⟨.DELETE, ["reviews", "7"], by decide⟩⟩
  | getMovieReviews => exact ⟨fun _ => by decide, fun _ => ⟨.GET, ["reviews", "7"], by decide⟩⟩
  | getReviewHighlights =>
    exact ⟨fun hr => absurd hr getReviewHighlights_unreachable, fun hne => by simp at hne⟩
  | getAverageRating => exact ⟨fun _ => by decide, fun _ => ⟨.GET, ["reviews", "averageRating", "7"], by decide⟩⟩
  | getTopRatedReviews => exact ⟨fun _ => by decide, fun _ => ⟨.GET, ["reviews", "top-rated", "7"], by decide⟩⟩

/-- C30. The failing inputs. `POST /posts/replies` and `GET /posts/replies` on
the communities router are dispatched to `createPostInCommunity` and
`getAllPostsInCommunity`, whose routes `/posts/:id` are registered first and
bind `id` to the text `replies`; `GET /reviews/highlights` on the movie router
is dispatched to `getMovieReviews`. No request at all reaches `replyToPost`,
`getAllReplies` or `getReviewHighlights`; and the path of the two replies
routes binds neither `communityId` nor `postId`. -/
theorem replies_and_highlights_shadowed :
    handlerFor communitiesRouter .POST ["posts", "replies"] = some .createPostInCommunity ∧
    (dispatch communitiesRouter .POST ["posts", "replies"]).map
      (fun route => bindParams route.path ["posts", "replies"]) = some [("id", "replies")] ∧
    handlerFor communitiesRouter .GET ["posts", "replies"] = some .getAllPostsInCommunity ∧
    handlerFor movieRouter .GET ["reviews", "highlights"] = some .getMovieReviews ∧
    ¬ Reachable communitiesRouter .replyToPost ∧
    ¬ Reachable communitiesRouter .getAllReplies ∧
    ¬ Reachable movieRouter .getReviewHighlights ∧
    (∀ path, (bindParams [.lit "posts", .lit "replies"] path).lookup "communityId" = none ∧
      (bindParams [.lit "posts", .lit "replies"] path).lookup "postId" = none) := by
  refine ⟨by decide, by decide, by decide, by decide, replyToPost_unreachable,
    getAllReplies_unreachable, getReviewHighlights_unreachable, ?_⟩
  intro path
  match path with
  | [] => exact ⟨rfl, rfl⟩
  | [_] => exact ⟨rfl, rfl⟩
  | _ :: _ :: _ => exact ⟨rfl, rfl⟩

/-! ## The order of the ratings -/

/-- The mean that double arithmetic computes depends on the order of the
ratings: for the doubles next to 2.9, 1.2 and 1.3, in this order and with the
last two swapped, it is the double printed 1.7999999999999998 and the double
printed 1.8. -/
theorem doubleMean_depends_on_order :
    doubleMean [6530219459687219 / 2251799813685248, 5404319552844595 / 4503599627370496,
        5854679515581645 / 4503599627370496]
      = 2026619832316723 / 1125899906842624 ∧
    doubleMean [6530219459687219 / 2251799813685248, 5854679515581645 / 4503599627370496,
        5404319552844595 / 4503599627370496]
      = 8106479329266893 / 4503599627370496 ∧
    (2026619832316723 / 1125899906842624 : ℚ) ≠ 8106479329266893 / 4503599627370496 := by
  have ha0 : roundDouble (6530219459687219 / 2251799813685248)
      = 6530219459687219 / 2251799813685248 := by
    have h := roundDouble_eq (6530219459687219 / 2251799813685248) (1) 6530219459687219
      (by norm_num [abs_of_pos]) (by norm_num [abs_of_pos]) (by norm_num)
      (by rw [abs_lt]; constructor <;> norm_num)
    norm_num at h ⊢
    exact h
  have ha1 : roundDouble (18464758472219033 / 4503599627370496)
      = 2308094809027379 / 562949953421312 := by
    have h := roundDouble_eq (18464758472219033 / 4503599627370496) (2) 4616189618054758
      (by norm_num [abs_of_pos]) (by norm_num [abs_of_pos]) (by norm_num)
      (by rw [abs_lt]; constructor <;> norm_num)
    norm_num at h ⊢
    exact h
  have ha2 : roundDouble (24319437987800677 / 4503599627370496)
      = 6079859496950169 / 1125899906842624 := by
    have h := roundDouble_eq (24319437987800677 / 4503599627370496) (2) 6079859496950169
      (by norm_num [abs_of_pos]) (by norm_num [abs_of_pos]) (by norm_num)
      (by rw [abs_lt]; constructor <;> norm_num)
    norm_num at h ⊢
    exact h
  have had : roundDouble (2026619832316723 / 1125899906842624)
      = 2026619832316723 / 1125899906842624 := by
    have h := roundDouble_eq (2026619832316723 / 1125899906842624) (0) 8106479329266892
      (by norm_num [abs_of_pos]) (by norm_num [abs_of_pos]) (by norm_num)
      (by rw [abs_lt]; constructor <;> norm_num)
    norm_num at h ⊢
    exact h
  have hb1 : roundDouble (18915118434956083 / 4503599627370496)
      = 4728779608739021 / 1125899906842624 := by
    have h := roundDouble_eq (18915118434956083 / 4503599627370496) (2) 4728779608739021
      (by norm_num [abs_of_pos]) (by norm_num [abs_of_pos]) (by norm_num)
      (by rw [abs_lt]; constructor <;> norm_num)
    norm_num at h ⊢
    exact h
  have hb2 : roundDouble (24319437987800679 / 4503599627370496)
      = 3039929748475085 / 562949953421312 := by
    have h := roundDouble_eq (24319437987800679 / 4503599627370496) (2) 6079859496950170
      (by norm_num [abs_of_pos]) (by norm_num [abs_of_pos]) (by norm_num)
      (by rw [abs_lt]; constructor <;> norm_num)
    norm_num at h ⊢
    exact h
  have hbd : roundDouble (3039929748475085 / 1688849860263936)
      = 8106479329266893 / 4503599627370496 := by
    have h := roundDouble_eq (3039929748475085 / 1688849860263936) (0) 8106479329266893
      (by norm_num [abs_of_pos]) (by norm_num [abs_of_pos]) (by norm_num)
      (by rw [abs_lt]; constructor <;> norm_num)
    norm_num at h ⊢
    exact h
  refine ⟨?_, ?_, by norm_num⟩
  · norm_num [doubleMean, jsAdd, jsDiv, ha0, ha1, ha2, had]
  · norm_num [doubleMean, jsAdd, jsDiv, ha0, hb1, hb2, hbd]

end MovieCatalog
